import Mathlib

/-!
# FreelanceHub messaging subsystem

A shallow embedding of the conversation / message models
(`server/models/Conversation.js`, `server/models/Message.js`), of the send
endpoints of `server/controllers/messageController.js` and of the request
validators of `server/routes/messageRoutes.js`.

Modelling conventions

* An `ObjectId` is a natural number; `a.toString() === b.toString()` on two
  ids is equality of the numbers.
* A `Date` is a natural number of milliseconds.  Every operation receives the
  clock reading `now` that its `new Date()` calls return.
* Counters (`unreadCount`, `totalMessages`) are JavaScript numbers that only
  ever hold small non-negative integers; they are natural numbers here.
* The database is a `Store`: the list of conversation documents and the list of
  message documents, in insertion order.
* `doc.save()` of an existing document validates the modified paths and writes
  exactly the modified paths to the stored document (the behaviour of the
  document mapper); a copy loaded earlier may therefore be stale in the paths
  it does not write.
* A rejected promise / thrown error is the `Except.error` branch.
-/

namespace FreelanceHub

abbrev ObjectId := Nat
abbrev Date := Nat

/-! ## JavaScript string helpers -/

/-- White space removed by `String.prototype.trim`. -/
def isJsWhitespace (c : Char) : Bool :=
  let n := c.toNat
  (9 ≤ n && n ≤ 13) || n == 32 || n == 160 || n == 5760 || (8192 ≤ n && n ≤ 8202) ||
    n == 8232 || n == 8233 || n == 8239 || n == 8287 || n == 12288 || n == 65279

/-- Trim on the list of characters: drop leading and trailing white space. -/
def trimChars (cs : List Char) : List Char :=
  ((cs.dropWhile isJsWhitespace).reverse.dropWhile isJsWhitespace).reverse

/-- The function `String.prototype.trim` (also the schema option `trim: true`). -/
def jsTrim (s : String) : String := String.mk (trimChars s.data)

/-- The function `String.prototype.toUpperCase`, on the ASCII letters (the
currency codes the payment endpoint prints are ASCII). -/
def jsToUpperCase (s : String) : String := String.mk (s.data.map Char.toUpper)

/-- The property `.length` of a JavaScript string: UTF-16 code units. -/
def jsLength (s : String) : Nat :=
  (s.data.map (fun c => if c.toNat < 65536 then 1 else 2)).sum

/-! ## Message model: data -/

/-- Schema enum of `Message.type`. -/
def messageTypeEnum : List String :=
  ["text", "file", "image", "system", "order_update", "voice", "video", "email",
   "payment_request", "payment_receipt"]

/-- Schema enum of `attachments.attachmentType`. -/
def attachmentTypeEnum : List String :=
  ["image", "document", "video", "audio", "voice", "pdf", "zip", "other"]

/-- Schema enum of `Message.status`. -/
def messageStatusEnum : List String := ["sent", "delivered", "read", "failed"]

/-- Schema enum of `reactions.emoji`, the string literals of line 105 as they
stand in the source file. -/
def reactionEmojiEnum : List String :=
  ["ЁЯСН", "ЁЯСО", "тЭдя╕П", "ЁЯШВ", "ЁЯШо", "ЁЯШв", "ЁЯШб"]

/-- Schema enum of `flags.flagReason`. -/
def flagReasonEnum : List String := ["spam", "inappropriate", "harassment", "other"]

/-- Schema enum of `paymentData.status`. -/
def paymentStatusEnum : List String := ["pending", "succeeded", "failed", "cancelled"]

structure Attachment where
  filename : String
  originalName : String
  url : String
  size : Nat
  mimeType : String
  attachmentType : String := "other"
  dimensions : Option (Nat × Nat) := none
  duration : Option Nat := none
  thumbnail : Option String := none
  waveform : List Nat := []
deriving DecidableEq, Repr

structure ReadReceipt where
  user : ObjectId
  readAt : Date
deriving DecidableEq, Repr

structure Reaction where
  user : ObjectId
  emoji : String
  reactedAt : Date
deriving DecidableEq, Repr

structure EditEntry where
  content : String
  editedAt : Date
deriving DecidableEq, Repr

structure Edited where
  isEdited : Bool := false
  editedAt : Option Date := none
  originalContent : Option String := none
  editHistory : List EditEntry := []
deriving DecidableEq, Repr

/-- The facet `paymentData`.  `amount` is in hundredths of the currency unit;
`none` is a value that is not a number. -/
structure PaymentData where
  amount : Option Int
  currency : String := "usd"
  status : Option String := none
  description : Option String := none
deriving DecidableEq, Repr

structure VoiceData where
  duration : Nat
  waveform : List Nat := []
  isTranscribed : Bool := false
deriving DecidableEq, Repr

structure Flags where
  isDeleted : Bool := false
  deletedAt : Option Date := none
  deletedBy : Option ObjectId := none
  isFlagged : Bool := false
  flaggedAt : Option Date := none
  flaggedBy : Option ObjectId := none
  flagReason : Option String := none
deriving DecidableEq, Repr

structure Message where
  _id : ObjectId
  conversation : ObjectId
  sender : Option ObjectId
  type : String := "text"
  content : String
  attachments : List Attachment := []
  status : String := "sent"
  readBy : List ReadReceipt := []
  reactions : List Reaction := []
  replyTo : Option ObjectId := none
  edited : Edited := {}
  paymentData : Option PaymentData := none
  voiceData : Option VoiceData := none
  flags : Flags := {}
  sentAt : Date := 0
  createdAt : Date := 0
deriving DecidableEq, Repr

/-! ## Conversation model: data -/

/-- Schema enum of `Conversation.lastMessage.messageType`. -/
def lastMessageTypeEnum : List String := ["text", "file", "image", "system"]

/-- Schema enum of `Conversation.status`. -/
def conversationStatusEnum : List String := ["active", "archived", "blocked"]

/-- Schema enum of `Conversation.type`. -/
def conversationTypeEnum : List String := ["order", "inquiry", "support"]

structure LastMessage where
  content : Option String := none
  sender : Option ObjectId := none
  sentAt : Option Date := none
  messageType : String := "text"
deriving DecidableEq, Repr

structure ReadStatus where
  user : ObjectId
  lastReadAt : Date
  unreadCount : Nat := 0
deriving DecidableEq, Repr

structure ConversationMetadata where
  totalMessages : Nat := 0
  lastActivity : Date := 0
  createdBy : Option ObjectId := none
deriving DecidableEq, Repr

structure Conversation where
  _id : ObjectId
  participants : List ObjectId
  order : Option ObjectId := none
  gig : Option ObjectId := none
  type : String := "inquiry"
  subject : Option String := none
  lastMessage : LastMessage := {}
  status : String := "active"
  readStatus : List ReadStatus := []
  metadata : ConversationMetadata := {}
deriving DecidableEq, Repr

/-- The database: conversation documents and message documents. -/
structure Store where
  conversations : List Conversation := []
  messages : List Message := []
deriving DecidableEq, Repr

/-- Query `Conversation.findById(id)`. -/
def Store.findById (db : Store) (id : ObjectId) : Option Conversation :=
  db.conversations.find? (fun c => c._id == id)

/-- Query `Conversation.findOne({ _id: conversationId, participants: userId })`. -/
def Store.findOne (db : Store) (conversationId userId : ObjectId) : Option Conversation :=
  db.conversations.find? (fun c => c._id == conversationId && c.participants.contains userId)

/-- Query `Message.findById(id)`. -/
def Store.findMessage (db : Store) (id : ObjectId) : Option Message :=
  db.messages.find? (fun m => m._id == id)

/-- Database update of the stored conversation `id` by `f`. -/
def Store.updateConversation (db : Store) (id : ObjectId) (f : Conversation → Conversation) :
    Store :=
  { db with conversations := db.conversations.map (fun stored =>
      if stored._id == id then f stored else stored) }

/-! ## Conversation model: saving -/

/-- Paths of a conversation document that a method can mark modified. -/
inductive ConvPath where
  | participants
  | lastMessage
  | status
  | readStatus
  | totalMessages
  | lastActivity
deriving DecidableEq, Repr

/-- Validators of the Conversation schema that sit on a modified path. -/
def Conversation.validatePath (doc : Conversation) : ConvPath → Bool
  | .lastMessage => lastMessageTypeEnum.contains doc.lastMessage.messageType
  | .status => conversationStatusEnum.contains doc.status
  | _ => true

/-- Write one modified path of the in-memory document `doc` into `stored`. -/
def Conversation.writePath (doc stored : Conversation) : ConvPath → Conversation
  | .participants => { stored with participants := doc.participants }
  | .lastMessage => { stored with lastMessage := doc.lastMessage }
  | .status => { stored with status := doc.status }
  | .readStatus => { stored with readStatus := doc.readStatus }
  | .totalMessages =>
      { stored with metadata := { stored.metadata with totalMessages := doc.metadata.totalMessages } }
  | .lastActivity =>
      { stored with metadata := { stored.metadata with lastActivity := doc.metadata.lastActivity } }

/-- Write all the modified paths of `doc` into `stored`. -/
def Conversation.writePaths (doc stored : Conversation) (modified : List ConvPath) : Conversation :=
  modified.foldl (fun acc p => doc.writePath acc p) stored

/-- Method `save()` of an existing conversation document whose `modified`
paths were changed: validation of the modified paths, the `pre('save')` hook
(lines 143-159, `isNew` false: `metadata.lastActivity = new Date()`), and the
write of the modified paths to the stored document with the same `_id`. -/
def Conversation.save (doc : Conversation) (modified : List ConvPath) (now : Date) (db : Store) :
    Except String (Conversation × Store) :=
  if modified.all doc.validatePath then
    let doc1 : Conversation := { doc with metadata := { doc.metadata with lastActivity := now } }
    let paths := modified ++ [ConvPath.lastActivity]
    .ok (doc1, db.updateConversation doc._id (fun stored => doc1.writePaths stored paths))
  else
    .error "ValidationError"

/-! ## Conversation model: instance methods (lines 161-239) -/

/-- Method `addParticipant(userId)`. -/
def Conversation.addParticipant (this : Conversation) (userId : ObjectId) (now : Date) (db : Store) :
    Except String (Conversation × Store) :=
  if !this.participants.contains userId then
    let doc : Conversation := { this with
      participants := this.participants ++ [userId],
      readStatus := this.readStatus ++ [{ user := userId, lastReadAt := now, unreadCount := 0 }] }
    doc.save [.participants, .readStatus] now db
  else
    .ok (this, db)

/-- Method `removeParticipant(userId)`: `splice` removes the first occurrence,
`filter` removes every read-status entry of the user. -/
def Conversation.removeParticipant (this : Conversation) (userId : ObjectId) (now : Date)
    (db : Store) : Except String (Conversation × Store) :=
  if this.participants.contains userId then
    let doc : Conversation := { this with
      participants := this.participants.erase userId,
      readStatus := this.readStatus.filter (fun rs => rs.user != userId) }
    doc.save [.participants, .readStatus] now db
  else
    .ok (this, db)

/-- The in-memory effect of `markAsRead(userId)` on the read-status array: the
first entry of the user (`find`) gets `lastReadAt = now`, `unreadCount = 0`. -/
def markFirstRead (userId : ObjectId) (now : Date) : List ReadStatus → List ReadStatus
  | [] => []
  | rs :: rest =>
      if rs.user == userId then { rs with lastReadAt := now, unreadCount := 0 } :: rest
      else rs :: markFirstRead userId now rest

/-- Method `markAsRead(userId)`. -/
def Conversation.markAsRead (this : Conversation) (userId : ObjectId) (now : Date) (db : Store) :
    Except String (Conversation × Store) :=
  match this.readStatus.find? (fun rs => rs.user == userId) with
  | some _ =>
      let doc : Conversation := { this with readStatus := markFirstRead userId now this.readStatus }
      doc.save [.readStatus] now db
  | none => .ok (this, db)

/-- Method `incrementUnreadCount(senderId)`. -/
def Conversation.incrementUnreadCount (this : Conversation) (senderId : ObjectId) (now : Date)
    (db : Store) : Except String (Conversation × Store) :=
  let doc : Conversation := { this with
    readStatus := this.readStatus.map (fun (rs : ReadStatus) =>
      if rs.user != senderId then { rs with unreadCount := rs.unreadCount + 1 } else rs) }
  doc.save [.readStatus] now db

/-- Method `updateLastMessage(message)`.  The schema option `trim: true` of
`lastMessage.content` is applied by the assignment. -/
def Conversation.updateLastMessage (this : Conversation) (message : Message) (now : Date)
    (db : Store) : Except String (Conversation × Store) :=
  let doc : Conversation := { this with
    lastMessage :=
      { content := some (jsTrim message.content),
        sender := message.sender,
        sentAt := some message.createdAt,
        messageType := message.type },
    metadata := { this.metadata with
      totalMessages := this.metadata.totalMessages + 1,
      lastActivity := now } }
  doc.save [.lastMessage, .totalMessages, .lastActivity] now db

/-- Method `archive()`. -/
def Conversation.archive (this : Conversation) (now : Date) (db : Store) :
    Except String (Conversation × Store) :=
  ({ this with status := "archived" } : Conversation).save [.status] now db

/-- Method `unarchive()`. -/
def Conversation.unarchive (this : Conversation) (now : Date) (db : Store) :
    Except String (Conversation × Store) :=
  ({ this with status := "active" } : Conversation).save [.status] now db

/-! ## Message model: saving (lines 307-345) -/

/-- Validators of the Message schema (`required`, `enum`, `maxlength`, number
cast).  A string path that is `required` rejects the empty string.  Every
validator is run at every save: a stored document was itself saved through the
schema, so the validators of its unmodified paths pass again. -/
def Message.validate (m : Message) : Bool :=
  m.sender.isSome &&
  messageTypeEnum.contains m.type &&
  m.content != "" && decide (jsLength m.content ≤ 1000) &&
  m.attachments.all (fun a =>
    a.filename != "" && a.originalName != "" && a.url != "" && a.mimeType != "" &&
    attachmentTypeEnum.contains a.attachmentType) &&
  messageStatusEnum.contains m.status &&
  m.reactions.all (fun r => reactionEmojiEnum.contains r.emoji) &&
  (match m.paymentData with
   | none => true
   | some p => p.amount.isSome &&
       (match p.status with
        | none => true
        | some st => paymentStatusEnum.contains st)) &&
  (match m.flags.flagReason with
   | none => true
   | some r => flagReasonEnum.contains r)

/-- Hook `messageSchema.pre('save')`: the delivery timestamp of a new message
and the status update based on read receipts.  (The generated
`metadata.messageId` is not modelled.) -/
def Message.preSave (this : Message) (isNew : Bool) (now : Date) : Message :=
  let m1 : Message := if isNew then { this with sentAt := now } else this
  if m1.readBy.length > 0 && m1.status == "delivered" then { m1 with status := "read" } else m1

/-- Hook `messageSchema.post('save')`: runs after every successful save of a
message document; an error thrown inside is caught and logged. -/
def Message.postSave (doc : Message) (now : Date) (db : Store) : Store :=
  if !doc.flags.isDeleted then
    match db.findById doc.conversation with
    | some conversation =>
        match conversation.updateLastMessage doc now db with
        | .error _ => db
        | .ok (conversation1, db1) =>
            match doc.sender with
            | none => db1
            | some sender =>
                match conversation1.incrementUnreadCount sender now db1 with
                | .error _ => db1
                | .ok (_, db2) => db2
    | none => db
  else db

/-- The document a save writes: `pre('save')` applied and, for a new document,
the `createdAt` timestamp. -/
def Message.toStore (this : Message) (isNew : Bool) (now : Date) : Message :=
  let doc := this.preSave isNew now
  if isNew then { doc with createdAt := now } else doc

/-- Method `save()` of a message document: validation, `pre('save')`, the write
(insert of a new document, replacement of the stored one otherwise), then
`post('save')`, which the returned promise waits for. -/
def Message.save (this : Message) (isNew : Bool) (now : Date) (db : Store) :
    Except String (Message × Store) :=
  if this.validate then
    let doc := this.toStore isNew now
    let db1 : Store :=
      if isNew then { db with messages := db.messages ++ [doc] }
      else { db with messages := db.messages.map (fun m => if m._id == doc._id then doc else m) }
    .ok (doc, Message.postSave doc now db1)
  else
    .error "ValidationError"

/-! ## Message model: instance methods (lines 347-435) -/

/-- Method `markAsRead(userId)`. -/
def Message.markAsRead (this : Message) (userId : ObjectId) (now : Date) (db : Store) :
    Except String (Message × Store) :=
  match this.readBy.find? (fun read => read.user == userId) with
  | none =>
      let m1 : Message := { this with readBy := this.readBy ++ [{ user := userId, readAt := now }] }
      let m2 : Message := if m1.status == "delivered" then { m1 with status := "read" } else m1
      m2.save false now db
  | some _ => .ok (this, db)

/-- Method `addReaction(userId, emoji)`. -/
def Message.addReaction (this : Message) (userId : ObjectId) (emoji : String) (now : Date)
    (db : Store) : Except String (Message × Store) :=
  let m1 : Message := { this with
    reactions := this.reactions.filter (fun reaction => reaction.user != userId) ++
      [{ user := userId, emoji := emoji, reactedAt := now }] }
  m1.save false now db

/-- Method `removeReaction(userId)`. -/
def Message.removeReaction (this : Message) (userId : ObjectId) (now : Date) (db : Store) :
    Except String (Message × Store) :=
  let m1 : Message := { this with
    reactions := this.reactions.filter (fun reaction => reaction.user != userId) }
  m1.save false now db

/-- Method `editContent(newContent)`; the assignment to `content` applies the
schema option `trim: true`. -/
def Message.editContent (this : Message) (newContent : String) (now : Date) (db : Store) :
    Except String (Message × Store) :=
  let original := if !this.edited.isEdited then some this.content else this.edited.originalContent
  let m1 : Message := { this with
    content := jsTrim newContent,
    edited :=
      { isEdited := true,
        editedAt := some now,
        originalContent := original,
        editHistory := this.edited.editHistory ++ [{ content := this.content, editedAt := now }] } }
  m1.save false now db

/-- The fixed placeholder written by `softDelete`. -/
def deletedPlaceholder : String := "This message has been deleted"

/-- Method `softDelete(deletedBy)`. -/
def Message.softDelete (this : Message) (deletedBy : ObjectId) (now : Date) (db : Store) :
    Except String (Message × Store) :=
  let m1 : Message := { this with
    flags := { this.flags with isDeleted := true, deletedAt := some now, deletedBy := some deletedBy },
    content := deletedPlaceholder }
  m1.save false now db

/-- Method `flag(flaggedBy, reason)`. -/
def Message.flag (this : Message) (flaggedBy : ObjectId) (reason : String) (now : Date)
    (db : Store) : Except String (Message × Store) :=
  let m1 : Message := { this with
    flags := { this.flags with
      isFlagged := true, flaggedAt := some now, flaggedBy := some flaggedBy,
      flagReason := some reason } }
  m1.save false now db

/-! ## Request validators (server/routes/messageRoutes.js) -/

/-- A send request for the text endpoint: route parameter, authenticated user
and the body fields read by the handler. -/
structure TextRequest where
  conversationId : ObjectId
  userId : ObjectId
  content : Option String
  type : Option String := none
  replyTo : Option ObjectId := none
deriving DecidableEq, Repr

/-- Chain `validateTextMessage` (lines 19-28): the trimmed content has between
1 and 1000 characters and the optional type is one of the three listed. -/
def validateTextMessage (req : TextRequest) : Bool :=
  let content := jsTrim (req.content.getD "")
  decide (1 ≤ content.length) && decide (content.length ≤ 1000) &&
  (match req.type with
   | none => true
   | some t => ["text", "email", "system"].contains t)

/-- A send request for the payment-request endpoint.  The body value `amount`
is carried as its text (`amountText`, what the template literal prints) and its
numeric reading in hundredths (`amount`, `none` when it is not a number). -/
structure PaymentRequest where
  conversationId : ObjectId
  userId : ObjectId
  amountText : String
  amount : Option Int
  description : Option String
  currency : Option String := none
deriving DecidableEq, Repr

/-- Chain `validatePaymentRequest` (lines 30-42): amount is a float of at least
0.50, the trimmed description has between 1 and 200 characters, the optional
currency is one of the three listed. -/
def validatePaymentRequest (req : PaymentRequest) : Bool :=
  (match req.amount with
   | none => false
   | some a => decide (50 ≤ a)) &&
  (let d := jsTrim (req.description.getD "")
   decide (1 ≤ d.length) && decide (d.length ≤ 200)) &&
  (match req.currency with
   | none => true
   | some c => ["usd", "eur", "gbp"].contains c)

/-! ## Controllers (server/controllers/messageController.js) -/

/-- The JSON answer of a handler. -/
structure Response where
  status : Nat
  success : Bool
  message : Option String := none
  data : Option Message := none
deriving DecidableEq, Repr

/-- One call of `io.emitToConversation`. -/
structure Emit where
  room : String
  event : String
  message : Message
deriving DecidableEq, Repr

/-- What a handler leaves behind: the answer, the database, the real-time
events emitted and the objects uploaded to storage (folder of each). -/
structure Outcome where
  response : Response
  db : Store
  emitted : List Emit := []
  uploaded : List String := []
deriving DecidableEq, Repr

/-- The surroundings of one request: the clock, the `_id` generated for the new
message document, and whether `req.app.get('io')` yields the gateway. -/
structure Env where
  now : Date
  newId : ObjectId
  ioConfigured : Bool
deriving DecidableEq, Repr

/-- The emission `io.emitToConversation(conversationId, 'new_message', ...)`
guarded by `if (io)`. -/
def emitNewMessage (env : Env) (conversationId : ObjectId) (message : Message) : List Emit :=
  if env.ioConfigured then
    [{ room := "conversation_" ++ toString conversationId, event := "new_message",
       message := message }]
  else []

/-- The answer `404 Conversation not found`. -/
def conversationNotFound : Response :=
  { status := 404, success := false, message := some "Conversation not found" }

/-- The common tail of the four send handlers: `await message.save()`,
`await conversation.updateLastMessage(message)` on the document loaded by the
handler before the save, the emission and the 201 answer; an error thrown on
the way reaches the handler's `catch`, which answers 500 with `failure`. -/
def persistAndNotify (env : Env) (conversation : Conversation) (message : Message)
    (failure : String) (uploaded : List String) (db : Store) : Outcome :=
  match message.save true env.now db with
  | .error _ =>
      { response := { status := 500, success := false, message := some failure },
        db := db, uploaded := uploaded }
  | .ok (message1, db1) =>
      match conversation.updateLastMessage message1 env.now db1 with
      | .error _ =>
          { response := { status := 500, success := false, message := some failure },
            db := db1, uploaded := uploaded }
      | .ok (_, db2) =>
          { response := { status := 201, success := true, data := some message1 },
            db := db2,
            emitted := emitNewMessage env message1.conversation message1,
            uploaded := uploaded }

/-- Handler `sendTextMessage` (lines 177-240). -/
def sendTextMessage (env : Env) (req : TextRequest) (db : Store) : Outcome :=
  if !validateTextMessage req then
    { response := { status := 400, success := false, message := some "Validation failed" },
      db := db }
  else
    match db.findOne req.conversationId req.userId with
    | none => { response := conversationNotFound, db := db }
    | some conversation =>
        let message : Message :=
          { _id := env.newId,
            conversation := req.conversationId,
            sender := some req.userId,
            type := req.type.getD "text",
            content := jsTrim (jsTrim (req.content.getD "")),
            replyTo := req.replyTo }
        persistAndNotify env conversation message "Failed to send message" [] db

/-- Handler `sendPaymentRequest` (lines 492-551).  The handler does not read
`validationResult(req)`; of the chain `validatePaymentRequest` only the
sanitizer `trim()` of the description has an effect. -/
def sendPaymentRequest (env : Env) (req : PaymentRequest) (db : Store) : Outcome :=
  match db.findOne req.conversationId req.userId with
  | none => { response := conversationNotFound, db := db }
  | some conversation =>
      let currency := req.currency.getD "usd"
      let message : Message :=
        { _id := env.newId,
          conversation := req.conversationId,
          sender := some req.userId,
          type := "payment_request",
          content :=
            jsTrim ("Payment request for $" ++ req.amountText ++ " " ++ jsToUpperCase currency),
          paymentData := some
            { amount := req.amount,
              currency := currency,
              description := req.description.map jsTrim,
              status := some "pending" } }
      persistAndNotify env conversation message "Failed to send payment request" [] db

/-- The test `s.startsWith(p)`. -/
def jsStartsWith (s p : String) : Bool := p.data.isPrefixOf s.data

/-- The test `s.includes(p)`. -/
def jsIncludes (s p : String) : Bool := s.data.tails.any (fun t => p.data.isPrefixOf t)

/-- Helper `getAttachmentType` (lines 386-394). -/
def getAttachmentType (mimeType : String) : String :=
  if jsStartsWith mimeType "image/" then "image"
  else if jsStartsWith mimeType "video/" then "video"
  else if jsStartsWith mimeType "audio/" then "audio"
  else if mimeType == "application/pdf" then "pdf"
  else if jsIncludes mimeType "zip" then "zip"
  else if jsIncludes mimeType "document" || jsIncludes mimeType "word" then "document"
  else "other"

/-- The file parsed by the upload middleware (`req.file`): name, mime type and
size, and for an image the width and height its buffer decodes to. -/
structure UploadedFile where
  originalname : String
  mimetype : String
  size : Nat
  dimensions : Option (Nat × Nat) := none
deriving DecidableEq, Repr

/-- The answer of the storage service to a completed upload. -/
structure UploadResult where
  secure_url : String
  duration : Option Nat := none
deriving DecidableEq, Repr

/-- A send request for the file endpoint and for the voice endpoint.  `upload`
is what the storage service does with the upload call of this request: `none`
when the image processing or the upload is rejected. -/
structure FileRequest where
  conversationId : ObjectId
  userId : ObjectId
  file : Option UploadedFile
  content : Option String := none
  type : Option String := none
  upload : Option UploadResult
deriving DecidableEq, Repr

/-- The expression `secure_url.replace(/\.[^/.]+$/, '.jpg')`. -/
def replaceExtension (url : String) : String :=
  let cs := url.data.reverse
  let ext := cs.takeWhile (fun c => c != '.' && c != '/')
  match cs.dropWhile (fun c => c != '.' && c != '/') with
  | '.' :: base => if ext.isEmpty then url else String.mk (base.reverse ++ ".jpg".data)
  | _ => url

/-- The storage folder chosen by `sendFileMessage` for a mime type. -/
def uploadFolder (mimetype : String) : String :=
  if jsStartsWith mimetype "image/" then "messages/images"
  else if jsStartsWith mimetype "video/" then "messages/videos"
  else "messages/files"

/-- Handler `sendFileMessage` (lines 245-381). -/
def sendFileMessage (env : Env) (req : FileRequest) (db : Store) : Outcome :=
  match req.file with
  | none =>
      { response := { status := 400, success := false, message := some "No file uploaded" },
        db := db }
  | some file =>
      match db.findOne req.conversationId req.userId with
      | none => { response := conversationNotFound, db := db }
      | some conversation =>
          match req.upload with
          | none =>
              { response :=
                  { status := 500, success := false, message := some "Failed to send file message" },
                db := db }
          | some uploadResult =>
              let attachmentType := getAttachmentType file.mimetype
              let isImage := jsStartsWith file.mimetype "image/"
              let isVideo := !isImage && jsStartsWith file.mimetype "video/"
              let attachmentData : Attachment :=
                { filename := toString env.now ++ "_" ++ file.originalname,
                  originalName := file.originalname,
                  size := file.size,
                  mimeType := file.mimetype,
                  attachmentType := attachmentType,
                  dimensions := if isImage then file.dimensions else none,
                  duration := if isVideo then uploadResult.duration else none,
                  thumbnail :=
                    if isVideo then some (replaceExtension uploadResult.secure_url) else none,
                  url := uploadResult.secure_url }
              let content := req.content.getD ""
              let message : Message :=
                { _id := env.newId,
                  conversation := req.conversationId,
                  sender := some req.userId,
                  type := req.type.getD "file",
                  content := jsTrim (if content != "" then content else "Shared " ++ attachmentType),
                  attachments := [attachmentData] }
              persistAndNotify env conversation message "Failed to send file message"
                [uploadFolder file.mimetype] db

/-- Handler `sendVoiceMessage` (lines 399-487). -/
def sendVoiceMessage (env : Env) (req : FileRequest) (db : Store) : Outcome :=
  match req.file with
  | none =>
      { response := { status := 400, success := false, message := some "No audio file uploaded" },
        db := db }
  | some file =>
      match db.findOne req.conversationId req.userId with
      | none => { response := conversationNotFound, db := db }
      | some conversation =>
          match req.upload with
          | none =>
              { response :=
                  { status := 500, success := false, message := some "Failed to send voice message" },
                db := db }
          | some uploadResult =>
              let message : Message :=
                { _id := env.newId,
                  conversation := req.conversationId,
                  sender := some req.userId,
                  type := "voice",
                  content := jsTrim "Voice message",
                  attachments :=
                    [{ filename := "voice_" ++ toString env.now ++ ".webm",
                       originalName := "voice-message.webm",
                       url := uploadResult.secure_url,
                       size := file.size,
                       mimeType := file.mimetype,
                       attachmentType := "voice",
                       duration := some (uploadResult.duration.getD 0) }],
                  voiceData := some { duration := uploadResult.duration.getD 0 } }
              persistAndNotify env conversation message "Failed to send voice message"
                ["messages/voice"] db

/-! ## Listing messages (lines 94-172, Message.js lines 437-450) -/

/-- Static `Message.findByConversation(conversationId, options)`: the messages
of the conversation whose `flags.isDeleted` is false, sorted by `createdAt`
(descending when `descending`), after `skip`, at most `limit` (50 when the
option is 0 or absent). -/
def findByConversation (db : Store) (conversationId : ObjectId) (limit skip : Nat)
    (descending : Bool) : List Message :=
  let found := db.messages.filter (fun m => m.conversation == conversationId && !m.flags.isDeleted)
  let sorted :=
    if descending then found.insertionSort (fun a b => b.createdAt ≤ a.createdAt)
    else found.insertionSort (fun a b => a.createdAt ≤ b.createdAt)
  (sorted.drop skip).take (if limit == 0 then 50 else limit)

/-- The update `Message.updateMany({conversation, sender: {$ne: userId},
'readBy.user': {$ne: userId}}, {$push: {readBy: ...}})` of `getMessages`: a
direct database update, no document hook runs. -/
def pushReadReceipts (db : Store) (conversationId userId : ObjectId) (now : Date) : Store :=
  { db with messages := db.messages.map (fun m =>
      if m.conversation == conversationId && m.sender != some userId &&
          !m.readBy.any (fun read => read.user == userId) then
        { m with readBy := m.readBy ++ [{ user := userId, readAt := now }] }
      else m) }

/-- The update `Conversation.updateOne({_id, 'readStatus.user': userId},
{$set: {'readStatus.$.lastReadAt': now, 'readStatus.$.unreadCount': 0}})` of
`getMessages`: the positional operator addresses the first matching entry; a
direct database update, no document hook runs. -/
def resetReadStatus (db : Store) (conversationId userId : ObjectId) (now : Date) : Store :=
  db.updateConversation conversationId (fun c =>
    { c with readStatus := markFirstRead userId now c.readStatus })

/-- The answer of `getMessages`. -/
structure MessagesOutcome where
  status : Nat
  messages : List Message := []
  total : Nat := 0
  db : Store
deriving DecidableEq, Repr

/-- Handler `getMessages` (lines 94-172) for the query values `page` (any
integer) and `limit` (a natural number).  The database rejects the query of
`findByConversation` when
`skip = (page - 1) * limit` is negative (page 0 or below with a limit above 0);
the handler's `catch` then answers 500, before `updateMany` and `updateOne`
are reached. -/
def getMessages (now : Date) (conversationId userId : ObjectId) (page : Int) (limit : Nat)
    (db : Store) : MessagesOutcome :=
  match db.findOne conversationId userId with
  | none => { status := 404, db := db }
  | some _ =>
      if (page - 1) * (limit : Int) < 0 then { status := 500, db := db }
      else
        let messages :=
          findByConversation db conversationId limit ((page - 1) * (limit : Int)).toNat true
        let db1 := pushReadReceipts db conversationId userId now
        let db2 := resetReadStatus db1 conversationId userId now
        { status := 200,
          messages := messages.reverse,
          total := (db2.messages.filter (fun m =>
            m.conversation == conversationId && !m.flags.isDeleted)).length,
          db := db2 }

/-! ## Messaging operations on the store -/

/-- A messaging operation issued against the store.  A model method is called
on the document freshly loaded by its `_id`. -/
inductive MessagingOp where
  | sendText (env : Env) (req : TextRequest)
  | sendFile (env : Env) (req : FileRequest)
  | sendVoice (env : Env) (req : FileRequest)
  | sendPayment (env : Env) (req : PaymentRequest)
  | editContent (messageId : ObjectId) (newContent : String)
  | softDelete (messageId : ObjectId) (deletedBy : ObjectId)
  | messageMarkAsRead (messageId : ObjectId) (userId : ObjectId)
  | addReaction (messageId : ObjectId) (userId : ObjectId) (emoji : String)
  | removeReaction (messageId : ObjectId) (userId : ObjectId)
  | flag (messageId : ObjectId) (flaggedBy : ObjectId) (reason : String)
  | listMessages (conversationId : ObjectId) (userId : ObjectId) (page : Int) (limit : Nat)
  | conversationMarkAsRead (conversationId : ObjectId) (userId : ObjectId)
  | incrementUnreadCount (conversationId : ObjectId) (senderId : ObjectId)
  | updateLastMessage (conversationId : ObjectId) (messageId : ObjectId)
  | archive (conversationId : ObjectId)
  | unarchive (conversationId : ObjectId)
  | addParticipant (conversationId : ObjectId) (userId : ObjectId)
  | removeParticipant (conversationId : ObjectId) (userId : ObjectId)

/-- The store left by a model method: the new store on success, the store as
it was when the method's promise is rejected. -/
def storeAfter {α : Type} (db : Store) : Except String (α × Store) → Store
  | .ok (_, db1) => db1
  | .error _ => db

/-- Call a Message method on the stored message `messageId`. -/
def onMessage (db : Store) (messageId : ObjectId)
    (method : Message → Store → Except String (Message × Store)) : Store :=
  match db.findMessage messageId with
  | some m => storeAfter db (method m db)
  | none => db

/-- Call a Conversation method on the stored conversation `conversationId`. -/
def onConversation (db : Store) (conversationId : ObjectId)
    (method : Conversation → Store → Except String (Conversation × Store)) : Store :=
  match db.findById conversationId with
  | some c => storeAfter db (method c db)
  | none => db

/-- The store after one messaging operation at clock reading `now`. -/
def MessagingOp.run (now : Date) (db : Store) : MessagingOp → Store
  | .sendText env req => (sendTextMessage env req db).db
  | .sendFile env req => (sendFileMessage env req db).db
  | .sendVoice env req => (sendVoiceMessage env req db).db
  | .sendPayment env req => (sendPaymentRequest env req db).db
  | .editContent messageId newContent =>
      onMessage db messageId (fun m d => m.editContent newContent now d)
  | .softDelete messageId deletedBy =>
      onMessage db messageId (fun m d => m.softDelete deletedBy now d)
  | .messageMarkAsRead messageId userId =>
      onMessage db messageId (fun m d => m.markAsRead userId now d)
  | .addReaction messageId userId emoji =>
      onMessage db messageId (fun m d => m.addReaction userId emoji now d)
  | .removeReaction messageId userId =>
      onMessage db messageId (fun m d => m.removeReaction userId now d)
  | .flag messageId flaggedBy reason =>
      onMessage db messageId (fun m d => m.flag flaggedBy reason now d)
  | .listMessages conversationId userId page limit =>
      (getMessages now conversationId userId page limit db).db
  | .conversationMarkAsRead conversationId userId =>
      onConversation db conversationId (fun c d => c.markAsRead userId now d)
  | .incrementUnreadCount conversationId senderId =>
      onConversation db conversationId (fun c d => c.incrementUnreadCount senderId now d)
  | .updateLastMessage conversationId messageId =>
      match db.findMessage messageId with
      | some m => onConversation db conversationId (fun c d => c.updateLastMessage m now d)
      | none => db
  | .archive conversationId => onConversation db conversationId (fun c d => c.archive now d)
  | .unarchive conversationId => onConversation db conversationId (fun c d => c.unarchive now d)
  | .addParticipant conversationId userId =>
      onConversation db conversationId (fun c d => c.addParticipant userId now d)
  | .removeParticipant conversationId userId =>
      onConversation db conversationId (fun c d => c.removeParticipant userId now d)

/-- The value `metadata.totalMessages` of the stored conversation `id`. -/
def Store.totalMessages (db : Store) (id : ObjectId) : Option Nat :=
  (db.findById id).map (fun c => c.metadata.totalMessages)

/-- The value `readStatus.unreadCount` of user `u` in the stored conversation
`id` (the virtual `getUnreadCount`, lines 124-131). -/
def Store.unreadCount (db : Store) (id u : ObjectId) : Option Nat :=
  (db.findById id).map (fun c =>
    match c.readStatus.find? (fun rs => rs.user == u) with
    | some rs => rs.unreadCount
    | none => 0)

/-- The value `readStatus.lastReadAt` of user `u` in the stored conversation. -/
def Store.lastReadAt (db : Store) (id u : ObjectId) : Option Date :=
  (db.findById id).bind (fun c =>
    (c.readStatus.find? (fun rs => rs.user == u)).map (fun rs => rs.lastReadAt))

/-- The store invariant of the unique index on `_id`: no two stored
conversations share an `_id`. -/
def Store.WellFormed (db : Store) : Prop :=
  (db.conversations.map (fun c => c._id)).Nodup

instance (db : Store) : Decidable db.WellFormed := by
  unfold Store.WellFormed; infer_instance

/-- Every conversation of `db` is still stored in `db1` and its
`metadata.totalMessages` there is not smaller. -/
def Store.totalsLe (db db1 : Store) : Prop :=
  ∀ id n, db.totalMessages id = some n → ∃ n1, db1.totalMessages id = some n1 ∧ n ≤ n1

/-- The store `db1` holds the conversations of `db`, in the same order and
under the same `_id`s, each possibly rewritten. -/
def Store.Rewrites (db db1 : Store) : Prop :=
  ∃ f : Conversation → Conversation,
    (∀ c, (f c)._id = c._id) ∧ db1.conversations = db.conversations.map f

/-- The store after a sequence of messaging operations, each with its clock
reading. -/
def MessagingOp.runAll (db : Store) (ops : List (Date × MessagingOp)) : Store :=
  ops.foldl (fun acc op => op.2.run op.1 acc) db

/-! ## Stored effect of the conversation updates -/

/-- The stored conversation after the write of `updateLastMessage(m)` issued
from an in-memory copy whose counter read `n`: the snapshot of `m`, the
counter `n + 1`, the activity date. -/
def Conversation.withLastMessage (stored : Conversation) (m : Message) (n : Nat) (now : Date) :
    Conversation :=
  { stored with
    lastMessage :=
      { content := some (jsTrim m.content), sender := m.sender,
        sentAt := some m.createdAt, messageType := m.type },
    metadata := { stored.metadata with totalMessages := n + 1, lastActivity := now } }

/-- The read-status array after `incrementUnreadCount(senderId)`. -/
def bumpUnread (senderId : ObjectId) (readStatus : List ReadStatus) : List ReadStatus :=
  readStatus.map (fun rs =>
    if rs.user != senderId then { rs with unreadCount := rs.unreadCount + 1 } else rs)

/-- The stored conversation after the write of a read-status array. -/
def Conversation.withReadStatus (stored : Conversation) (readStatus : List ReadStatus)
    (now : Date) : Conversation :=
  { stored with
    readStatus := readStatus,
    metadata := { stored.metadata with lastActivity := now } }

/-! ## The send operation of the four endpoints -/

/-- A send request to one of the four send endpoints. -/
inductive SendRequest where
  | text (req : TextRequest)
  | file (req : FileRequest)
  | voice (req : FileRequest)
  | payment (req : PaymentRequest)
deriving DecidableEq, Repr

/-- The conversation addressed by a send request. -/
def SendRequest.conversationId : SendRequest → ObjectId
  | .text req => req.conversationId
  | .file req => req.conversationId
  | .voice req => req.conversationId
  | .payment req => req.conversationId

/-- The authenticated sender of a send request. -/
def SendRequest.userId : SendRequest → ObjectId
  | .text req => req.userId
  | .file req => req.userId
  | .voice req => req.userId
  | .payment req => req.userId

/-- The check a handler makes before it looks the conversation up: the
validation result (text), the presence of `req.file` (file, voice), none
(payment request). -/
def SendRequest.precheck : SendRequest → Bool
  | .text req => validateTextMessage req
  | .file req => req.file.isSome
  | .voice req => req.file.isSome
  | .payment _ => true

/-- The handler of the endpoint a send request goes to. -/
def send (env : Env) : SendRequest → Store → Outcome
  | .text req => sendTextMessage env req
  | .file req => sendFileMessage env req
  | .voice req => sendVoiceMessage env req
  | .payment req => sendPaymentRequest env req

/-- Whether user `u` is a current participant of the stored conversation `id`. -/
def Store.isParticipant (db : Store) (id u : ObjectId) : Bool :=
  db.conversations.any (fun c => c._id == id && c.participants.contains u)

/-- The number of stored messages of conversation `id` that were sent by
someone other than `u` after `u`'s `lastReadAt`. -/
def Store.sentByOthersSince (db : Store) (id u : ObjectId) : Option Nat :=
  (db.lastReadAt id u).map (fun t =>
    (db.messages.filter (fun m =>
      m.conversation == id && m.sender != some u && decide (t < m.createdAt))).length)

/-! ## Scenario data -/

/-- User A of the scenarios. -/
def userA : ObjectId := 10

/-- User B of the scenarios. -/
def userB : ObjectId := 20

/-- A user who is in no conversation. -/
def outsider : ObjectId := 30

/-- The conversation C1 shared by A and B, as stored after its creation at
time 0 (`pre('save')` of a new conversation, lines 143-159). -/
def conversationC1 : Conversation :=
  { _id := 1,
    participants := [userA, userB],
    order := some 7,
    type := "order",
    readStatus := [{ user := userA, lastReadAt := 0 }, { user := userB, lastReadAt := 0 }],
    metadata := { createdBy := some userA } }

/-- The store that holds C1 and no message. -/
def storeC1 : Store := { conversations := [conversationC1] }

/-- A request environment at time `now` that gives the new message `_id` 100. -/
def envAt (now : Date) : Env := { now := now, newId := 100, ioConfigured := true }

/-- Scenario 1: A sends the text "Hello" into C1. -/
def helloRequest : TextRequest :=
  { conversationId := 1, userId := userA, content := some "Hello" }

/-- A voice upload of A into C1 that the storage service accepts. -/
def voiceRequest : FileRequest :=
  { conversationId := 1, userId := userA,
    file := some { originalname := "voice-message.webm", mimetype := "audio/webm", size := 2048 },
    upload := some { secure_url := "https://storage/messages/voice/v1.webm", duration := some 3 } }

/-- Scenario 4: A requests a payment of 25.00 for "Logo design". -/
def logoPaymentRequest : PaymentRequest :=
  { conversationId := 1, userId := userA, amountText := "25", amount := some 2500,
    description := some "Logo design" }

/-- A payment request of 0.10 with an empty description. -/
def tinyPaymentRequest : PaymentRequest :=
  { conversationId := 1, userId := userA, amountText := "0.1", amount := some 10,
    description := some "" }

/-- A text-endpoint request of type `email`, which `validateTextMessage` admits. -/
def emailRequest : TextRequest :=
  { conversationId := 1, userId := userA, content := some "Quarterly report", type := some "email" }

/-- The text "Hello" sent into C1 by a user who is not a participant. -/
def outsiderRequest : TextRequest :=
  { conversationId := 1, userId := outsider, content := some "Hello" }

/-- The conversation C1 at a moment when B has three unread messages. -/
def conversationC1Unread : Conversation :=
  { conversationC1 with
    readStatus := [{ user := userA, lastReadAt := 0 },
                   { user := userB, lastReadAt := 0, unreadCount := 3 }],
    metadata := { totalMessages := 3, lastActivity := 4, createdBy := some userA } }

/-- The store that holds C1 with B's three unread messages. -/
def storeC1Unread : Store := { conversations := [conversationC1Unread] }

/-- The message M1 as stored by scenario 1 at time 5. -/
def helloMessage : Message :=
  { _id := 100, conversation := 1, sender := some userA, content := "Hello",
    sentAt := 5, createdAt := 5 }

/-! ## Sequences of calls on one message document -/

/-- A call on a message document: a plain `save()` or one of the instance
methods of lines 347-435. -/
inductive MessageOp where
  | save
  | markAsRead (userId : ObjectId)
  | addReaction (userId : ObjectId) (emoji : String)
  | removeReaction (userId : ObjectId)
  | editContent (newContent : String)
  | softDelete (deletedBy : ObjectId)
  | flag (flaggedBy : ObjectId) (reason : String)
deriving DecidableEq, Repr

/-- One call on the message document `this` at clock reading `now`. -/
def MessageOp.apply (op : MessageOp) (now : Date) (this : Message) (db : Store) :
    Except String (Message × Store) :=
  match op with
  | .save => this.save false now db
  | .markAsRead userId => this.markAsRead userId now db
  | .addReaction userId emoji => this.addReaction userId emoji now db
  | .removeReaction userId => this.removeReaction userId now db
  | .editContent newContent => this.editContent newContent now db
  | .softDelete deletedBy => this.softDelete deletedBy now db
  | .flag flaggedBy reason => this.flag flaggedBy reason now db

/-- A sequence of calls, each awaited before the next one, that stops at the
first rejected call. -/
def MessageOp.applySeq : List (Date × MessageOp) → Message → Store →
    Except String (Message × Store)
  | [], this, db => .ok (this, db)
  | (now, op) :: rest, this, db =>
      match op.apply now this db with
      | .error e => .error e
      | .ok (m1, db1) => MessageOp.applySeq rest m1 db1

/-- The document and the store as saved after one call: those the call
resolves to, the old ones when the call is rejected. -/
def MessageOp.run (op : MessageOp) (now : Date) (state : Message × Store) : Message × Store :=
  match op.apply now state.1 state.2 with
  | .ok r => r
  | .error _ => state

/-- The document and the store as saved after a sequence of calls. -/
def MessageOp.runSeq (ops : List (Date × MessageOp)) (state : Message × Store) :
    Message × Store :=
  ops.foldl (fun acc op => op.2.run op.1 acc) state

/-- An edit of the message asked for by user `requester`.  The message model
offers `editContent(newContent)` only, which receives no user. -/
def Message.editRequestedBy (this : Message) (_requester : ObjectId) (newContent : String)
    (now : Date) (db : Store) : Except String (Message × Store) :=
  this.editContent newContent now db

/-! ## Conversation model: creation (lines 143-159, 257-302) -/

/-- The fields handed to `Conversation.create`. -/
structure ConversationFields where
  participants : List ObjectId
  order : Option ObjectId := none
  gig : Option ObjectId := none
  type : String := "inquiry"
  subject : Option String := none
deriving DecidableEq, Repr

/-- Validators of the Conversation schema that a new document has to pass: the
enum of `type` and the `maxlength` of the trimmed `subject`. -/
def ConversationFields.validate (fields : ConversationFields) : Bool :=
  conversationTypeEnum.contains fields.type &&
  (match fields.subject with
   | none => true
   | some s => decide (jsLength (jsTrim s) ≤ 100))

/-- The new document as `pre('save')` leaves it (`isNew` true): schema defaults,
one read-status entry per participant, `createdBy`, `lastActivity`. -/
def Conversation.new (newId : ObjectId) (now : Date) (fields : ConversationFields) :
    Conversation :=
  { _id := newId,
    participants := fields.participants,
    order := fields.order,
    gig := fields.gig,
    type := fields.type,
    subject := fields.subject.map jsTrim,
    lastMessage := {},
    status := "active",
    readStatus := fields.participants.map (fun participant =>
      { user := participant, lastReadAt := now, unreadCount := 0 }),
    metadata := { totalMessages := 0, lastActivity := now, createdBy := fields.participants.head? } }

/-- Static `Conversation.create(fields)`: validation, `pre('save')`, insert.
The insert is rejected when the generated `_id` is already in use (unique
index on `_id`). -/
def Store.createConversation (db : Store) (newId : ObjectId) (now : Date)
    (fields : ConversationFields) : Except String (Conversation × Store) :=
  if !fields.validate then .error "ValidationError"
  else if db.conversations.any (fun c => c._id == newId) then .error "E11000 duplicate key"
  else
    .ok (Conversation.new newId now fields,
      { db with conversations := db.conversations ++ [Conversation.new newId now fields] })

/-- Static `findBetweenUsers(user1Id, user2Id, orderId)` (lines 257-271): the
first active conversation whose participants contain both users and, when an
order is given, whose `order` is that order.  A user that is `undefined`
matches no participant. -/
def Store.findBetweenUsers (db : Store) (user1Id user2Id : Option ObjectId)
    (orderId : Option ObjectId) : Option Conversation :=
  match user1Id, user2Id with
  | some u1, some u2 =>
      db.conversations.find? (fun c =>
        c.participants.contains u1 && c.participants.contains u2 && c.status == "active" &&
        (match orderId with
         | none => true
         | some o => c.order == some o))
  | _, _ => none

/-- The argument `options` of `createOrGet`. -/
structure CreateOptions where
  orderId : Option ObjectId := none
  gigId : Option ObjectId := none
  type : Option String := none
  subject : Option String := none
deriving DecidableEq, Repr

/-- The fields `createOrGet` hands to `create`; `options.type || 'inquiry'`. -/
def CreateOptions.fields (options : CreateOptions) (participants : List ObjectId) :
    ConversationFields :=
  { participants := participants,
    order := options.orderId,
    gig := options.gigId,
    type := (match options.type with
             | none => "inquiry"
             | some t => if t == "" then "inquiry" else t),
    subject := options.subject }

/-- Static `createOrGet(participants, options)` (lines 274-302). -/
def Store.createOrGet (db : Store) (newId : ObjectId) (now : Date)
    (participants : List ObjectId) (options : CreateOptions) :
    Except String (Conversation × Store) :=
  match db.findBetweenUsers participants[0]? participants[1]? options.orderId with
  | some conversation => .ok (conversation, db)
  | none => db.createConversation newId now (options.fields participants)

/-! ## Sequences of membership changes on one conversation document -/

/-- A membership change. -/
inductive ParticipantOp where
  | add (userId : ObjectId)
  | remove (userId : ObjectId)
deriving DecidableEq, Repr

/-- One membership change on the conversation document `this`. -/
def ParticipantOp.apply (op : ParticipantOp) (now : Date) (this : Conversation) (db : Store) :
    Except String (Conversation × Store) :=
  match op with
  | .add userId => this.addParticipant userId now db
  | .remove userId => this.removeParticipant userId now db

/-- A sequence of membership changes, each awaited before the next one, that
stops at the first rejected call. -/
def ParticipantOp.applySeq : List (Date × ParticipantOp) → Conversation → Store →
    Except String (Conversation × Store)
  | [], this, db => .ok (this, db)
  | (now, op) :: rest, this, db =>
      match op.apply now this db with
      | .error e => .error e
      | .ok (c1, db1) => ParticipantOp.applySeq rest c1 db1

/-! ## Scenario data for the message methods -/

/-- The message M1 once it has been marked delivered and B's read receipt has
been pushed by the listing read. -/
def deliveredMessage : Message :=
  { helloMessage with status := "delivered", readBy := [{ user := userB, readAt := 6 }] }

/-- The store that holds C1 and the message M1. -/
def storeM1 : Store := { conversations := [conversationC1], messages := [helloMessage] }

/-- The store that holds C1 and the delivered message M1. -/
def storeDelivered : Store :=
  { conversations := [conversationC1], messages := [deliveredMessage] }

/-- A second message of C1, sent by B at time 7. -/
def replyMessage : Message :=
  { _id := 101, conversation := 1, sender := some userB, content := "Hi there",
    sentAt := 7, createdAt := 7 }

/-- The store that holds C1, M1 and B's reply. -/
def storeM2 : Store :=
  { conversations := [conversationC1], messages := [helloMessage, replyMessage] }

/-- The first reaction emoji of the schema enum (line 105). -/
def emojiOne : String := reactionEmojiEnum.headD ""

/-- The second reaction emoji of the schema enum (line 105). -/
def emojiTwo : String := (reactionEmojiEnum.drop 1).headD ""

/-- The position of a status on the upgrade path sent, delivered, read (0 for
any other status). -/
def statusRank (status : String) : Nat :=
  if status == "delivered" then 1 else if status == "read" then 2 else 0

/-! ## Upload middleware (messageController.js lines 10-34) -/

/-- The option `limits.fileSize` of the message upload (line 15), in bytes. -/
def fileSizeLimit : Nat := 50 * 1024 * 1024

/-- The list `allowedTypes` of `fileFilter` (lines 19-26). -/
def allowedTypes : List String :=
  ["image/jpeg", "image/png", "image/gif", "image/webp",
   "video/mp4", "video/webm", "video/quicktime",
   "audio/mpeg", "audio/wav", "audio/ogg", "audio/webm",
   "application/pdf", "application/msword",
   "application/vnd.openxmlformats-officedocument.wordprocessingml.document",
   "application/zip", "application/x-zip-compressed",
   "text/plain", "text/csv"]

/-- An error object handed to `next(err)`, with the properties that
`errorHandler` and its helpers read.  A numeric `code` is carried as its
decimal text; `duplicateValue` is the quoted value the helper matches in
`errmsg`, `errors` the messages of `err.errors`. -/
structure JsError where
  name : String := "Error"
  message : String
  code : Option String := none
  type : Option String := none
  statusCode : Option Nat := none
  isOperational : Bool := false
  path : String := ""
  value : String := ""
  duplicateValue : String := ""
  errors : List String := []
deriving DecidableEq, Repr

/-- Constructor `new AppError(message, statusCode)` (errorMiddleware.js lines
4-13). -/
def AppError (message : String) (statusCode : Nat) : JsError :=
  { message := message, statusCode := some statusCode, isOperational := true }

/-- Middleware `upload.single('file')` on the file part of the request, when
there is one: `fileFilter` is asked first, then the part is read into memory
and the read stops with the error `LIMIT_FILE_SIZE` once it has more bytes than
`limits.fileSize`.  The result is `req.file`. -/
def upload.single (part : Option UploadedFile) : Except JsError (Option UploadedFile) :=
  match part with
  | none => .ok none
  | some file =>
      if !allowedTypes.contains file.mimetype then
        .error { message := "File type not supported" }
      else if file.size > fileSizeLimit then
        .error { name := "MulterError", message := "File too large",
                 code := some "LIMIT_FILE_SIZE" }
      else .ok (some file)

/-! ## Error handler (errorMiddleware.js) -/

/-- Helper `handleCastErrorDB` (lines 26-29). -/
def handleCastErrorDB (err : JsError) : JsError :=
  AppError ("Invalid " ++ err.path ++ ": " ++ err.value) 400

/-- Helper `handleDuplicateFieldsDB` (lines 34-38). -/
def handleDuplicateFieldsDB (err : JsError) : JsError :=
  AppError ("Duplicate field value: " ++ err.duplicateValue ++ ". Please use another value!") 400

/-- Helper `handleValidationErrorDB` (lines 43-47). -/
def handleValidationErrorDB (err : JsError) : JsError :=
  AppError ("Invalid input data. " ++ ". ".intercalate err.errors) 400

/-- Helper `handleJWTError` (lines 52-53). -/
def handleJWTError : JsError := AppError "Invalid token. Please log in again!" 401

/-- Helper `handleJWTExpiredError` (lines 58-59). -/
def handleJWTExpiredError : JsError :=
  AppError "Your token has expired! Please log in again." 401

/-- Helper `sendErrorDev` (lines 64-71). -/
def sendErrorDev (err : JsError) : Response :=
  { status := err.statusCode.getD 0, success := false, message := some err.message }

/-- Helper `sendErrorProd` (lines 76-92). -/
def sendErrorProd (err : JsError) : Response :=
  if err.isOperational then
    { status := err.statusCode.getD 0, success := false, message := some err.message }
  else
    { status := 500, success := false, message := some "Something went wrong!" }

/-- Middleware `errorHandler` (lines 97-135); `development` is the test
`process.env.NODE_ENV === 'development'`. -/
def errorHandler (development : Bool) (err : JsError) : Response :=
  let error0 : JsError := { err with
    statusCode := some (match err.statusCode with
      | none => 500
      | some code => if code == 0 then 500 else code) }
  let error1 := if err.name == "CastError" then handleCastErrorDB error0 else error0
  let error2 := if err.code == some "11000" then handleDuplicateFieldsDB error1 else error1
  let error3 := if err.name == "ValidationError" then handleValidationErrorDB error2 else error2
  let error4 := if err.name == "JsonWebTokenError" then handleJWTError else error3
  let error5 := if err.name == "TokenExpiredError" then handleJWTExpiredError else error4
  let error6 :=
    if err.code == some "LIMIT_FILE_SIZE" then AppError "File too large. Maximum size is 5MB." 400
    else error5
  let error7 := if err.type == some "StripeCardError" then AppError err.message 400 else error6
  if development then sendErrorDev error7 else sendErrorProd error7

/-! ## The upload routes (messageRoutes.js lines 48-49, server.js line 153) -/

/-- Route `POST /conversations/:conversationId/files`: the middleware
`upload.single('file')`, then `sendFileMessage` with the `req.file` the
middleware leaves; an error of the middleware goes to `errorHandler` and the
handler is not called. -/
def postFiles (development : Bool) (env : Env) (part : Option UploadedFile) (req : FileRequest)
    (db : Store) : Outcome :=
  match upload.single part with
  | .error err => { response := errorHandler development err, db := db }
  | .ok file => sendFileMessage env { req with file := file } db

/-- Route `POST /conversations/:conversationId/voice`: the same middleware,
then `sendVoiceMessage`. -/
def postVoice (development : Bool) (env : Env) (part : Option UploadedFile) (req : FileRequest)
    (db : Store) : Outcome :=
  match upload.single part with
  | .error err => { response := errorHandler development err, db := db }
  | .ok file => sendVoiceMessage env { req with file := file } db

/-- An image of A for C1 that is one byte over the size cap. -/
def oversizeImage : UploadedFile :=
  { originalname := "poster.png", mimetype := "image/png", size := 50 * 1024 * 1024 + 1,
    dimensions := some (4000, 3000) }

/-- The request that carries a file of A into C1; the storage service would
accept an upload. -/
def fileRequestA : FileRequest :=
  { conversationId := 1, userId := userA, file := none,
    upload := some { secure_url := "https://storage/messages/files/f1" } }

/-- A caption of 1001 characters. -/
def longCaption : String := String.mk (List.replicate 1001 'a')

/-- A small text file. -/
def notesFile : UploadedFile :=
  { originalname := "notes.txt", mimetype := "text/plain", size := 3 }

/-- A file send of A into C1 with the caption of 1001 characters; the storage
service accepts the upload. -/
def longCaptionRequest : FileRequest :=
  { conversationId := 1, userId := userA, file := none, content := some longCaption,
    upload := some { secure_url := "https://storage/messages/files/notes.txt" } }

/-! ## Real-time gateway (server/utils/socketHandler.js) -/

/-- A value found in the payload of a client event.  `other` is a value that is
neither a primitive nor absent (an object, an array), with the text that
`String(value)` gives. -/
inductive JsValue where
  | undefined
  | null
  | bool (b : Bool)
  | number (n : Int)
  | string (s : String)
  | other (text : String)
deriving DecidableEq, Repr

/-- The text a template literal prints for a value. -/
def JsValue.toText : JsValue → String
  | .undefined => "undefined"
  | .null => "null"
  | .bool b => if b then "true" else "false"
  | .number n => toString n
  | .string s => s
  | .other text => text

/-- The argument a client sends with an event: a single value (`undefined`
when it sends none) or an object with named fields. -/
inductive Payload where
  | value (v : JsValue)
  | object (fields : List (String × JsValue))
deriving DecidableEq, Repr

/-- The text a template literal prints for the argument of an event. -/
def Payload.toText : Payload → String
  | .value v => v.toText
  | .object _ => "[object Object]"

/-- The destructuring `const { key } = data`: a `TypeError` is thrown when
`data` is `undefined` or `null`; a field that is absent reads `undefined`. -/
def Payload.field (data : Payload) (key : String) : Except String JsValue :=
  match data with
  | .value .undefined => .error "TypeError"
  | .value .null => .error "TypeError"
  | .value _ => .ok .undefined
  | .object fields => .ok ((fields.lookup key).getD .undefined)

/-- The call `message.substring(0, n)` on a string: its first `n` UTF-16 code
units (a character of two units that would be cut at the end is left out). -/
def jsSubstring (s : String) (n : Nat) : String :=
  String.mk ((s.data.foldl (fun (acc : List Char × Nat) c =>
    let units := if c.toNat < 65536 then 1 else 2
    if acc.2 + units ≤ n then (acc.1 ++ [c], acc.2 + units) else (acc.1, n)) ([], 0)).1)

/-- The call `message.substring(0, 50)` on a payload value: a `TypeError` is
thrown unless the value is a string. -/
def JsValue.substring50 : JsValue → Except String String
  | .string s => .ok (jsSubstring s 50)
  | _ => .error "TypeError"

/-- An entry of the map `activeUsers` (line 5): the socket of the user's
connection and the time it was made. -/
structure ActiveUser where
  socketId : String
  lastSeen : Date
deriving DecidableEq, Repr

/-- An open connection: the socket id, the authenticated user
(`socket.userId`, the text of the user's `_id`) and the rooms the socket is in.
The library puts every socket into the room named by its own id. -/
structure Socket where
  id : String
  userId : String
  rooms : List String
deriving DecidableEq, Repr

/-- An event the server emits, with its data. -/
inductive ServerEvent where
  | user_online (userId : String)
  | user_offline (userId : String) (lastSeen : Date)
  | new_message (conversationId : JsValue) (message : JsValue) (sender : String)
      (timestamp : Date)
  | message_notification (conversationId : JsValue) (sender : String) (preview : String)
      (timestamp : Date)
  | user_typing (userId : String) (conversationId : JsValue)
  | user_stop_typing (userId : String) (conversationId : JsValue)
  | error (message : String)
  | stored (event : String) (message : Message)
deriving DecidableEq, Repr

/-- One event received by one socket. -/
structure Delivery where
  socketId : String
  event : ServerEvent
deriving DecidableEq, Repr

/-- The state of the gateway: the map `activeUsers` (in insertion order, keyed
by `socket.userId`), the open connections and the events delivered so far. -/
structure Gateway where
  activeUsers : List (String × ActiveUser) := []
  sockets : List Socket := []
  delivered : List Delivery := []
deriving DecidableEq, Repr

/-- Map method `activeUsers.set(key, value)`. -/
def Gateway.setActiveUser (g : Gateway) (key : String) (value : ActiveUser) : Gateway :=
  { g with activeUsers :=
      if g.activeUsers.any (fun e => e.1 == key) then
        g.activeUsers.map (fun e => if e.1 == key then (key, value) else e)
      else g.activeUsers ++ [(key, value)] }

/-- Map method `activeUsers.get(key)`; the keys are strings, so a key that is
not a string finds nothing. -/
def Gateway.getActiveUser (g : Gateway) (key : JsValue) : Option ActiveUser :=
  match key with
  | .string k => (g.activeUsers.find? (fun e => e.1 == k)).map (fun e => e.2)
  | _ => none

/-- Map method `activeUsers.delete(key)`. -/
def Gateway.deleteActiveUser (g : Gateway) (key : String) : Gateway :=
  { g with activeUsers := g.activeUsers.filter (fun e => e.1 != key) }

/-- Utility `io.isUserOnline(userId)` (lines 189-191). -/
def Gateway.isUserOnline (g : Gateway) (userId : String) : Bool :=
  g.activeUsers.any (fun e => e.1 == userId)

/-- The open connection with socket id `socketId`. -/
def Gateway.socket (g : Gateway) (socketId : String) : Option Socket :=
  g.sockets.find? (fun s => s.id == socketId)

/-- Library call `socket.join(room)`. -/
def Gateway.join (g : Gateway) (socketId room : String) : Gateway :=
  { g with sockets := g.sockets.map (fun s =>
      if s.id == socketId && !s.rooms.contains room then { s with rooms := s.rooms ++ [room] }
      else s) }

/-- Library call `socket.leave(room)`. -/
def Gateway.leave (g : Gateway) (socketId room : String) : Gateway :=
  { g with sockets := g.sockets.map (fun s =>
      if s.id == socketId then { s with rooms := s.rooms.filter (fun r => r != room) } else s) }

/-- Library call `socket.to(room).emit(event)`: every socket in the room except
the emitting one receives the event. -/
def Gateway.socketTo (g : Gateway) (socketId room : String) (event : ServerEvent) : Gateway :=
  { g with delivered := g.delivered ++
      ((g.sockets.filter (fun s => s.id != socketId && s.rooms.contains room)).map
        (fun s => { socketId := s.id, event := event })) }

/-- Library call `socket.broadcast.emit(event)`: every other socket receives
the event. -/
def Gateway.broadcast (g : Gateway) (socketId : String) (event : ServerEvent) : Gateway :=
  { g with delivered := g.delivered ++
      ((g.sockets.filter (fun s => s.id != socketId)).map
        (fun s => { socketId := s.id, event := event })) }

/-- Library call `socket.emit(event)`: the socket itself receives the event. -/
def Gateway.socketEmit (g : Gateway) (socketId : String) (event : ServerEvent) : Gateway :=
  { g with delivered := g.delivered ++ [{ socketId := socketId, event := event }] }

/-- Utility `io.emitToConversation(conversationId, event, data)` (lines
172-174): every socket in the conversation room receives the event. -/
def Gateway.emitToConversation (g : Gateway) (emit : Emit) : Gateway :=
  { g with delivered := g.delivered ++
      ((g.sockets.filter (fun s => s.rooms.contains emit.room)).map
        (fun s => { socketId := s.id, event := .stored emit.event emit.message })) }

/-- Function `handleConnection(socket)` (lines 36-57) for a new authenticated
connection. -/
def Gateway.handleConnection (g : Gateway) (now : Date) (socketId userId : String) : Gateway :=
  let g1 := g.setActiveUser userId { socketId := socketId, lastSeen := now }
  let g2 : Gateway := { g1 with
    sockets := g1.sockets ++ [{ id := socketId, userId := userId, rooms := [socketId] }] }
  let g3 := g2.join socketId ("user_" ++ userId)
  g3.broadcast socketId (.user_online userId)

/-- An event a client sends over its connection. -/
inductive ClientEvent where
  | join_conversation (conversationId : Payload)
  | leave_conversation (conversationId : Payload)
  | send_message (data : Payload)
  | typing_start (data : Payload)
  | typing_stop (data : Payload)
  | join_order_room (orderId : Payload)
  | leave_order_room (orderId : Payload)
  | disconnect
deriving DecidableEq, Repr

/-- The `try` block of the `send_message` listener (lines 74-101): the gateway
as the block leaves it and the exception that ended it, if one was thrown. -/
def Gateway.sendMessageTry (g : Gateway) (now : Date) (socket : Socket) (data : Payload) :
    Gateway × Option String :=
  match data.field "conversationId", data.field "message", data.field "receiverId" with
  | .ok conversationId, .ok message, .ok receiverId =>
      let g1 := g.socketTo socket.id ("conversation_" ++ conversationId.toText)
        (.new_message conversationId message socket.userId now)
      match g1.getActiveUser receiverId with
      | some receiverConnection =>
          match message.substring50 with
          | .ok preview =>
              (g1.socketTo socket.id receiverConnection.socketId
                (.message_notification conversationId socket.userId preview now), none)
          | .error e => (g1, some e)
      | none => (g1, none)
  | .error e, _, _ => (g, some e)
  | _, .error e, _ => (g, some e)
  | _, _, .error e => (g, some e)

/-- The listener of one client event on the socket `socket` (lines 60-149).
The result is the gateway afterwards, or the exception that leaves the
listener uncaught. -/
def Gateway.listener (g : Gateway) (now : Date) (socket : Socket) :
    ClientEvent → Except String Gateway
  | .join_conversation conversationId =>
      .ok (g.join socket.id ("conversation_" ++ conversationId.toText))
  | .leave_conversation conversationId =>
      .ok (g.leave socket.id ("conversation_" ++ conversationId.toText))
  | .send_message data =>
      match g.sendMessageTry now socket data with
      | (g1, none) => .ok g1
      | (g1, some _) => .ok (g1.socketEmit socket.id (.error "Failed to send message"))
  | .typing_start data =>
      match data.field "conversationId", data.field "receiverId" with
      | .ok conversationId, .ok _ =>
          .ok (g.socketTo socket.id ("conversation_" ++ conversationId.toText)
            (.user_typing socket.userId conversationId))
      | .error e, _ => .error e
      | _, .error e => .error e
  | .typing_stop data =>
      match data.field "conversationId" with
      | .ok conversationId =>
          .ok (g.socketTo socket.id ("conversation_" ++ conversationId.toText)
            (.user_stop_typing socket.userId conversationId))
      | .error e => .error e
  | .join_order_room orderId => .ok (g.join socket.id ("order_" ++ orderId.toText))
  | .leave_order_room orderId => .ok (g.leave socket.id ("order_" ++ orderId.toText))
  | .disconnect =>
      let g1 := g.deleteActiveUser socket.userId
      let g2 := g1.broadcast socket.id (.user_offline socket.userId now)
      .ok { g2 with sockets := g2.sockets.filter (fun s => s.id != socket.id) }

/-- A client event arriving on the connection `socketId`: the listener runs
when the connection is open.  An exception that leaves the listener is an
uncaught exception of the process, whose handler exits the process (server.js
lines 173-177). -/
def Gateway.on (g : Gateway) (now : Date) (socketId : String) (event : ClientEvent) :
    Except String Gateway :=
  match g.socket socketId with
  | some socket => g.listener now socket event
  | none => .ok g

/-- A step of the gateway as seen from outside: a new authenticated connection
or a client event. -/
inductive GatewayStep where
  | connect (socketId userId : String)
  | client (socketId : String) (event : ClientEvent)
deriving DecidableEq, Repr

/-- One step of the gateway at clock reading `now`. -/
def Gateway.step (g : Gateway) (now : Date) : GatewayStep → Except String Gateway
  | .connect socketId userId => .ok (g.handleConnection now socketId userId)
  | .client socketId event => g.on now socketId event

/-- A sequence of steps; an uncaught exception ends it. -/
def Gateway.steps : Gateway → List (Date × GatewayStep) → Except String Gateway
  | g, [] => .ok g
  | g, (now, s) :: rest =>
      match g.step now s with
      | .ok g1 => g1.steps rest
      | .error e => .error e

/-! ## Scenario data for the gateway -/

/-- The gateway once A and B have connected and B has joined the room of C1. -/
def gatewayAB : Gateway :=
  (({} : Gateway).handleConnection 1 "socketA" "10" |>.handleConnection 2 "socketB" "20").join
    "socketB" "conversation_1"

/-- The `send_message` payload of a text for C1 addressed to B. -/
def relayPayload (text : String) : Payload :=
  .object [("conversationId", .string "1"), ("message", .string text),
           ("receiverId", .string "20")]

/-- The gateway of `gatewayAB` once a user who is in no conversation has
connected too. -/
def gatewayWithOutsider : Gateway := gatewayAB.handleConnection 3 "socketX" "30"

/-- The store after scenario 1: A's text "Hello" accepted into C1 at time 5. -/
def storeAfterHello : Store := (MessagingOp.sendText (envAt 5) helloRequest).run 5 storeC1

/-- The voice message that the voice send of `voiceRequest` stores at time 5. -/
def voiceMessage : Message :=
  { _id := 100, conversation := 1, sender := some userA, type := "voice",
    content := "Voice message",
    attachments :=
      [{ filename := "voice_5.webm", originalName := "voice-message.webm",
         url := "https://storage/messages/voice/v1.webm", size := 2048,
         mimeType := "audio/webm", attachmentType := "voice", duration := some 3 }],
    voiceData := some { duration := 3 },
    sentAt := 5, createdAt := 5 }

/-- The gateway once user A has opened two connections and closed the first. -/
def gatewayTwoTabs : Except String Gateway :=
  ({} : Gateway).steps
    [(1, .connect "socketA1" "10"), (2, .connect "socketA2" "10"),
     (3, .client "socketA1" .disconnect)]

/-! ## Lemmas: the store -/

theorem writePath_id (doc stored : Conversation) (p : ConvPath) :
    (doc.writePath stored p)._id = stored._id := by
  cases p <;> rfl

theorem writePaths_id (doc stored : Conversation) (ps : List ConvPath) :
    (doc.writePaths stored ps)._id = stored._id := by
  unfold Conversation.writePaths
  induction ps generalizing stored with
  | nil => rfl
  | cons p ps ih => simp only [List.foldl_cons]; rw [ih, writePath_id]

theorem findById_id {db : Store} {id : ObjectId} {c : Conversation}
    (h : db.findById id = some c) : c._id = id := by
  have := List.find?_some h
  simpa using this

theorem find?_map_update (cs : List Conversation) (id id1 : ObjectId)
    (f : Conversation → Conversation) (hf : ∀ c, (f c)._id = c._id) :
    (cs.map (fun stored => if stored._id == id then f stored else stored)).find?
        (fun c => c._id == id1) =
      if id1 = id then (cs.find? (fun c => c._id == id1)).map f
      else cs.find? (fun c => c._id == id1) := by
  induction cs with
  | nil => simp
  | cons c cs ih =>
      have key : (if c._id == id then f c else c)._id = c._id := by
        split
        · exact hf c
        · rfl
      simp only [List.map_cons, List.find?_cons, key]
      cases h : (c._id == id1)
      · exact ih
      · have h1 : c._id = id1 := by simpa using h
        by_cases hc : id1 = id
        · have h2 : c._id = id := h1.trans hc
          simp [hc, h2]
        · have h2 : ¬ c._id = id := fun h => hc (h1.symm.trans h)
          simp [hc, h2]

theorem findById_updateConversation (db : Store) (id id1 : ObjectId)
    (f : Conversation → Conversation) (hf : ∀ c, (f c)._id = c._id) :
    (db.updateConversation id f).findById id1 =
      if id1 = id then (db.findById id1).map f else db.findById id1 :=
  find?_map_update db.conversations id id1 f hf

theorem updateConversation_messages (db : Store) (id : ObjectId)
    (f : Conversation → Conversation) : (db.updateConversation id f).messages = db.messages := rfl


/-! ## Lemmas: trimming -/

theorem dropWhile_rdropWhile_dropWhile (p : Char → Bool) (cs : List Char) :
    ((cs.dropWhile p).rdropWhile p).dropWhile p = (cs.dropWhile p).rdropWhile p := by
  obtain ⟨t, ht⟩ := List.rdropWhile_prefix p (l := cs.dropWhile p)
  cases hys : (cs.dropWhile p).rdropWhile p with
  | nil => rfl
  | cons y ys =>
      rw [hys] at ht
      have hne : cs.dropWhile p ≠ [] := by rw [← ht]; simp
      have hhead := List.head_dropWhile_not p cs hne
      have hy : (cs.dropWhile p).head hne = y := by
        simp only [← ht, List.cons_append, List.head_cons]
      rw [hy] at hhead
      rw [List.dropWhile_cons_of_neg (by simp [hhead])]

theorem trimChars_idempotent (cs : List Char) : trimChars (trimChars cs) = trimChars cs := by
  have e : ∀ l : List Char, trimChars l = (l.dropWhile isJsWhitespace).rdropWhile isJsWhitespace :=
    fun _ => rfl
  rw [e (trimChars cs), e cs, dropWhile_rdropWhile_dropWhile, List.rdropWhile_idempotent]

/-- Trimming a trimmed string changes nothing. -/
theorem jsTrim_idempotent (s : String) : jsTrim (jsTrim s) = jsTrim s := by
  unfold jsTrim
  rw [trimChars_idempotent]

/-! ## Lemmas: conversation methods as store updates -/

theorem updateLastMessage_error (this : Conversation) (m : Message) (now : Date) (db : Store)
    (h : m.type ∉ lastMessageTypeEnum) :
    this.updateLastMessage m now db = .error "ValidationError" := by
  simp [Conversation.updateLastMessage, Conversation.save, Conversation.validatePath, h]

theorem updateLastMessage_ok (this : Conversation) (m : Message) (now : Date) (db : Store)
    (h : m.type ∈ lastMessageTypeEnum) :
    this.updateLastMessage m now db = .ok (
      this.withLastMessage m this.metadata.totalMessages now,
      db.updateConversation this._id (fun stored =>
        stored.withLastMessage m this.metadata.totalMessages now)) := by
  simp [Conversation.updateLastMessage, Conversation.save, Conversation.validatePath, h,
    Conversation.writePaths, Conversation.writePath, Conversation.withLastMessage]

theorem incrementUnreadCount_ok (this : Conversation) (senderId : ObjectId) (now : Date)
    (db : Store) :
    this.incrementUnreadCount senderId now db = .ok (
      this.withReadStatus (bumpUnread senderId this.readStatus) now,
      db.updateConversation this._id (fun stored =>
        stored.withReadStatus (bumpUnread senderId this.readStatus) now)) := by
  simp [Conversation.incrementUnreadCount, Conversation.save, Conversation.validatePath,
    Conversation.writePaths, Conversation.writePath, Conversation.withReadStatus, bumpUnread]

theorem updateConversation_twice (db : Store) (id : ObjectId)
    (f g : Conversation → Conversation) (hf : ∀ c, (f c)._id = c._id) :
    (db.updateConversation id f).updateConversation id g =
      db.updateConversation id (fun c => g (f c)) := by
  unfold Store.updateConversation
  simp only [List.map_map]
  congr 1
  apply List.map_congr_left
  intro c _
  simp only [Function.comp]
  by_cases hc : c._id = id
  · simp [hc, hf]
  · simp [hc]

/-! ## Lemmas: the hook `post('save')` -/

theorem postSave_deleted (doc : Message) (now : Date) (db : Store)
    (h : doc.flags.isDeleted = true) : Message.postSave doc now db = db := by
  simp [Message.postSave, h]

theorem postSave_notFound (doc : Message) (now : Date) (db : Store)
    (h : db.findById doc.conversation = none) : Message.postSave doc now db = db := by
  simp [Message.postSave, h]

theorem postSave_badType (doc : Message) (now : Date) (db : Store)
    (h : doc.type ∉ lastMessageTypeEnum) : Message.postSave doc now db = db := by
  unfold Message.postSave
  split
  · split
    · rw [updateLastMessage_error _ doc now db h]
    · rfl
  · rfl

theorem postSave_ok (doc : Message) (now : Date) (db : Store) (c : Conversation)
    (sender : ObjectId) (hdel : doc.flags.isDeleted = false)
    (hfind : db.findById doc.conversation = some c) (ht : doc.type ∈ lastMessageTypeEnum)
    (hs : doc.sender = some sender) :
    Message.postSave doc now db =
      db.updateConversation doc.conversation (fun stored =>
        (stored.withLastMessage doc c.metadata.totalMessages now).withReadStatus
          (bumpUnread sender c.readStatus) now) := by
  have hid : c._id = doc.conversation := findById_id hfind
  unfold Message.postSave
  simp only [hdel, Bool.not_false, if_true, hfind]
  rw [updateLastMessage_ok c doc now db ht]
  simp only [hs]
  rw [incrementUnreadCount_ok]
  simp only
  have e1 : (c.withLastMessage doc c.metadata.totalMessages now)._id = c._id := rfl
  have e2 : (c.withLastMessage doc c.metadata.totalMessages now).readStatus = c.readStatus := rfl
  rw [e1, e2, updateConversation_twice db c._id
    (fun stored => stored.withLastMessage doc c.metadata.totalMessages now)
    (fun stored => stored.withReadStatus (bumpUnread sender c.readStatus) now)
    (fun _ => rfl), hid]

theorem postSave_noSender (doc : Message) (now : Date) (db : Store) (c : Conversation)
    (hdel : doc.flags.isDeleted = false)
    (hfind : db.findById doc.conversation = some c) (ht : doc.type ∈ lastMessageTypeEnum)
    (hs : doc.sender = none) :
    Message.postSave doc now db =
      db.updateConversation doc.conversation (fun stored =>
        stored.withLastMessage doc c.metadata.totalMessages now) := by
  have hid : c._id = doc.conversation := findById_id hfind
  unfold Message.postSave
  simp only [hdel, Bool.not_false, if_true, hfind]
  rw [updateLastMessage_ok c doc now db ht]
  simp only [hs, hid]

/-! ## Lemmas: monotonicity of `metadata.totalMessages` -/

theorem totalsLe_refl (db : Store) : db.totalsLe db :=
  fun _ n h => ⟨n, h, le_refl n⟩

theorem totalsLe_trans {a b c : Store} (hab : a.totalsLe b) (hbc : b.totalsLe c) :
    a.totalsLe c := by
  intro id n h
  obtain ⟨n1, h1, hle1⟩ := hab id n h
  obtain ⟨n2, h2, hle2⟩ := hbc id n1 h1
  exact ⟨n2, h2, le_trans hle1 hle2⟩

theorem totalsLe_of_conversations {a b : Store} (h : b.conversations = a.conversations) :
    a.totalsLe b := by
  intro id n hn
  refine ⟨n, ?_, le_refl n⟩
  simpa [Store.totalMessages, Store.findById, h] using hn

theorem totalMessages_updateConversation (db : Store) (id id1 : ObjectId)
    (f : Conversation → Conversation) (hf : ∀ c, (f c)._id = c._id) :
    (db.updateConversation id f).totalMessages id1 =
      if id1 = id then (db.findById id1).map (fun c => (f c).metadata.totalMessages)
      else db.totalMessages id1 := by
  unfold Store.totalMessages
  rw [findById_updateConversation db id id1 f hf]
  split
  · cases db.findById id1 <;> rfl
  · rfl

theorem totalsLe_updateConversation (db : Store) (id : ObjectId)
    (f : Conversation → Conversation) (hf : ∀ c, (f c)._id = c._id)
    (hle : ∀ stored, db.findById id = some stored →
      stored.metadata.totalMessages ≤ (f stored).metadata.totalMessages) :
    db.totalsLe (db.updateConversation id f) := by
  intro id1 n hn
  rw [totalMessages_updateConversation db id id1 f hf]
  by_cases h : id1 = id
  · subst h
    simp only [if_true]
    unfold Store.totalMessages at hn
    cases hfind : db.findById id1 with
    | none => simp [hfind] at hn
    | some stored =>
        simp only [hfind, Option.map_some', Option.some.injEq] at hn
        refine ⟨(f stored).metadata.totalMessages, rfl, ?_⟩
        rw [← hn]
        exact hle stored hfind
  · simp only [h, if_false]
    exact ⟨n, hn, le_refl n⟩

theorem save_ok (doc : Conversation) (modified : List ConvPath) (now : Date) (db : Store)
    (h : modified.all doc.validatePath = true) :
    doc.save modified now db = .ok (
      { doc with metadata := { doc.metadata with lastActivity := now } },
      db.updateConversation doc._id (fun stored =>
        Conversation.writePaths { doc with metadata := { doc.metadata with lastActivity := now } }
          stored (modified ++ [ConvPath.lastActivity]))) := by
  simp only [Conversation.save, h, if_true]

theorem save_error (doc : Conversation) (modified : List ConvPath) (now : Date) (db : Store)
    (h : modified.all doc.validatePath = false) :
    doc.save modified now db = .error "ValidationError" := by
  simp [Conversation.save, h]

theorem writePaths_totalMessages (doc stored : Conversation) (ps : List ConvPath)
    (h : ConvPath.totalMessages ∉ ps) :
    (doc.writePaths stored ps).metadata.totalMessages = stored.metadata.totalMessages := by
  unfold Conversation.writePaths
  induction ps generalizing stored with
  | nil => rfl
  | cons p ps ih =>
      simp only [List.foldl_cons]
      rw [ih _ (fun hm => h (List.mem_cons_of_mem _ hm))]
      cases p <;> first | rfl | exact absurd (List.mem_cons_self _ _) h

/-- A save that does not write `metadata.totalMessages` keeps every counter. -/
theorem totalsLe_save (doc : Conversation) (modified : List ConvPath) (now : Date) (db : Store)
    (h : ConvPath.totalMessages ∉ modified) :
    db.totalsLe (storeAfter db (doc.save modified now db)) := by
  cases hv : modified.all doc.validatePath
  · rw [save_error doc modified now db hv]; exact totalsLe_refl db
  · rw [save_ok doc modified now db hv]
    apply totalsLe_updateConversation
    · intro c; exact writePaths_id _ _ _
    · intro stored _
      rw [writePaths_totalMessages]
      simp [h]


/-! ## Lemmas: no operation decreases `metadata.totalMessages` -/

theorem totalsLe_updateLastMessage (this : Conversation) (m : Message) (now : Date)
    (db : Store)
    (h : ∀ stored, db.findById this._id = some stored →
      stored.metadata.totalMessages ≤ this.metadata.totalMessages + 1) :
    db.totalsLe (storeAfter db (this.updateLastMessage m now db)) := by
  by_cases ht : m.type ∈ lastMessageTypeEnum
  · rw [updateLastMessage_ok this m now db ht]
    exact totalsLe_updateConversation db this._id _ (fun _ => rfl) h
  · rw [updateLastMessage_error this m now db ht]; exact totalsLe_refl db

theorem totalsLe_incrementUnreadCount (this : Conversation) (senderId : ObjectId) (now : Date)
    (db : Store) : db.totalsLe (storeAfter db (this.incrementUnreadCount senderId now db)) :=
  totalsLe_save _ _ now db (by decide)

theorem totalsLe_conversationMarkAsRead (this : Conversation) (userId : ObjectId) (now : Date)
    (db : Store) : db.totalsLe (storeAfter db (this.markAsRead userId now db)) := by
  unfold Conversation.markAsRead
  split
  · exact totalsLe_save _ _ now db (by decide)
  · exact totalsLe_refl db

theorem totalsLe_archive (this : Conversation) (now : Date) (db : Store) :
    db.totalsLe (storeAfter db (this.archive now db)) :=
  totalsLe_save _ _ now db (by decide)

theorem totalsLe_unarchive (this : Conversation) (now : Date) (db : Store) :
    db.totalsLe (storeAfter db (this.unarchive now db)) :=
  totalsLe_save _ _ now db (by decide)

theorem totalsLe_addParticipant (this : Conversation) (userId : ObjectId) (now : Date)
    (db : Store) : db.totalsLe (storeAfter db (this.addParticipant userId now db)) := by
  unfold Conversation.addParticipant
  split
  · exact totalsLe_save _ _ now db (by decide)
  · exact totalsLe_refl db

theorem totalsLe_removeParticipant (this : Conversation) (userId : ObjectId) (now : Date)
    (db : Store) : db.totalsLe (storeAfter db (this.removeParticipant userId now db)) := by
  unfold Conversation.removeParticipant
  split
  · exact totalsLe_save _ _ now db (by decide)
  · exact totalsLe_refl db

/-- The hook `post('save')` leaves every counter or adds 1 to it. -/
theorem postSave_totalMessages (doc : Message) (now : Date) (db : Store) (id : ObjectId)
    (n : Nat) (hn : db.totalMessages id = some n) :
    (Message.postSave doc now db).totalMessages id = some n ∨
      (Message.postSave doc now db).totalMessages id = some (n + 1) := by
  cases hdel : doc.flags.isDeleted
  swap
  · rw [postSave_deleted doc now db hdel]; exact Or.inl hn
  cases hfind : db.findById doc.conversation with
  | none => rw [postSave_notFound doc now db hfind]; exact Or.inl hn
  | some c =>
      by_cases ht : doc.type ∈ lastMessageTypeEnum
      swap
      · rw [postSave_badType doc now db ht]; exact Or.inl hn
      have fin : ∀ f : Conversation → Conversation, (∀ x, (f x)._id = x._id) →
          (∀ x, (f x).metadata.totalMessages = c.metadata.totalMessages + 1) →
          (db.updateConversation doc.conversation f).totalMessages id = some n ∨
          (db.updateConversation doc.conversation f).totalMessages id = some (n + 1) := by
        intro f hf ht
        rw [totalMessages_updateConversation db _ _ f hf]
        by_cases hi : id = doc.conversation
        · right
          subst hi
          simp only [if_true, hfind, Option.map_some', ht]
          simp only [Store.totalMessages, hfind, Option.map_some', Option.some.injEq] at hn
          rw [hn]
        · left; simp only [hi, if_false]; exact hn
      cases hs : doc.sender with
      | none =>
          rw [postSave_noSender doc now db c hdel hfind ht hs]
          exact fin _ (fun _ => rfl) (fun _ => rfl)
      | some sender =>
          rw [postSave_ok doc now db c sender hdel hfind ht hs]
          exact fin _ (fun _ => rfl) (fun _ => rfl)

theorem totalsLe_postSave (doc : Message) (now : Date) (db : Store) :
    db.totalsLe (Message.postSave doc now db) := by
  intro id n hn
  rcases postSave_totalMessages doc now db id n hn with h | h
  · exact ⟨n, h, le_refl n⟩
  · exact ⟨n + 1, h, Nat.le_succ n⟩

theorem totalMessages_of_conversations {a b : Store} (h : b.conversations = a.conversations)
    (id : ObjectId) : b.totalMessages id = a.totalMessages id := by
  simp [Store.totalMessages, Store.findById, h]

/-- A message save leaves every counter or adds 1 to it. -/
theorem messageSave_totalMessages (this : Message) (isNew : Bool) (now : Date) (db : Store)
    (id : ObjectId) (n : Nat) (hn : db.totalMessages id = some n) :
    (storeAfter db (this.save isNew now db)).totalMessages id = some n ∨
      (storeAfter db (this.save isNew now db)).totalMessages id = some (n + 1) := by
  unfold Message.save
  cases hv : this.validate
  · exact Or.inl hn
  · simp only [if_true, storeAfter]
    apply postSave_totalMessages
    rw [totalMessages_of_conversations _ id]
    · exact hn
    · cases isNew <;> rfl

theorem totalsLe_messageSave (this : Message) (isNew : Bool) (now : Date) (db : Store) :
    db.totalsLe (storeAfter db (this.save isNew now db)) := by
  intro id n hn
  rcases messageSave_totalMessages this isNew now db id n hn with h | h
  · exact ⟨n, h, le_refl n⟩
  · exact ⟨n + 1, h, Nat.le_succ n⟩

theorem findOne_mem {db : Store} {cid u : ObjectId} {c : Conversation}
    (h : db.findOne cid u = some c) :
    c ∈ db.conversations ∧ c._id = cid ∧ u ∈ c.participants := by
  unfold Store.findOne at h
  have h1 := List.mem_of_find?_eq_some h
  have h2 := List.find?_some h
  simp only [Bool.and_eq_true, beq_iff_eq, List.contains_eq_any_beq, List.any_eq_true] at h2
  refine ⟨h1, h2.1, ?_⟩
  obtain ⟨x, hx, hxu⟩ := h2.2
  rw [← hxu] at hx
  exact hx

theorem findById_of_mem {db : Store} (hwf : db.WellFormed) {c : Conversation}
    (hc : c ∈ db.conversations) : db.findById c._id = some c := by
  unfold Store.findById
  cases hf : db.conversations.find? (fun x => x._id == c._id) with
  | none =>
      have := List.find?_eq_none.mp hf c hc
      simp at this
  | some d =>
      have hd := List.mem_of_find?_eq_some hf
      have hid : d._id = c._id := by simpa using List.find?_some hf
      have := List.inj_on_of_nodup_map hwf hd hc hid
      rw [this]

theorem findOne_findById {db : Store} (hwf : db.WellFormed) {cid u : ObjectId}
    {c : Conversation} (h : db.findOne cid u = some c) : db.findById cid = some c := by
  obtain ⟨hm, hid, _⟩ := findOne_mem h
  rw [← hid]
  exact findById_of_mem hwf hm

theorem totalsLe_persistAndNotify (env : Env) (conversation : Conversation) (message : Message)
    (failure : String) (uploaded : List String) (db : Store)
    (hfresh : db.findById conversation._id = some conversation) :
    db.totalsLe (persistAndNotify env conversation message failure uploaded db).db := by
  unfold persistAndNotify
  cases hsave : message.save true env.now db with
  | error e => exact totalsLe_refl db
  | ok r =>
      obtain ⟨m1, db1⟩ := r
      have hdb1 : db1 = storeAfter db (message.save true env.now db) := by rw [hsave]; rfl
      have h01 : db.totalsLe db1 := by rw [hdb1]; exact totalsLe_messageSave _ _ _ _
      have h12 : db1.totalsLe (storeAfter db1 (conversation.updateLastMessage m1 env.now db1)) := by
        apply totalsLe_updateLastMessage
        intro stored hst
        have hn : db.totalMessages conversation._id = some conversation.metadata.totalMessages := by
          simp [Store.totalMessages, hfresh]
        have := messageSave_totalMessages message true env.now db conversation._id _ hn
        rw [← hdb1] at this
        simp only [Store.totalMessages, hst, Option.map_some', Option.some.injEq] at this
        omega
      simp only
      cases hup : conversation.updateLastMessage m1 env.now db1 with
      | error e => exact h01
      | ok r2 =>
          obtain ⟨c2, db2⟩ := r2
          rw [hup] at h12
          exact totalsLe_trans h01 h12

theorem totalsLe_sendTextMessage (env : Env) (req : TextRequest) (db : Store)
    (hwf : db.WellFormed) : db.totalsLe (sendTextMessage env req db).db := by
  unfold sendTextMessage
  split
  · exact totalsLe_refl db
  · split
    · exact totalsLe_refl db
    · rename_i conversation hfind
      apply totalsLe_persistAndNotify
      rw [(findOne_mem hfind).2.1]
      exact findOne_findById hwf hfind

theorem totalsLe_sendPaymentRequest (env : Env) (req : PaymentRequest) (db : Store)
    (hwf : db.WellFormed) : db.totalsLe (sendPaymentRequest env req db).db := by
  unfold sendPaymentRequest
  split
  · exact totalsLe_refl db
  · rename_i conversation hfind
    apply totalsLe_persistAndNotify
    rw [(findOne_mem hfind).2.1]
    exact findOne_findById hwf hfind

theorem totalsLe_sendFileMessage (env : Env) (req : FileRequest) (db : Store)
    (hwf : db.WellFormed) : db.totalsLe (sendFileMessage env req db).db := by
  unfold sendFileMessage
  split
  · exact totalsLe_refl db
  · split
    · exact totalsLe_refl db
    · rename_i conversation hfind
      split
      · exact totalsLe_refl db
      · apply totalsLe_persistAndNotify
        rw [(findOne_mem hfind).2.1]
        exact findOne_findById hwf hfind

theorem totalsLe_sendVoiceMessage (env : Env) (req : FileRequest) (db : Store)
    (hwf : db.WellFormed) : db.totalsLe (sendVoiceMessage env req db).db := by
  unfold sendVoiceMessage
  split
  · exact totalsLe_refl db
  · split
    · exact totalsLe_refl db
    · rename_i conversation hfind
      split
      · exact totalsLe_refl db
      · apply totalsLe_persistAndNotify
        rw [(findOne_mem hfind).2.1]
        exact findOne_findById hwf hfind

theorem totalsLe_getMessages (now : Date) (conversationId userId : ObjectId) (page : Int)
    (limit : Nat) (db : Store) :
    db.totalsLe (getMessages now conversationId userId page limit db).db := by
  unfold getMessages
  split
  · exact totalsLe_refl db
  · split
    · exact totalsLe_refl db
    · simp only
      apply totalsLe_trans (b := pushReadReceipts db conversationId userId now)
      · exact totalsLe_of_conversations rfl
      · exact totalsLe_updateConversation _ _ _ (fun _ => rfl) (fun _ _ => le_refl _)

theorem totalsLe_onMessage (db : Store) (messageId : ObjectId)
    (method : Message → Store → Except String (Message × Store))
    (h : ∀ m, db.totalsLe (storeAfter db (method m db))) :
    db.totalsLe (onMessage db messageId method) := by
  unfold onMessage
  split
  · exact h _
  · exact totalsLe_refl db

theorem totalsLe_onConversation (db : Store) (conversationId : ObjectId)
    (method : Conversation → Store → Except String (Conversation × Store))
    (h : ∀ c, db.findById conversationId = some c → db.totalsLe (storeAfter db (method c db))) :
    db.totalsLe (onConversation db conversationId method) := by
  unfold onConversation
  split
  · rename_i c hc; exact h c hc
  · exact totalsLe_refl db

theorem totalsLe_messageMarkAsRead (this : Message) (userId : ObjectId) (now : Date)
    (db : Store) : db.totalsLe (storeAfter db (this.markAsRead userId now db)) := by
  unfold Message.markAsRead
  split
  · exact totalsLe_messageSave _ _ _ _
  · exact totalsLe_refl db

/-- No messaging operation decreases a stored counter. -/
theorem totalsLe_run (now : Date) (db : Store) (op : MessagingOp) (hwf : db.WellFormed) :
    db.totalsLe (op.run now db) := by
  cases op with
  | sendText env req => exact totalsLe_sendTextMessage env req db hwf
  | sendFile env req => exact totalsLe_sendFileMessage env req db hwf
  | sendVoice env req => exact totalsLe_sendVoiceMessage env req db hwf
  | sendPayment env req => exact totalsLe_sendPaymentRequest env req db hwf
  | editContent messageId newContent =>
      exact totalsLe_onMessage db messageId _ (fun _ => totalsLe_messageSave _ _ _ _)
  | softDelete messageId deletedBy =>
      exact totalsLe_onMessage db messageId _ (fun _ => totalsLe_messageSave _ _ _ _)
  | messageMarkAsRead messageId userId =>
      exact totalsLe_onMessage db messageId _ (fun m => totalsLe_messageMarkAsRead m _ _ _)
  | addReaction messageId userId emoji =>
      exact totalsLe_onMessage db messageId _ (fun _ => totalsLe_messageSave _ _ _ _)
  | removeReaction messageId userId =>
      exact totalsLe_onMessage db messageId _ (fun _ => totalsLe_messageSave _ _ _ _)
  | flag messageId flaggedBy reason =>
      exact totalsLe_onMessage db messageId _ (fun _ => totalsLe_messageSave _ _ _ _)
  | listMessages conversationId userId page limit =>
      exact totalsLe_getMessages now conversationId userId page limit db
  | conversationMarkAsRead conversationId userId =>
      exact totalsLe_onConversation db conversationId _
        (fun c _ => totalsLe_conversationMarkAsRead c _ _ _)
  | incrementUnreadCount conversationId senderId =>
      exact totalsLe_onConversation db conversationId _
        (fun c _ => totalsLe_incrementUnreadCount c _ _ _)
  | updateLastMessage conversationId messageId =>
      simp only [MessagingOp.run]
      split
      · apply totalsLe_onConversation
        intro c hc
        apply totalsLe_updateLastMessage
        intro stored hst
        rw [findById_id hc, hc] at hst
        cases hst
        exact Nat.le_succ _
      · exact totalsLe_refl db
  | archive conversationId =>
      exact totalsLe_onConversation db conversationId _ (fun c _ => totalsLe_archive c _ _)
  | unarchive conversationId =>
      exact totalsLe_onConversation db conversationId _ (fun c _ => totalsLe_unarchive c _ _)
  | addParticipant conversationId userId =>
      exact totalsLe_onConversation db conversationId _
        (fun c _ => totalsLe_addParticipant c _ _ _)
  | removeParticipant conversationId userId =>
      exact totalsLe_onConversation db conversationId _
        (fun c _ => totalsLe_removeParticipant c _ _ _)

/-! ## Lemmas: no operation adds, removes or renames a conversation -/

theorem rewrites_refl (db : Store) : db.Rewrites db :=
  ⟨id, fun _ => rfl, by simp⟩

theorem rewrites_trans {a b c : Store} (hab : a.Rewrites b) (hbc : b.Rewrites c) :
    a.Rewrites c := by
  obtain ⟨f, hf, hfe⟩ := hab
  obtain ⟨g, hg, hge⟩ := hbc
  refine ⟨fun x => g (f x), fun x => (hg (f x)).trans (hf x), ?_⟩
  rw [hge, hfe, List.map_map]
  rfl

theorem rewrites_of_conversations {a b : Store} (h : b.conversations = a.conversations) :
    a.Rewrites b :=
  ⟨id, fun _ => rfl, by simp [h]⟩

theorem rewrites_updateConversation (db : Store) (id : ObjectId)
    (f : Conversation → Conversation) (hf : ∀ c, (f c)._id = c._id) :
    db.Rewrites (db.updateConversation id f) := by
  refine ⟨fun stored => if stored._id == id then f stored else stored, ?_, rfl⟩
  intro c
  show (if c._id == id then f c else c)._id = c._id
  split
  · exact hf c
  · rfl

theorem rewrites_wellFormed {db db1 : Store} (h : db.Rewrites db1) (hwf : db.WellFormed) :
    db1.WellFormed := by
  obtain ⟨f, hf, hfe⟩ := h
  unfold Store.WellFormed at hwf ⊢
  rw [hfe, List.map_map]
  have : ((fun c : Conversation => c._id) ∘ f) = (fun c : Conversation => c._id) := by
    funext c
    exact hf c
  rw [this]
  exact hwf

theorem rewrites_save (doc : Conversation) (modified : List ConvPath) (now : Date) (db : Store) :
    db.Rewrites (storeAfter db (doc.save modified now db)) := by
  cases hv : modified.all doc.validatePath
  · rw [save_error doc modified now db hv]; exact rewrites_refl db
  · rw [save_ok doc modified now db hv]
    exact rewrites_updateConversation _ _ _ (fun _ => writePaths_id _ _ _)

theorem rewrites_postSave (doc : Message) (now : Date) (db : Store) :
    db.Rewrites (Message.postSave doc now db) := by
  cases hdel : doc.flags.isDeleted
  swap
  · rw [postSave_deleted doc now db hdel]; exact rewrites_refl db
  cases hfind : db.findById doc.conversation with
  | none => rw [postSave_notFound doc now db hfind]; exact rewrites_refl db
  | some c =>
      by_cases ht : doc.type ∈ lastMessageTypeEnum
      swap
      · rw [postSave_badType doc now db ht]; exact rewrites_refl db
      cases hs : doc.sender with
      | none =>
          rw [postSave_noSender doc now db c hdel hfind ht hs]
          exact rewrites_updateConversation _ _ _ (fun _ => rfl)
      | some sender =>
          rw [postSave_ok doc now db c sender hdel hfind ht hs]
          exact rewrites_updateConversation _ _ _ (fun _ => rfl)

theorem rewrites_messageSave (this : Message) (isNew : Bool) (now : Date) (db : Store) :
    db.Rewrites (storeAfter db (this.save isNew now db)) := by
  unfold Message.save
  cases hv : this.validate
  · exact rewrites_refl db
  · simp only [if_true, storeAfter]
    refine rewrites_trans (rewrites_of_conversations ?_) (rewrites_postSave _ _ _)
    cases isNew <;> rfl

theorem rewrites_persistAndNotify (env : Env) (conversation : Conversation) (message : Message)
    (failure : String) (uploaded : List String) (db : Store) :
    db.Rewrites (persistAndNotify env conversation message failure uploaded db).db := by
  unfold persistAndNotify
  cases hsave : message.save true env.now db with
  | error e => exact rewrites_refl db
  | ok r =>
      obtain ⟨m1, db1⟩ := r
      have h01 : db.Rewrites db1 := by
        have := rewrites_messageSave message true env.now db
        rw [hsave] at this
        exact this
      simp only
      cases hup : conversation.updateLastMessage m1 env.now db1 with
      | error e => exact h01
      | ok r2 =>
          obtain ⟨c2, db2⟩ := r2
          have h12 : db1.Rewrites db2 := by
            have := rewrites_save
              ({ conversation with
                  lastMessage :=
                    { content := some (jsTrim m1.content), sender := m1.sender,
                      sentAt := some m1.createdAt, messageType := m1.type },
                  metadata := { conversation.metadata with
                    totalMessages := conversation.metadata.totalMessages + 1,
                    lastActivity := env.now } } : Conversation)
              [.lastMessage, .totalMessages, .lastActivity] env.now db1
            unfold Conversation.updateLastMessage at hup
            rw [hup] at this
            exact this
          exact rewrites_trans h01 h12

theorem rewrites_send (env : Env) (req : SendRequest) (db : Store) :
    db.Rewrites (send env req db).db := by
  cases req with
  | text r =>
      simp only [send, sendTextMessage]
      split
      · exact rewrites_refl db
      · split
        · exact rewrites_refl db
        · exact rewrites_persistAndNotify _ _ _ _ _ _
  | file r =>
      simp only [send, sendFileMessage]
      split
      · exact rewrites_refl db
      · split
        · exact rewrites_refl db
        · split
          · exact rewrites_refl db
          · exact rewrites_persistAndNotify _ _ _ _ _ _
  | voice r =>
      simp only [send, sendVoiceMessage]
      split
      · exact rewrites_refl db
      · split
        · exact rewrites_refl db
        · split
          · exact rewrites_refl db
          · exact rewrites_persistAndNotify _ _ _ _ _ _
  | payment r =>
      simp only [send, sendPaymentRequest]
      split
      · exact rewrites_refl db
      · exact rewrites_persistAndNotify _ _ _ _ _ _

theorem rewrites_getMessages (now : Date) (conversationId userId : ObjectId) (page : Int)
    (limit : Nat) (db : Store) :
    db.Rewrites (getMessages now conversationId userId page limit db).db := by
  unfold getMessages
  split
  · exact rewrites_refl db
  · split
    · exact rewrites_refl db
    · simp only
      apply rewrites_trans (b := pushReadReceipts db conversationId userId now)
      · exact rewrites_of_conversations rfl
      · exact rewrites_updateConversation _ _ _ (fun _ => rfl)

theorem rewrites_onMessage (db : Store) (messageId : ObjectId)
    (method : Message → Store → Except String (Message × Store))
    (h : ∀ m, db.Rewrites (storeAfter db (method m db))) :
    db.Rewrites (onMessage db messageId method) := by
  unfold onMessage
  split
  · exact h _
  · exact rewrites_refl db

theorem rewrites_onConversation (db : Store) (conversationId : ObjectId)
    (method : Conversation → Store → Except String (Conversation × Store))
    (h : ∀ c, db.Rewrites (storeAfter db (method c db))) :
    db.Rewrites (onConversation db conversationId method) := by
  unfold onConversation
  split
  · exact h _
  · exact rewrites_refl db

/-- No messaging operation adds, removes, reorders or renames a stored
conversation. -/
theorem rewrites_run (now : Date) (db : Store) (op : MessagingOp) :
    db.Rewrites (op.run now db) := by
  cases op with
  | sendText env req => exact rewrites_send env (.text req) db
  | sendFile env req => exact rewrites_send env (.file req) db
  | sendVoice env req => exact rewrites_send env (.voice req) db
  | sendPayment env req => exact rewrites_send env (.payment req) db
  | editContent messageId newContent =>
      exact rewrites_onMessage db messageId _ (fun _ => rewrites_messageSave _ _ _ _)
  | softDelete messageId deletedBy =>
      exact rewrites_onMessage db messageId _ (fun _ => rewrites_messageSave _ _ _ _)
  | messageMarkAsRead messageId userId =>
      refine rewrites_onMessage db messageId _ (fun m => ?_)
      simp only [Message.markAsRead]
      split
      · exact rewrites_messageSave _ _ _ _
      · exact rewrites_refl db
  | addReaction messageId userId emoji =>
      exact rewrites_onMessage db messageId _ (fun _ => rewrites_messageSave _ _ _ _)
  | removeReaction messageId userId =>
      exact rewrites_onMessage db messageId _ (fun _ => rewrites_messageSave _ _ _ _)
  | flag messageId flaggedBy reason =>
      exact rewrites_onMessage db messageId _ (fun _ => rewrites_messageSave _ _ _ _)
  | listMessages conversationId userId page limit =>
      exact rewrites_getMessages now conversationId userId page limit db
  | conversationMarkAsRead conversationId userId =>
      refine rewrites_onConversation db conversationId _ (fun c => ?_)
      simp only [Conversation.markAsRead]
      split
      · exact rewrites_save _ _ _ _
      · exact rewrites_refl db
  | incrementUnreadCount conversationId senderId =>
      exact rewrites_onConversation db conversationId _ (fun _ => rewrites_save _ _ _ _)
  | updateLastMessage conversationId messageId =>
      simp only [MessagingOp.run]
      split
      · exact rewrites_onConversation db conversationId _ (fun _ => rewrites_save _ _ _ _)
      · exact rewrites_refl db
  | archive conversationId =>
      exact rewrites_onConversation db conversationId _ (fun _ => rewrites_save _ _ _ _)
  | unarchive conversationId =>
      exact rewrites_onConversation db conversationId _ (fun _ => rewrites_save _ _ _ _)
  | addParticipant conversationId userId =>
      refine rewrites_onConversation db conversationId _ (fun c => ?_)
      simp only [Conversation.addParticipant]
      split
      · exact rewrites_save _ _ _ _
      · exact rewrites_refl db
  | removeParticipant conversationId userId =>
      refine rewrites_onConversation db conversationId _ (fun c => ?_)
      simp only [Conversation.removeParticipant]
      split
      · exact rewrites_save _ _ _ _
      · exact rewrites_refl db

/-- Unique conversation ids are kept, and no counter decreases, along every
sequence of messaging operations. -/
theorem totalsLe_runAll (ops : List (Date × MessagingOp)) (db : Store) (hwf : db.WellFormed) :
    (MessagingOp.runAll db ops).WellFormed ∧ db.totalsLe (MessagingOp.runAll db ops) := by
  induction ops generalizing db with
  | nil => exact ⟨hwf, totalsLe_refl db⟩
  | cons op ops ih =>
      have hwf1 : (op.2.run op.1 db).WellFormed :=
        rewrites_wellFormed (rewrites_run op.1 db op.2) hwf
      obtain ⟨h1, h2⟩ := ih (op.2.run op.1 db) hwf1
      exact ⟨h1, totalsLe_trans (totalsLe_run op.1 db op.2 hwf) h2⟩

/-! ## Lemmas: a send that is answered 201 -/

theorem toStore_fields (this : Message) (isNew : Bool) (now : Date) :
    (this.toStore isNew now)._id = this._id ∧
    (this.toStore isNew now).conversation = this.conversation ∧
    (this.toStore isNew now).sender = this.sender ∧
    (this.toStore isNew now).type = this.type ∧
    (this.toStore isNew now).content = this.content ∧
    (this.toStore isNew now).flags = this.flags ∧
    (this.toStore isNew now).readBy = this.readBy ∧
    (this.toStore isNew now).paymentData = this.paymentData := by
  unfold Message.toStore Message.preSave
  cases isNew <;> simp only [if_true, if_false, Bool.false_eq_true] <;> split <;> simp

/-- The document a successful save of a new message resolves to. -/
theorem save_new_ok (this : Message) (now : Date) (db : Store) (h : this.validate = true) :
    this.save true now db = .ok (this.toStore true now,
      Message.postSave (this.toStore true now) now
        { db with messages := db.messages ++ [this.toStore true now] }) := by
  simp [Message.save, h]

theorem save_invalid (this : Message) (isNew : Bool) (now : Date) (db : Store)
    (h : this.validate = false) : this.save isNew now db = .error "ValidationError" := by
  simp [Message.save, h]

theorem postSave_messages (doc : Message) (now : Date) (db : Store) :
    (Message.postSave doc now db).messages = db.messages := by
  cases hdel : doc.flags.isDeleted
  swap
  · rw [postSave_deleted doc now db hdel]
  cases hfind : db.findById doc.conversation with
  | none => rw [postSave_notFound doc now db hfind]
  | some c =>
      by_cases ht : doc.type ∈ lastMessageTypeEnum
      swap
      · rw [postSave_badType doc now db ht]
      cases hs : doc.sender with
      | none => rw [postSave_noSender doc now db c hdel hfind ht hs]; rfl
      | some sender => rw [postSave_ok doc now db c sender hdel hfind ht hs]; rfl

/-- The outcome of the common tail when the message passes the Message schema
and its type is admitted by `lastMessage.messageType`. -/
theorem persistAndNotify_ok (env : Env) (conversation : Conversation) (message : Message)
    (failure : String) (uploaded : List String) (db : Store) (u : ObjectId)
    (hfresh : db.findById conversation._id = some conversation)
    (hconv : message.conversation = conversation._id)
    (hdel : message.flags.isDeleted = false)
    (hs : message.sender = some u)
    (hv : message.validate = true)
    (ht : message.type ∈ lastMessageTypeEnum) :
    persistAndNotify env conversation message failure uploaded db =
      { response := { status := 201, success := true, data := some (message.toStore true env.now) },
        db := Store.updateConversation
          { db with messages := db.messages ++ [message.toStore true env.now] }
          conversation._id
          (fun stored =>
            ((stored.withLastMessage (message.toStore true env.now)
                conversation.metadata.totalMessages env.now).withReadStatus
              (bumpUnread u conversation.readStatus) env.now).withLastMessage
                (message.toStore true env.now) conversation.metadata.totalMessages env.now),
        emitted := emitNewMessage env conversation._id (message.toStore true env.now),
        uploaded := uploaded } := by
  obtain ⟨-, pconv, psender, ptype, -, pflags, -, -⟩ := toStore_fields message true env.now
  have ht1 : (message.toStore true env.now).type ∈ lastMessageTypeEnum := by rw [ptype]; exact ht
  have hc1 : (message.toStore true env.now).conversation = conversation._id := by
    rw [pconv, hconv]
  have hpost := postSave_ok (message.toStore true env.now) env.now
    { db with messages := db.messages ++ [message.toStore true env.now] }
    conversation u (by rw [pflags]; exact hdel) (by rw [hc1]; exact hfresh) ht1
    (by rw [psender]; exact hs)
  unfold persistAndNotify
  rw [save_new_ok message env.now db hv]
  simp only
  rw [updateLastMessage_ok conversation _ env.now _ ht1]
  simp only
  rw [hpost, hc1]
  congr 1
  apply updateConversation_twice
  intro c
  rfl

/-- The outcome of the common tail when the message passes the Message schema
and its type is not admitted by `lastMessage.messageType`: the message is
stored, the conversation is not touched, the answer is 500. -/
theorem persistAndNotify_badType (env : Env) (conversation : Conversation) (message : Message)
    (failure : String) (uploaded : List String) (db : Store)
    (hv : message.validate = true)
    (ht : message.type ∉ lastMessageTypeEnum) :
    persistAndNotify env conversation message failure uploaded db =
      { response := { status := 500, success := false, message := some failure },
        db := { db with messages := db.messages ++ [message.toStore true env.now] },
        uploaded := uploaded } := by
  obtain ⟨-, -, -, ptype, -, -, -, -⟩ := toStore_fields message true env.now
  have ht1 : (message.toStore true env.now).type ∉ lastMessageTypeEnum := by rw [ptype]; exact ht
  unfold persistAndNotify
  rw [save_new_ok message env.now db hv]
  simp only
  rw [updateLastMessage_error conversation _ env.now _ ht1, postSave_badType _ _ _ ht1]

/-- The outcome of the common tail when the Message schema rejects the
message: nothing is stored, the answer is 500. -/
theorem persistAndNotify_invalid (env : Env) (conversation : Conversation) (message : Message)
    (failure : String) (uploaded : List String) (db : Store)
    (hv : message.validate = false) :
    persistAndNotify env conversation message failure uploaded db =
      { response := { status := 500, success := false, message := some failure },
        db := db, uploaded := uploaded } := by
  unfold persistAndNotify
  rw [save_invalid message true env.now db hv]

/-- The common tail answers 201 only along the path of `persistAndNotify_ok`. -/
theorem persistAndNotify_created (env : Env) (conversation : Conversation) (message : Message)
    (failure : String) (uploaded : List String) (db : Store) (u : ObjectId)
    (hfresh : db.findById conversation._id = some conversation)
    (hconv : message.conversation = conversation._id)
    (hdel : message.flags.isDeleted = false)
    (hs : message.sender = some u)
    (htrim : jsTrim message.content = message.content)
    (h201 : (persistAndNotify env conversation message failure uploaded db).response.status = 201) :
    ∃ (m : Message) (c1 : Conversation),
      (persistAndNotify env conversation message failure uploaded db).response.data = some m ∧
      (persistAndNotify env conversation message failure uploaded db).db.messages
        = db.messages ++ [m] ∧
      m.conversation = conversation._id ∧ m.sender = some u ∧
      m.content = message.content ∧ m.type = message.type ∧
      (persistAndNotify env conversation message failure uploaded db).db.findById conversation._id
        = some c1 ∧
      c1.metadata.totalMessages = conversation.metadata.totalMessages + 1 ∧
      c1.lastMessage = { content := some m.content, sender := m.sender,
                         sentAt := some m.createdAt, messageType := m.type } ∧
      c1.readStatus = bumpUnread u conversation.readStatus ∧
      c1.participants = conversation.participants := by
  obtain ⟨-, pconv, psender, ptype, pcontent, -, -, -⟩ := toStore_fields message true env.now
  cases hv : message.validate
  · rw [persistAndNotify_invalid _ _ _ _ _ _ hv] at h201
    simp at h201
  by_cases ht : message.type ∈ lastMessageTypeEnum
  swap
  · rw [persistAndNotify_badType _ _ _ _ _ _ hv ht] at h201
    simp at h201
  rw [persistAndNotify_ok env conversation message failure uploaded db u hfresh hconv hdel hs hv ht]
  refine ⟨message.toStore true env.now,
    ((conversation.withLastMessage (message.toStore true env.now)
        conversation.metadata.totalMessages env.now).withReadStatus
      (bumpUnread u conversation.readStatus) env.now).withLastMessage
        (message.toStore true env.now) conversation.metadata.totalMessages env.now,
    rfl, rfl, pconv.trans hconv, psender.trans hs, pcontent, ptype, ?_, ?_⟩
  · rw [findById_updateConversation _ _ _ _ (by intro c; rfl)]
    simp only [if_true]
    rw [show Store.findById { db with messages := db.messages ++ [message.toStore true env.now] }
      conversation._id = some conversation from hfresh]
    rfl
  · refine ⟨rfl, ?_, rfl, rfl⟩
    show ({ content := some (jsTrim (message.toStore true env.now).content),
            sender := _, sentAt := _, messageType := _ } : LastMessage) = _
    rw [pcontent, htrim]

/-- A send answered 201, on a store with unique conversation ids: the message
of the answer is stored once, and the stored conversation has its counter
raised by exactly 1, the snapshot of the message as last message and the
unread count of every participant other than the sender raised by 1. -/
theorem send_created (env : Env) (req : SendRequest) (db : Store) (hwf : db.WellFormed)
    (h201 : (send env req db).response.status = 201) :
    ∃ (c : Conversation) (m : Message) (c1 : Conversation),
      db.findById req.conversationId = some c ∧ req.userId ∈ c.participants ∧
      (send env req db).response.data = some m ∧
      (send env req db).db.messages = db.messages ++ [m] ∧
      m.conversation = req.conversationId ∧ m.sender = some req.userId ∧
      (send env req db).db.findById req.conversationId = some c1 ∧
      c1.metadata.totalMessages = c.metadata.totalMessages + 1 ∧
      c1.lastMessage = { content := some m.content, sender := m.sender,
                         sentAt := some m.createdAt, messageType := m.type } ∧
      c1.readStatus = bumpUnread req.userId c.readStatus ∧
      c1.participants = c.participants := by
  have key : ∀ (conversation : Conversation) (message : Message) (failure : String)
      (uploaded : List String),
      db.findOne req.conversationId req.userId = some conversation →
      message.conversation = req.conversationId → message.flags.isDeleted = false →
      message.sender = some req.userId → jsTrim message.content = message.content →
      (persistAndNotify env conversation message failure uploaded db).response.status = 201 →
      ∃ (c : Conversation) (m : Message) (c1 : Conversation),
        db.findById req.conversationId = some c ∧ req.userId ∈ c.participants ∧
        (persistAndNotify env conversation message failure uploaded db).response.data = some m ∧
        (persistAndNotify env conversation message failure uploaded db).db.messages
          = db.messages ++ [m] ∧
        m.conversation = req.conversationId ∧ m.sender = some req.userId ∧
        (persistAndNotify env conversation message failure uploaded db).db.findById
          req.conversationId = some c1 ∧
        c1.metadata.totalMessages = c.metadata.totalMessages + 1 ∧
        c1.lastMessage = { content := some m.content, sender := m.sender,
                           sentAt := some m.createdAt, messageType := m.type } ∧
        c1.readStatus = bumpUnread req.userId c.readStatus ∧
        c1.participants = c.participants := by
    intro conversation message failure uploaded hone hconv hdel hs htrim h
    obtain ⟨_, hid, hu⟩ := findOne_mem hone
    have hfresh : db.findById conversation._id = some conversation := by
      rw [hid]; exact findOne_findById hwf hone
    obtain ⟨m, c1, h1, h2, h3, h4, _, _, h7, h8, h9, h10, h11⟩ :=
      persistAndNotify_created env conversation message failure uploaded db req.userId hfresh
        (hconv.trans hid.symm) hdel hs htrim h
    rw [hid] at h3 h7 hfresh
    exact ⟨conversation, m, c1, hfresh, hu, h1, h2, h3, h4, h7, h8, h9, h10, h11⟩
  cases req with
  | text r =>
      cases hval : validateTextMessage r
      · simp [send, sendTextMessage, hval] at h201
      · cases hone : db.findOne r.conversationId r.userId with
        | none => simp [send, sendTextMessage, hval, hone, conversationNotFound] at h201
        | some conversation =>
            simp only [send, sendTextMessage, hval, hone, Bool.not_true, Bool.false_eq_true,
              if_false] at h201 ⊢
            exact key conversation _ _ _ hone rfl rfl rfl (jsTrim_idempotent _) h201
  | file r =>
      cases hfile : r.file with
      | none => simp [send, sendFileMessage, hfile] at h201
      | some file =>
          cases hone : db.findOne r.conversationId r.userId with
          | none => simp [send, sendFileMessage, hfile, hone, conversationNotFound] at h201
          | some conversation =>
              cases hup : r.upload with
              | none => simp [send, sendFileMessage, hfile, hone, hup] at h201
              | some up =>
                  simp only [send, sendFileMessage, hfile, hone, hup] at h201 ⊢
                  exact key conversation _ _ _ hone rfl rfl rfl (jsTrim_idempotent _) h201
  | voice r =>
      cases hfile : r.file with
      | none => simp [send, sendVoiceMessage, hfile] at h201
      | some file =>
          cases hone : db.findOne r.conversationId r.userId with
          | none => simp [send, sendVoiceMessage, hfile, hone, conversationNotFound] at h201
          | some conversation =>
              cases hup : r.upload with
              | none => simp [send, sendVoiceMessage, hfile, hone, hup] at h201
              | some up =>
                  simp only [send, sendVoiceMessage, hfile, hone, hup] at h201 ⊢
                  exact key conversation _ _ _ hone rfl rfl rfl (jsTrim_idempotent _) h201
  | payment r =>
      cases hone : db.findOne r.conversationId r.userId with
      | none => simp [send, sendPaymentRequest, hone, conversationNotFound] at h201
      | some conversation =>
          simp only [send, sendPaymentRequest, hone] at h201 ⊢
          exact key conversation _ _ _ hone rfl rfl rfl (jsTrim_idempotent _) h201

/-- The common tail never answers 201 for a message whose type is outside the
enum of `lastMessage.messageType`. -/
theorem persistAndNotify_badType_status (env : Env) (conversation : Conversation)
    (message : Message) (failure : String) (uploaded : List String) (db : Store)
    (ht : message.type ∉ lastMessageTypeEnum) :
    (persistAndNotify env conversation message failure uploaded db).response.status = 500 := by
  cases hv : message.validate
  · rw [persistAndNotify_invalid _ _ _ _ _ _ hv]
  · rw [persistAndNotify_badType _ _ _ _ _ _ hv ht]

/-- No send to the voice endpoint or to the payment-request endpoint is ever
answered 201: the types `voice` and `payment_request` are outside the enum of
`lastMessage.messageType`, so the handler's `updateLastMessage` is rejected
whenever the message itself was stored. -/
theorem voice_and_payment_sends_never_created (env : Env) (db : Store) :
    (∀ r : FileRequest, (send env (.voice r) db).response.status ≠ 201) ∧
    (∀ r : PaymentRequest, (send env (.payment r) db).response.status ≠ 201) := by
  constructor
  · intro r
    simp only [send, sendVoiceMessage]
    split
    · simp
    · split
      · simp [conversationNotFound]
      · split
        · simp
        · rw [persistAndNotify_badType_status _ _ _ _ _ _
            (show "voice" ∉ lastMessageTypeEnum by decide)]
          simp
  · intro r
    simp only [send, sendPaymentRequest]
    split
    · simp [conversationNotFound]
    · rw [persistAndNotify_badType_status _ _ _ _ _ _
        (show "payment_request" ∉ lastMessageTypeEnum by decide)]
      simp

/-! ## Lemmas: a sender who is not a participant -/

theorem findOne_none_of_not_participant (db : Store) (id u : ObjectId)
    (h : db.isParticipant id u = false) : db.findOne id u = none := by
  unfold Store.findOne
  unfold Store.isParticipant at h
  rw [List.find?_eq_none]
  intro c hc
  have := (List.any_eq_false.mp h) c hc
  simpa using this

/-- Every send handler turns a sender who is not a participant away before it
touches the store, the gateway or the storage service. -/
theorem send_not_participant (env : Env) (req : SendRequest) (db : Store)
    (h : db.isParticipant req.conversationId req.userId = false) :
    send env req db =
      { response :=
          if req.precheck then conversationNotFound
          else match req with
            | .text _ => { status := 400, success := false, message := some "Validation failed" }
            | .file _ => { status := 400, success := false, message := some "No file uploaded" }
            | .voice _ =>
                { status := 400, success := false, message := some "No audio file uploaded" }
            | .payment _ => conversationNotFound,
        db := db } := by
  have hnone := findOne_none_of_not_participant db _ _ h
  cases req with
  | text r =>
      simp only [SendRequest.conversationId, SendRequest.userId] at hnone
      simp only [send, sendTextMessage, SendRequest.precheck]
      cases hv : validateTextMessage r
      · simp
      · simp [hnone]
  | file r =>
      simp only [SendRequest.conversationId, SendRequest.userId] at hnone
      simp only [send, sendFileMessage, SendRequest.precheck]
      cases hf : r.file with
      | none => simp
      | some f => simp [hnone]
  | voice r =>
      simp only [SendRequest.conversationId, SendRequest.userId] at hnone
      simp only [send, sendVoiceMessage, SendRequest.precheck]
      cases hf : r.file with
      | none => simp
      | some f => simp [hnone]
  | payment r =>
      simp only [SendRequest.conversationId, SendRequest.userId] at hnone
      simp [send, sendPaymentRequest, SendRequest.precheck, hnone]

/-! ## Lemmas: read status -/

theorem markFirstRead_length (u : ObjectId) (now : Date) (l : List ReadStatus) :
    (markFirstRead u now l).length = l.length := by
  induction l with
  | nil => rfl
  | cons rs rest ih =>
      unfold markFirstRead
      split
      · rfl
      · simp [ih]

theorem markFirstRead_others (u : ObjectId) (now : Date) (l : List ReadStatus) (i : Nat)
    (rs : ReadStatus) (h : l[i]? = some rs) (hu : rs.user ≠ u) :
    (markFirstRead u now l)[i]? = some rs := by
  induction l generalizing i with
  | nil => simp at h
  | cons r rest ih =>
      unfold markFirstRead
      cases i with
      | zero =>
          simp only [List.getElem?_cons_zero, Option.some.injEq] at h
          subst h
          have : ¬ (r.user == u) = true := by simpa using hu
          simp [this]
      | succ j =>
          simp only [List.getElem?_cons_succ] at h
          split
          · simpa using h
          · simpa using ih j h

theorem markFirstRead_find (u : ObjectId) (now : Date) (l : List ReadStatus) :
    (markFirstRead u now l).find? (fun rs => rs.user == u) =
      (l.find? (fun rs => rs.user == u)).map
        (fun rs => { rs with lastReadAt := now, unreadCount := 0 }) := by
  induction l with
  | nil => rfl
  | cons r rest ih =>
      unfold markFirstRead
      by_cases hr : r.user = u
      · simp [hr]
      · simp [hr, ih]

theorem bumpUnread_getElem (senderId : ObjectId) (l : List ReadStatus) (i : Nat) :
    (bumpUnread senderId l)[i]? = (l[i]?).map (fun rs =>
      if rs.user = senderId then rs else { rs with unreadCount := rs.unreadCount + 1 }) := by
  unfold bumpUnread
  rw [List.getElem?_map]
  cases l[i]? with
  | none => rfl
  | some rs =>
      by_cases h : rs.user = senderId <;> simp [h]

/-! ## Lemmas: message methods -/

theorem softDelete_conversations (this : Message) (deletedBy : ObjectId) (now : Date)
    (db : Store) :
    (storeAfter db (this.softDelete deletedBy now db)).conversations = db.conversations := by
  unfold Message.softDelete Message.save
  simp only
  split
  · simp only [storeAfter]
    rw [postSave_deleted]
    · rfl
    · rw [(toStore_fields _ _ _).2.2.2.2.2.1]
  · rfl

theorem getMessages_statuses (now : Date) (conversationId userId : ObjectId) (page : Int)
    (limit : Nat) (db : Store) :
    (getMessages now conversationId userId page limit db).db.messages.map (fun m => (m._id, m.status))
      = db.messages.map (fun m => (m._id, m.status)) := by
  unfold getMessages
  split
  · rfl
  · split
    · rfl
    · simp only [resetReadStatus, updateConversation_messages, pushReadReceipts, List.map_map]
      apply List.map_congr_left
      intro m _
      simp only [Function.comp]
      split <;> rfl

theorem persistAndNotify_data (env : Env) (conversation : Conversation) (message : Message)
    (failure : String) (uploaded : List String) (db : Store) (m : Message)
    (h : (persistAndNotify env conversation message failure uploaded db).response.data = some m) :
    m = message.toStore true env.now := by
  unfold persistAndNotify at h
  cases hv : message.validate
  · rw [save_invalid message true env.now db hv] at h
    simp at h
  · rw [save_new_ok message env.now db hv] at h
    simp only at h
    split at h
    · simp at h
    · simp only [Option.some.injEq] at h
      exact h.symm

theorem toStore_status_sent (this : Message) (isNew : Bool) (now : Date)
    (h : this.status = "sent") : (this.toStore isNew now).status = "sent" := by
  unfold Message.toStore Message.preSave
  cases isNew <;> simp [h]

/-- The message a send handler answers with has status `sent`. -/
theorem send_data_status (env : Env) (req : SendRequest) (db : Store) (m : Message)
    (h : (send env req db).response.data = some m) : m.status = "sent" := by
  cases req with
  | text r =>
      simp only [send, sendTextMessage] at h
      split at h
      · simp at h
      · split at h
        · simp [conversationNotFound] at h
        · rw [persistAndNotify_data _ _ _ _ _ _ _ h]
          exact toStore_status_sent _ _ _ rfl
  | file r =>
      simp only [send, sendFileMessage] at h
      split at h
      · simp at h
      · split at h
        · simp [conversationNotFound] at h
        · split at h
          · simp at h
          · rw [persistAndNotify_data _ _ _ _ _ _ _ h]
            exact toStore_status_sent _ _ _ rfl
  | voice r =>
      simp only [send, sendVoiceMessage] at h
      split at h
      · simp at h
      · split at h
        · simp [conversationNotFound] at h
        · split at h
          · simp at h
          · rw [persistAndNotify_data _ _ _ _ _ _ _ h]
            exact toStore_status_sent _ _ _ rfl
  | payment r =>
      simp only [send, sendPaymentRequest] at h
      split at h
      · simp [conversationNotFound] at h
      · rw [persistAndNotify_data _ _ _ _ _ _ _ h]
        exact toStore_status_sent _ _ _ rfl

theorem validate_markRead (this : Message) (u : ObjectId) (now : Date)
    (hv : this.validate = true) :
    Message.validate
      (if this.status == "delivered" then
        { this with readBy := this.readBy ++ [{ user := u, readAt := now }], status := "read" }
       else { this with readBy := this.readBy ++ [{ user := u, readAt := now }] }) = true := by
  unfold Message.validate at hv ⊢
  split
  · simp only [Bool.and_eq_true] at hv ⊢
    obtain ⟨⟨⟨⟨⟨⟨⟨⟨h1, h2⟩, h3⟩, h4⟩, h5⟩, _⟩, h7⟩, h8⟩, h9⟩ := hv
    exact ⟨⟨⟨⟨⟨⟨⟨⟨h1, h2⟩, h3⟩, h4⟩, h5⟩, by decide⟩, h7⟩, h8⟩, h9⟩
  · exact hv

theorem toStore_not_delivered (this : Message) (now : Date)
    (h : this.status ≠ "delivered") : this.toStore false now = this := by
  unfold Message.toStore Message.preSave
  have : ¬ (this.status == "delivered") = true := by simpa using h
  simp [this]

theorem save_existing_ok (this : Message) (now : Date) (db : Store)
    (h : this.validate = true) :
    this.save false now db = .ok (this.toStore false now,
      Message.postSave (this.toStore false now) now
        { db with messages := db.messages.map (fun m =>
            if m._id == (this.toStore false now)._id then this.toStore false now else m) }) := by
  simp [Message.save, h]

/-- The document `markAsRead(u)` resolves to when `u` has no read receipt yet. -/
theorem messageMarkAsRead_new (this : Message) (u : ObjectId) (now : Date) (db : Store)
    (hv : this.validate = true)
    (hnone : this.readBy.find? (fun read => read.user == u) = none) :
    ∃ m1 db1, this.markAsRead u now db = .ok (m1, db1) ∧
      m1.status = (if this.status = "delivered" then "read" else this.status) ∧
      m1.readBy = this.readBy ++ [{ user := u, readAt := now }] := by
  have hval := validate_markRead this u now hv
  unfold Message.markAsRead
  simp only [hnone]
  refine ⟨_, _, save_existing_ok _ now db hval, ?_, ?_⟩
  · by_cases hd : this.status = "delivered"
    · have hb : (this.status == "delivered") = true := by simpa using hd
      simp only [hb, if_true]
      rw [toStore_not_delivered _ _ (by simp), if_pos hd]
    · have hb : (this.status == "delivered") = false := by simpa using hd
      simp only [hb, Bool.false_eq_true, if_false]
      rw [toStore_not_delivered _ _ (by simpa using hd), if_neg hd]
  · by_cases hd : this.status = "delivered"
    · have hb : (this.status == "delivered") = true := by simpa using hd
      simp only [hb, if_true]
      rw [toStore_not_delivered _ _ (by simp)]
    · have hb : (this.status == "delivered") = false := by simpa using hd
      simp only [hb, Bool.false_eq_true, if_false]
      rw [toStore_not_delivered _ _ (by simpa using hd)]

theorem conversationMarkAsRead_ok (this : Conversation) (u : ObjectId) (now : Date)
    (db : Store) (entry : ReadStatus)
    (h : this.readStatus.find? (fun rs => rs.user == u) = some entry) :
    this.markAsRead u now db = .ok (
      this.withReadStatus (markFirstRead u now this.readStatus) now,
      db.updateConversation this._id (fun stored =>
        stored.withReadStatus (markFirstRead u now this.readStatus) now)) := by
  simp [Conversation.markAsRead, h, Conversation.save, Conversation.validatePath,
    Conversation.writePaths, Conversation.writePath, Conversation.withReadStatus]

theorem find?_participant_of_find?_id (cs : List Conversation) (id u : ObjectId)
    (c : Conversation) (h : cs.find? (fun x => x._id == id) = some c)
    (hu : u ∈ c.participants) :
    cs.find? (fun x => x._id == id && x.participants.contains u) = some c := by
  induction cs with
  | nil => simp at h
  | cons x xs ih =>
      rw [List.find?_cons] at h ⊢
      cases hx : (x._id == id)
      · rw [hx] at h
        simp only [Bool.false_and]
        exact ih h
      · rw [hx] at h
        simp only [Option.some.injEq] at h
        subst h
        simp [hu]

theorem findOne_of_findById {db : Store} {id u : ObjectId} {c : Conversation}
    (h : db.findById id = some c) (hu : u ∈ c.participants) : db.findOne id u = some c :=
  find?_participant_of_find?_id db.conversations id u c h hu

/-! ## The claims -/

/-- Sends answered 201 count once.  For every send request to one of the four
endpoints that is answered 201, on a store with unique conversation ids: the
sender is a participant of the addressed conversation, exactly one message is
added to the store, and `metadata.totalMessages` of the conversation after the
send is its value before the send plus exactly 1.  Only text and file sends
whose type is in the enum of `lastMessage.messageType` reach this answer. -/
theorem send_answered_201_counts_once (env : Env) (req : SendRequest) (db : Store)
    (hwf : db.WellFormed) (h201 : (send env req db).response.status = 201) :
    db.isParticipant req.conversationId req.userId = true ∧
    (send env req db).db.messages.length = db.messages.length + 1 ∧
    ∃ n, db.totalMessages req.conversationId = some n ∧
      (send env req db).db.totalMessages req.conversationId = some (n + 1) := by
  obtain ⟨c, m, c1, hc, hu, -, hm, -, -, hc1, htot, -, -, -⟩ := send_created env req db hwf h201
  refine ⟨?_, by rw [hm]; simp, c.metadata.totalMessages, ?_, ?_⟩
  · unfold Store.isParticipant
    rw [List.any_eq_true]
    refine ⟨c, List.mem_of_find?_eq_some hc, ?_⟩
    simp [findById_id hc, hu]
  · simp [Store.totalMessages, hc]
  · simp [Store.totalMessages, hc1, htot]

/-- Scenario 1 for the sends answered 201: A's text "Hello" into C1 is
answered 201 and the counter of C1 goes from 0 to 1. -/
theorem send_answered_201_counts_once_witness :
    storeC1.WellFormed ∧
    (send (envAt 5) (.text helloRequest) storeC1).response.status = 201 ∧
    storeC1.totalMessages 1 = some 0 ∧
    (send (envAt 5) (.text helloRequest) storeC1).db.totalMessages 1 = some 1 ∧
    (storeC1.isParticipant 1 userA = true ∧
      (send (envAt 5) (.text helloRequest) storeC1).db.messages.length
        = storeC1.messages.length + 1 ∧
      ∃ n, storeC1.totalMessages 1 = some n ∧
        (send (envAt 5) (.text helloRequest) storeC1).db.totalMessages 1 = some (n + 1)) :=
  ⟨by decide, by decide, by decide, by decide,
    send_answered_201_counts_once (envAt 5) (.text helloRequest) storeC1 (by decide) (by decide)⟩

/-- Claim C1 evaluated at a send the code does not count.  Participant A of C1
sends a voice message to the voice endpoint, one of the four endpoints the
claim names.  The upload succeeds, the Message schema accepts the message and
the Message Store keeps it, so C1 holds one message more than before; but both
calls of `updateLastMessage` are rejected by the enum of
`lastMessage.messageType`, which lacks `voice`: `metadata.totalMessages` of C1
is still 0, not 0 + 1, and the handler answers 500 without removing the
message.  The same request as a text "Hello" is counted: 0 becomes 1. -/
theorem C1_stored_voice_send_not_counted :
    storeC1.isParticipant 1 userA = true ∧
    storeC1.totalMessages 1 = some 0 ∧
    (send (envAt 5) (.voice voiceRequest) storeC1).db.messages.map
        (fun m => (m._id, m.conversation, m.sender, m.type))
      = [(100, 1, some userA, "voice")] ∧
    (send (envAt 5) (.voice voiceRequest) storeC1).db.totalMessages 1 = some 0 ∧
    (send (envAt 5) (.voice voiceRequest) storeC1).response.status = 500 ∧
    (send (envAt 5) (.text helloRequest) storeC1).db.totalMessages 1 = some 1 := by
  decide

/-- Claim C2: on a store with unique conversation ids, along every sequence of
messaging operations (the four sends, `editContent`, `softDelete`,
`Message.markAsRead`, `addReaction`, `removeReaction`, `flag`, the listing
read, `Conversation.markAsRead`, `incrementUnreadCount`, `updateLastMessage`,
`archive`, `unarchive`, `addParticipant`, `removeParticipant`) every stored
conversation stays stored and its `metadata.totalMessages` never gets smaller;
and `softDelete` leaves the counter exactly as it was, so a soft-deleted
message still counts. -/
theorem C2_totalMessages_never_decreases (ops : List (Date × MessagingOp)) (db : Store)
    (hwf : db.WellFormed) (id : ObjectId) (n : Nat) (h : db.totalMessages id = some n) :
    (∃ n1, (MessagingOp.runAll db ops).totalMessages id = some n1 ∧ n ≤ n1) ∧
    (∀ now messageId deletedBy,
      ((MessagingOp.softDelete messageId deletedBy).run now db).totalMessages id = some n) := by
  refine ⟨(totalsLe_runAll ops db hwf).2 id n h, ?_⟩
  intro now messageId deletedBy
  rw [totalMessages_of_conversations _ id]
  · exact h
  · simp only [MessagingOp.run, onMessage]
    split
    · exact softDelete_conversations _ _ _ _
    · rfl

/-- Witness of claim C2: scenario 1 followed by the soft-delete of M1; the
counter of C1 goes from 0 to 1 and stays 1. -/
theorem C2_totalMessages_never_decreases_witness :
    storeC1.WellFormed ∧ storeC1.totalMessages 1 = some 0 ∧
    (MessagingOp.runAll storeC1
      [(5, .sendText (envAt 5) helloRequest), (6, .softDelete 100 userA)]).totalMessages 1
      = some 1 ∧
    ((∃ n1, (MessagingOp.runAll storeC1
        [(5, .sendText (envAt 5) helloRequest), (6, .softDelete 100 userA)]).totalMessages 1
        = some n1 ∧ 0 ≤ n1) ∧
     (∀ now messageId deletedBy,
       ((MessagingOp.softDelete messageId deletedBy).run now storeC1).totalMessages 1 = some 0)) :=
  ⟨by decide, by decide, by decide,
    C2_totalMessages_never_decreases
      [(5, .sendText (envAt 5) helloRequest), (6, .softDelete 100 userA)] storeC1 (by decide) 1 0
      (by decide)⟩

/-- Claim C3, the code at the failing input.  A sends "Hello" into C1 (B then
has one unread message, and one message of another sender since B last read);
A then edits that message: B's `unreadCount` is 2 while still only one message
was sent by another participant since B's `lastReadAt`. -/
theorem C3_edit_raises_unread_count :
    ((MessagingOp.sendText (envAt 5) helloRequest).run 5 storeC1).unreadCount 1 userB = some 1 ∧
    ((MessagingOp.sendText (envAt 5) helloRequest).run 5 storeC1).sentByOthersSince 1 userB
      = some 1 ∧
    ((MessagingOp.editContent 100 "Hi").run 6
      ((MessagingOp.sendText (envAt 5) helloRequest).run 5 storeC1)).unreadCount 1 userB
      = some 2 ∧
    ((MessagingOp.editContent 100 "Hi").run 6
      ((MessagingOp.sendText (envAt 5) helloRequest).run 5 storeC1)).sentByOthersSince 1 userB
      = some 1 := by
  decide

/-- Claim C4, the code at the failing input.  The payment request of scenario 4
(25.00, "Logo design") passes the route validators and comes from a
participant; the message is stored with `paymentData.status` pending, the
conversation documents are left exactly as they were, and the caller is
answered 500: the message is persisted without the conversation update and
without success. -/
theorem C4_payment_request_persisted_without_update :
    validatePaymentRequest logoPaymentRequest = true ∧
    storeC1.isParticipant 1 userA = true ∧
    (send (envAt 5) (.payment logoPaymentRequest) storeC1).db.messages.map
        (fun m => (m._id, m.conversation, m.type, m.paymentData.bind (fun p => p.status)))
      = [(100, 1, "payment_request", some "pending")] ∧
    (send (envAt 5) (.payment logoPaymentRequest) storeC1).db.conversations
      = storeC1.conversations ∧
    (send (envAt 5) (.payment logoPaymentRequest) storeC1).response.status = 500 ∧
    (send (envAt 5) (.payment logoPaymentRequest) storeC1).response.success = false := by
  decide

/-- Claim C5 as stated fails: the text send of a user who is not a participant
of C1 is answered 404, not 403. -/
theorem C5_not_participant_is_404 :
    storeC1.isParticipant 1 outsider = false ∧
    (send (envAt 5) (.text outsiderRequest) storeC1).response.status = 404 ∧
    ¬ (send (envAt 5) (.text outsiderRequest) storeC1).response.status = 403 := by
  decide

/-- Claim C5, amended: a send by a user who is not a current participant of
the addressed conversation is answered 404 `Conversation not found` (400 when
the check that precedes the lookup already rejects the request), without
success and without data; the store is unchanged, no real-time event is
emitted and nothing is uploaded. -/
theorem C5_not_participant_send_changes_nothing (env : Env) (req : SendRequest) (db : Store)
    (h : db.isParticipant req.conversationId req.userId = false) :
    (send env req db).response.status = (if req.precheck then 404 else 400) ∧
    (req.precheck = true → (send env req db).response = conversationNotFound) ∧
    (send env req db).response.success = false ∧
    (send env req db).response.data = none ∧
    (send env req db).db = db ∧
    (send env req db).emitted = [] ∧
    (send env req db).uploaded = [] := by
  rw [send_not_participant env req db h]
  cases hp : req.precheck
  · cases req <;> simp_all [SendRequest.precheck]
  · simp [conversationNotFound]

/-- Witness of claim C5 (amended) at the text send of the outsider into C1. -/
theorem C5_not_participant_send_changes_nothing_witness :
    storeC1.isParticipant 1 outsider = false ∧
    (send (envAt 5) (.text outsiderRequest) storeC1).response.status = 404 ∧
    (send (envAt 5) (.text outsiderRequest) storeC1).db = storeC1 ∧
    (send (envAt 5) (.text outsiderRequest) storeC1).emitted = [] :=
  have h := C5_not_participant_send_changes_nothing (envAt 5) (.text outsiderRequest) storeC1
    (by decide)
  ⟨by decide, h.1, h.2.2.2.2.1, h.2.2.2.2.2.1⟩

/-- Claim C6, the code at the failing input.  A payment request of 0.10 with an
empty description is rejected by the chain `validatePaymentRequest`, but the
handler stores the payment-request message all the same and answers 500, not a
400-class validation error. -/
theorem C6_invalid_payment_request_is_stored :
    validatePaymentRequest tinyPaymentRequest = false ∧
    storeC1.messages = [] ∧
    (send (envAt 5) (.payment tinyPaymentRequest) storeC1).db.messages.map
        (fun m => (m._id, m.type, m.paymentData.bind (fun p => p.amount),
          m.paymentData.bind (fun p => p.description)))
      = [(100, "payment_request", some 10, some "")] ∧
    (send (envAt 5) (.payment tinyPaymentRequest) storeC1).response.status = 500 := by
  decide

/-- Claim C7: `incrementUnreadCount(senderId)` succeeds on every conversation;
in the read-status array of the resolved document, which is also the array
written to the stored conversation, every entry keeps its position, its `user`
and its `lastReadAt`, the `unreadCount` of every entry of another user grows by
exactly 1 and the `unreadCount` of the sender's own entry is unchanged; the
participants, the last message and the message counter are not written. -/
theorem C7_incrementUnreadCount_bumps_others (this : Conversation) (senderId : ObjectId)
    (now : Date) (db : Store) :
    ∃ (doc : Conversation) (db1 : Store), this.incrementUnreadCount senderId now db = .ok (doc, db1) ∧
      doc.readStatus.length = this.readStatus.length ∧
      (∀ (i : Nat) (rs : ReadStatus), this.readStatus[i]? = some rs →
        ∃ rs1 : ReadStatus, doc.readStatus[i]? = some rs1 ∧ rs1.user = rs.user ∧
          rs1.lastReadAt = rs.lastReadAt ∧
          rs1.unreadCount = if rs.user = senderId then rs.unreadCount else rs.unreadCount + 1) ∧
      (db.findById this._id = some this →
        ∃ stored1 : Conversation, db1.findById this._id = some stored1 ∧
          stored1.readStatus = doc.readStatus ∧
          stored1.participants = this.participants ∧
          stored1.lastMessage = this.lastMessage ∧
          stored1.metadata.totalMessages = this.metadata.totalMessages) := by
  refine ⟨_, _, incrementUnreadCount_ok this senderId now db, ?_, ?_, ?_⟩
  · simp [Conversation.withReadStatus, bumpUnread]
  · intro i rs hrs
    have := bumpUnread_getElem senderId this.readStatus i
    rw [hrs] at this
    refine ⟨_, this, ?_⟩
    by_cases hu : rs.user = senderId <;> simp [hu]
  · intro hst
    rw [findById_updateConversation _ _ _ _ (by intro c; rfl)]
    simp only [if_true, hst, Option.map_some']
    exact ⟨_, rfl, rfl, rfl, rfl, rfl⟩

/-- Witness of claim C7 on the conversation C1 with sender A: B's unread count
goes from 0 to 1, A's stays 0, and the stored conversation carries the array. -/
theorem C7_incrementUnreadCount_bumps_others_witness :
    storeC1.findById conversationC1._id = some conversationC1 ∧
    (storeAfter storeC1 (conversationC1.incrementUnreadCount userA 5 storeC1)).unreadCount 1 userB
      = some 1 ∧
    (storeAfter storeC1 (conversationC1.incrementUnreadCount userA 5 storeC1)).unreadCount 1 userA
      = some 0 ∧
    ∃ (doc : Conversation) (db1 : Store),
      conversationC1.incrementUnreadCount userA 5 storeC1 = .ok (doc, db1) ∧
      doc.readStatus.length = conversationC1.readStatus.length ∧
      (∀ (i : Nat) (rs : ReadStatus), conversationC1.readStatus[i]? = some rs →
        ∃ rs1 : ReadStatus, doc.readStatus[i]? = some rs1 ∧ rs1.user = rs.user ∧
          rs1.lastReadAt = rs.lastReadAt ∧
          rs1.unreadCount = if rs.user = userA then rs.unreadCount else rs.unreadCount + 1) ∧
      (storeC1.findById conversationC1._id = some conversationC1 →
        ∃ stored1 : Conversation, db1.findById conversationC1._id = some stored1 ∧
          stored1.readStatus = doc.readStatus ∧
          stored1.participants = conversationC1.participants ∧
          stored1.lastMessage = conversationC1.lastMessage ∧
          stored1.metadata.totalMessages = conversationC1.metadata.totalMessages) :=
  ⟨by decide, by decide, by decide,
    C7_incrementUnreadCount_bumps_others conversationC1 userA 5 storeC1⟩

/-- Claim C8: when `u` has no read-status entry, `Conversation.markAsRead(u)`
resolves to the unchanged conversation and does not touch the store.
Otherwise it succeeds, `u`'s entry (the first one found) gets `unreadCount` 0
and `lastReadAt` now, the array keeps its length, the entry of every other
user is unchanged, and participants, last message and message counter are
unchanged, in the resolved document and in the stored conversation.  The
listing read of `getMessages` by a participant is answered 200 exactly when the
skip `(page - 1) * limit` is not negative; it then writes the same read-status
array and leaves the rest of the stored conversation as it was; otherwise it
is answered 500 and writes nothing. -/
theorem C8_markAsRead_resets_only_the_reader (this : Conversation) (u : ObjectId) (now : Date)
    (db : Store) :
    (match this.readStatus.find? (fun rs => rs.user == u) with
     | none => this.markAsRead u now db = .ok (this, db)
     | some entry =>
        ∃ (doc : Conversation) (db1 : Store), this.markAsRead u now db = .ok (doc, db1) ∧
          doc.readStatus.find? (fun rs => rs.user == u)
            = some { entry with lastReadAt := now, unreadCount := 0 } ∧
          doc.readStatus.length = this.readStatus.length ∧
          (∀ (i : Nat) (rs : ReadStatus), this.readStatus[i]? = some rs → rs.user ≠ u →
            doc.readStatus[i]? = some rs) ∧
          doc.participants = this.participants ∧
          doc.lastMessage = this.lastMessage ∧
          doc.metadata.totalMessages = this.metadata.totalMessages ∧
          (db.findById this._id = some this →
            ∃ stored1 : Conversation, db1.findById this._id = some stored1 ∧
              stored1.readStatus = doc.readStatus ∧
              stored1.participants = this.participants ∧
              stored1.lastMessage = this.lastMessage ∧
              stored1.metadata.totalMessages = this.metadata.totalMessages)) ∧
    (∀ (page : Int) (limit : Nat), db.findById this._id = some this → u ∈ this.participants →
      ((getMessages now this._id u page limit db).status = 200 ↔
        0 ≤ (page - 1) * (limit : Int)) ∧
      ((getMessages now this._id u page limit db).status = 200 →
        (getMessages now this._id u page limit db).db.findById this._id
          = some { this with readStatus := markFirstRead u now this.readStatus }) ∧
      ((getMessages now this._id u page limit db).status ≠ 200 →
        (getMessages now this._id u page limit db).status = 500 ∧
        (getMessages now this._id u page limit db).db = db)) := by
  constructor
  · cases hfind : this.readStatus.find? (fun rs => rs.user == u) with
    | none => simp [Conversation.markAsRead, hfind]
    | some entry =>
        simp only
        refine ⟨_, _, conversationMarkAsRead_ok this u now db entry hfind, ?_, ?_, ?_, rfl, rfl,
          rfl, ?_⟩
        · show (markFirstRead u now this.readStatus).find? _ = _
          rw [markFirstRead_find, hfind]
          rfl
        · exact markFirstRead_length u now this.readStatus
        · intro i rs hrs hu
          exact markFirstRead_others u now this.readStatus i rs hrs hu
        · intro hst
          rw [findById_updateConversation _ _ _ _ (by intro c; rfl)]
          simp only [if_true, hst, Option.map_some']
          exact ⟨_, rfl, rfl, rfl, rfl, rfl⟩
  · intro page limit hst hu
    have hone : db.findOne this._id u = some this := findOne_of_findById hst hu
    unfold getMessages
    rw [hone]
    simp only
    by_cases hskip : (page - 1) * (limit : Int) < 0
    · rw [if_pos hskip]
      refine ⟨?_, ?_, ?_⟩
      · constructor
        · intro h
          simp at h
        · intro h
          exact absurd hskip (not_lt.mpr h)
      · intro h
        simp at h
      · intro _
        exact ⟨rfl, rfl⟩
    · rw [if_neg hskip]
      refine ⟨?_, ?_, ?_⟩
      · exact ⟨fun _ => not_lt.mp hskip, fun _ => rfl⟩
      · intro _
        simp only [resetReadStatus]
        rw [findById_updateConversation _ _ _ _ (by intro c; rfl)]
        simp only [if_true]
        have : (pushReadReceipts db this._id u now).findById this._id = some this := hst
        rw [this]
        rfl
      · intro h
        exact absurd rfl h

/-- Witness of claim C8 on C1 with three unread messages of B: after
`markAsRead(B)` B's unread count is 0, A's entry and the message counter are
as before, and the listing read of B stores the same read-status array when it
is answered 200 (page 1) and nothing when it is answered 500 (page 0). -/
theorem C8_markAsRead_resets_only_the_reader_witness :
    storeC1Unread.unreadCount 1 userB = some 3 ∧
    (storeAfter storeC1Unread (conversationC1Unread.markAsRead userB 6 storeC1Unread)).unreadCount
      1 userB = some 0 ∧
    (storeAfter storeC1Unread (conversationC1Unread.markAsRead userB 6 storeC1Unread)).lastReadAt
      1 userB = some 6 ∧
    (storeAfter storeC1Unread (conversationC1Unread.markAsRead userB 6 storeC1Unread)).lastReadAt
      1 userA = some 0 ∧
    (storeAfter storeC1Unread (conversationC1Unread.markAsRead userB 6 storeC1Unread)).totalMessages
      1 = some 3 ∧
    (getMessages 6 1 userB 1 50 storeC1Unread).status = 200 ∧
    (getMessages 6 1 userB 1 50 storeC1Unread).db.unreadCount 1 userB = some 0 ∧
    (getMessages 6 1 userB 0 50 storeC1Unread).status = 500 ∧
    (getMessages 6 1 userB 0 50 storeC1Unread).db = storeC1Unread ∧
    (∀ (page : Int) (limit : Nat),
      storeC1Unread.findById conversationC1Unread._id = some conversationC1Unread →
      userB ∈ conversationC1Unread.participants →
      ((getMessages 6 conversationC1Unread._id userB page limit storeC1Unread).status = 200 ↔
        0 ≤ (page - 1) * (limit : Int)) ∧
      ((getMessages 6 conversationC1Unread._id userB page limit storeC1Unread).status = 200 →
        (getMessages 6 conversationC1Unread._id userB page limit storeC1Unread).db.findById
            conversationC1Unread._id
          = some { conversationC1Unread with
              readStatus := markFirstRead userB 6 conversationC1Unread.readStatus }) ∧
      ((getMessages 6 conversationC1Unread._id userB page limit storeC1Unread).status ≠ 200 →
        (getMessages 6 conversationC1Unread._id userB page limit storeC1Unread).status = 500 ∧
        (getMessages 6 conversationC1Unread._id userB page limit storeC1Unread).db
          = storeC1Unread)) :=
  ⟨by decide, by decide, by decide, by decide, by decide, by decide, by decide, by decide,
    by decide,
    (C8_markAsRead_resets_only_the_reader conversationC1Unread userB 6 storeC1Unread).2⟩

/-- Sends answered 201 set `lastMessage`.  After every send answered 201 (store
with unique conversation ids) of a message `m`, `m` is stored and the stored
conversation has `lastMessage.content` equal to `m.content`,
`lastMessage.sender` equal to `m.sender`, `lastMessage.messageType` equal to
`m.type`, and the unread count of every participant other than the sender
raised by 1.  Scenario 1: A's text "Hello" into C1, where B had no unread
message, is answered 201, and afterwards `lastMessage.content` is "Hello" and
B's `unreadCount` is 1. -/
theorem send_answered_201_sets_lastMessage (env : Env) (req : SendRequest) (db : Store)
    (hwf : db.WellFormed) (h201 : (send env req db).response.status = 201) :
    (∃ (c : Conversation) (m : Message) (c1 : Conversation),
      db.findById req.conversationId = some c ∧
      (send env req db).response.data = some m ∧
      m ∈ (send env req db).db.messages ∧
      (send env req db).db.findById req.conversationId = some c1 ∧
      c1.lastMessage.content = some m.content ∧
      c1.lastMessage.sender = m.sender ∧
      c1.lastMessage.messageType = m.type ∧
      c1.readStatus = bumpUnread req.userId c.readStatus) ∧
    (storeC1.unreadCount 1 userB = some 0 ∧
     (send (envAt 5) (.text helloRequest) storeC1).response.status = 201 ∧
     ((send (envAt 5) (.text helloRequest) storeC1).db.findById 1).map
         (fun c => c.lastMessage.content) = some (some "Hello") ∧
     (send (envAt 5) (.text helloRequest) storeC1).db.unreadCount 1 userB = some 1) := by
  obtain ⟨c, m, c1, hc, -, hd, hm, -, -, hc1, -, hlast, hrs, -⟩ :=
    send_created env req db hwf h201
  refine ⟨⟨c, m, c1, hc, hd, by rw [hm]; simp, hc1, ?_, ?_, ?_, hrs⟩, by decide⟩
  · rw [hlast]
  · rw [hlast]
  · rw [hlast]

/-- Scenario 1 for the sends answered 201. -/
theorem send_answered_201_sets_lastMessage_witness :
    storeC1.WellFormed ∧
    (send (envAt 5) (.text helloRequest) storeC1).response.status = 201 ∧
    (∃ (c : Conversation) (m : Message) (c1 : Conversation),
      storeC1.findById 1 = some c ∧
      (send (envAt 5) (.text helloRequest) storeC1).response.data = some m ∧
      m ∈ (send (envAt 5) (.text helloRequest) storeC1).db.messages ∧
      (send (envAt 5) (.text helloRequest) storeC1).db.findById 1 = some c1 ∧
      c1.lastMessage.content = some m.content ∧
      c1.lastMessage.sender = m.sender ∧
      c1.lastMessage.messageType = m.type ∧
      c1.readStatus = bumpUnread userA c.readStatus) :=
  ⟨by decide, by decide,
    (send_answered_201_sets_lastMessage (envAt 5) (.text helloRequest) storeC1 (by decide)
      (by decide)).1⟩

/-- Claim C9 evaluated at a send after which `lastMessage` is stale.
Participant A of C1 sends the text "Quarterly report" with type `email`, which
the route validator admits.  The Message Store keeps the message, but both
calls of `updateLastMessage` are rejected by the enum of
`lastMessage.messageType`, which lacks `email`: `lastMessage` of C1 keeps its
old value (no content, no sender, type `text`) instead of the content, sender
and type of the stored message, the unread count of B stays 0, and the handler
answers 500 without removing the message.  Scenario 1 itself holds: after A's
text "Hello" the content of `lastMessage` is "Hello" and the unread count of B
is 1. -/
theorem C9_stored_email_send_leaves_lastMessage_stale :
    validateTextMessage emailRequest = true ∧
    storeC1.isParticipant 1 userA = true ∧
    (send (envAt 5) (.text emailRequest) storeC1).db.messages.map
        (fun m => (m._id, m.conversation, m.sender, m.type, m.content))
      = [(100, 1, some userA, "email", "Quarterly report")] ∧
    ((send (envAt 5) (.text emailRequest) storeC1).db.findById 1).map (fun c => c.lastMessage)
      = some { content := none, sender := none, sentAt := none, messageType := "text" } ∧
    storeC1.unreadCount 1 userB = some 0 ∧
    (send (envAt 5) (.text emailRequest) storeC1).db.unreadCount 1 userB = some 0 ∧
    (send (envAt 5) (.text emailRequest) storeC1).response.status = 500 ∧
    ((send (envAt 5) (.text helloRequest) storeC1).db.findById 1).map
        (fun c => c.lastMessage.content) = some (some "Hello") ∧
    (send (envAt 5) (.text helloRequest) storeC1).db.unreadCount 1 userB = some 1 := by
  decide

/-- Claim C10 as stated fails.  After scenario 1, B reads the conversation by
listing its messages, or calls `markAsRead` on M1: in both cases B's read
receipt is recorded and the status of M1 is still `sent`, not `read`. -/
theorem C10_read_leaves_status_sent :
    (getMessages 6 1 userB 1 50 (send (envAt 5) (.text helloRequest) storeC1).db).db.messages.map
        (fun m => (m._id, m.status, m.readBy.map (fun r => r.user)))
      = [(100, "sent", [userB])] ∧
    ((MessagingOp.messageMarkAsRead 100 userB).run 6
        (send (envAt 5) (.text helloRequest) storeC1).db).messages.map
        (fun m => (m._id, m.status, m.readBy.map (fun r => r.user)))
      = [(100, "sent", [userB])] ∧
    ¬ ((MessagingOp.messageMarkAsRead 100 userB).run 6
        (send (envAt 5) (.text helloRequest) storeC1).db).messages.map (fun m => m.status)
      = ["read"] := by
  decide

/-- Claim C10, amended: `Message.markAsRead(u)` on a schema-valid message
returns the message unchanged when `u` already has a read receipt; otherwise it
appends the receipt and the status becomes `read` exactly when it was
`delivered`, any other status (`sent` in particular) is kept.  Every message a
send handler answers with has status `sent`, and the read performed by listing
the messages changes the status of no stored message. -/
theorem C10_status_read_only_from_delivered (this : Message) (u : ObjectId) (now : Date)
    (db : Store) (hv : this.validate = true) :
    (match this.readBy.find? (fun read => read.user == u) with
     | some _ => this.markAsRead u now db = .ok (this, db)
     | none =>
        ∃ (m1 : Message) (db1 : Store), this.markAsRead u now db = .ok (m1, db1) ∧
          m1.status = (if this.status = "delivered" then "read" else this.status) ∧
          m1.readBy = this.readBy ++ [{ user := u, readAt := now }]) ∧
    (∀ (env : Env) (req : SendRequest) (m : Message),
      (send env req db).response.data = some m → m.status = "sent") ∧
    (∀ (conversationId : ObjectId) (page : Int) (limit : Nat),
      (getMessages now conversationId u page limit db).db.messages.map (fun m => (m._id, m.status))
        = db.messages.map (fun m => (m._id, m.status))) := by
  refine ⟨?_, fun env req m h => send_data_status env req db m h,
    fun conversationId page limit => getMessages_statuses now conversationId u page limit db⟩
  cases hfind : this.readBy.find? (fun read => read.user == u) with
  | some r => simp [Message.markAsRead, hfind]
  | none => exact messageMarkAsRead_new this u now db hv hfind

/-- Witness of claim C10 (amended) at the message M1 of scenario 1, read by B:
M1 is schema-valid, B has no receipt yet, and after `markAsRead` the status is
still `sent`. -/
theorem C10_status_read_only_from_delivered_witness :
    helloMessage.validate = true ∧
    (∃ (m1 : Message) (db1 : Store),
      helloMessage.markAsRead userB 6 storeC1 = .ok (m1, db1) ∧
        m1.status = (if helloMessage.status = "delivered" then "read" else helloMessage.status) ∧
        m1.readBy = helloMessage.readBy ++ [{ user := userB, readAt := 6 }]) :=
  ⟨by decide, (C10_status_read_only_from_delivered helloMessage userB 6 storeC1 (by decide)).1⟩

/-! ## Lemmas: what a message save writes -/

theorem toStore_status (this : Message) (isNew : Bool) (now : Date) :
    (this.toStore isNew now).status =
      if this.readBy ≠ [] ∧ this.status = "delivered" then "read" else this.status := by
  unfold Message.toStore Message.preSave
  by_cases hr : this.readBy = []
  · cases isNew <;> simp [hr]
  · have hl : 0 < this.readBy.length := List.length_pos.mpr hr
    by_cases hd : this.status = "delivered"
    · cases isNew <;> simp [hr, hd, hl]
    · cases isNew <;> simp [hr, hd, hl]

theorem toStore_false_eq (this : Message) (now : Date) :
    this.toStore false now = { this with status := (this.toStore false now).status } := by
  unfold Message.toStore Message.preSave
  simp only [Bool.false_eq_true, if_false]
  split <;> rfl

theorem toStore_status_cases (this : Message) (isNew : Bool) (now : Date) :
    (this.toStore isNew now).status = this.status ∨
      (this.status = "delivered" ∧ (this.toStore isNew now).status = "read") := by
  rw [toStore_status]
  split
  · rename_i h; exact Or.inr ⟨h.2, rfl⟩
  · exact Or.inl rfl

theorem save_resolves (this : Message) (isNew : Bool) (now : Date) (db : Store) (m1 : Message)
    (db1 : Store) (h : this.save isNew now db = .ok (m1, db1)) :
    this.validate = true ∧ m1 = this.toStore isNew now := by
  unfold Message.save at h
  cases hv : this.validate
  · simp [hv] at h
  · simp only [hv, if_true, Except.ok.injEq, Prod.mk.injEq] at h
    exact ⟨rfl, h.1.symm⟩

/-- A call changes the status of the document at most from `delivered` to
`read`. -/
theorem apply_status (op : MessageOp) (now : Date) (this : Message) (db : Store) (m1 : Message)
    (db1 : Store) (h : op.apply now this db = .ok (m1, db1)) :
    m1.status = this.status ∨ (this.status = "delivered" ∧ m1.status = "read") := by
  have key : ∀ (m : Message), m.save false now db = .ok (m1, db1) →
      m.status = this.status →
      m1.status = this.status ∨ (this.status = "delivered" ∧ m1.status = "read") := by
    intro m hs hm
    obtain ⟨-, rfl⟩ := save_resolves m false now db m1 db1 hs
    rcases toStore_status_cases m false now with h1 | h1
    · exact Or.inl (h1.trans hm)
    · exact Or.inr ⟨hm ▸ h1.1, h1.2⟩
  cases op with
  | save => exact key this h rfl
  | markAsRead userId =>
      simp only [MessageOp.apply, Message.markAsRead] at h
      split at h
      · by_cases hd : this.status = "delivered"
        · have hb : (this.status == "delivered") = true := by simpa using hd
          simp only [hb, if_true] at h
          obtain ⟨-, rfl⟩ := save_resolves _ false now db m1 db1 h
          refine Or.inr ⟨hd, ?_⟩
          rw [toStore_status]
          simp
        · have hb : (this.status == "delivered") = false := by simpa using hd
          simp only [hb, Bool.false_eq_true, if_false] at h
          exact key _ h rfl
      · simp only [Except.ok.injEq, Prod.mk.injEq] at h
        exact Or.inl (by rw [← h.1])
  | addReaction userId emoji =>
      simp only [MessageOp.apply, Message.addReaction] at h
      exact key _ h rfl
  | removeReaction userId =>
      simp only [MessageOp.apply, Message.removeReaction] at h
      exact key _ h rfl
  | editContent newContent =>
      simp only [MessageOp.apply, Message.editContent] at h
      exact key _ h rfl
  | softDelete deletedBy =>
      simp only [MessageOp.apply, Message.softDelete] at h
      exact key _ h rfl
  | flag flaggedBy reason =>
      simp only [MessageOp.apply, Message.flag] at h
      exact key _ h rfl

theorem run_status (op : MessageOp) (now : Date) (state : Message × Store) :
    (op.run now state).1.status = state.1.status ∨
      (state.1.status = "delivered" ∧ (op.run now state).1.status = "read") := by
  unfold MessageOp.run
  cases h : op.apply now state.1 state.2 with
  | error e => exact Or.inl rfl
  | ok r =>
      obtain ⟨m1, db1⟩ := r
      exact apply_status op now state.1 state.2 m1 db1 h

theorem runSeq_status (ops : List (Date × MessageOp)) (state : Message × Store) :
    (MessageOp.runSeq ops state).1.status = state.1.status ∨
      (state.1.status = "delivered" ∧ (MessageOp.runSeq ops state).1.status = "read") := by
  induction ops generalizing state with
  | nil => exact Or.inl rfl
  | cons op ops ih =>
      have h1 := run_status op.2 op.1 state
      have h2 := ih (op.2.run op.1 state)
      simp only [MessageOp.runSeq, List.foldl_cons] at h2 ⊢
      rcases h1 with h1 | ⟨h1a, h1b⟩
      · rcases h2 with h2 | ⟨h2a, h2b⟩
        · exact Or.inl (h2.trans h1)
        · exact Or.inr ⟨h1 ▸ h2a, h2b⟩
      · rcases h2 with h2 | ⟨h2a, h2b⟩
        · exact Or.inr ⟨h1a, h2.trans h1b⟩
        · rw [h1b] at h2a
          exact absurd h2a (by decide)

/-! ## Lemmas: read receipts -/

theorem filter_user_length_le_one (u : ObjectId) (l : List ReadReceipt)
    (hnd : (l.map (fun r => r.user)).Nodup) :
    (l.filter (fun r => r.user == u)).length ≤ 1 := by
  induction l with
  | nil => simp
  | cons r rs ih =>
      simp only [List.map_cons, List.nodup_cons] at hnd
      by_cases hr : r.user = u
      · have hnone : rs.filter (fun r => r.user == u) = [] := by
          rw [List.filter_eq_nil_iff]
          intro x hx hxu
          apply hnd.1
          rw [hr]
          have : x.user = u := by simpa using hxu
          rw [← this]
          exact List.mem_map_of_mem _ hx
        simp [List.filter_cons, hr, hnone]
      · have := ih hnd.2
        simpa [List.filter_cons, hr] using this

theorem filter_user_of_find_none (u : ObjectId) (l : List ReadReceipt)
    (h : l.find? (fun r => r.user == u) = none) : l.filter (fun r => r.user == u) = [] := by
  rw [List.filter_eq_nil_iff]
  intro x hx
  have := List.find?_eq_none.mp h x hx
  simpa using this

theorem filter_user_pos_of_find_some (u : ObjectId) (l : List ReadReceipt) (r : ReadReceipt)
    (h : l.find? (fun r => r.user == u) = some r) :
    0 < (l.filter (fun r => r.user == u)).length := by
  apply List.length_pos.mpr
  intro hnil
  have hm := List.mem_of_find?_eq_some h
  have hp := List.find?_some h
  have : r ∈ l.filter (fun r => r.user == u) := List.mem_filter.mpr ⟨hm, hp⟩
  rw [hnil] at this
  simp at this

theorem markAsRead_seen (this : Message) (u : ObjectId) (now : Date) (db : Store)
    (r : ReadReceipt) (h : this.readBy.find? (fun read => read.user == u) = some r) :
    this.markAsRead u now db = .ok (this, db) := by
  simp [Message.markAsRead, h]

/-- Further `markAsRead(u)` calls on a document that holds a receipt of `u`
change neither the document nor the store. -/
theorem applySeq_markAsRead_seen (times : List Date) (this : Message) (u : ObjectId)
    (db : Store) (r : ReadReceipt)
    (h : this.readBy.find? (fun read => read.user == u) = some r) :
    MessageOp.applySeq (times.map (fun s => (s, MessageOp.markAsRead u))) this db
      = .ok (this, db) := by
  induction times with
  | nil => rfl
  | cons t ts ih =>
      simp only [List.map_cons, MessageOp.applySeq, MessageOp.apply]
      rw [markAsRead_seen this u t db r h]
      exact ih

theorem pushReadReceipts_twice (db : Store) (conversationId u : ObjectId) (t1 t2 : Date) :
    pushReadReceipts (pushReadReceipts db conversationId u t1) conversationId u t2
      = pushReadReceipts db conversationId u t1 := by
  unfold pushReadReceipts
  simp only [List.map_map]
  congr 1
  apply List.map_congr_left
  intro m _
  simp only [Function.comp]
  by_cases hc : (m.conversation == conversationId && m.sender != some u &&
      !m.readBy.any (fun read => read.user == u)) = true
  · rw [if_pos hc]
    have h2 : ¬ (m.conversation == conversationId && m.sender != some u &&
        !(m.readBy ++ [({ user := u, readAt := t1 } : ReadReceipt)]).any
          (fun read => read.user == u)) = true := by
      simp
    exact if_neg h2
  · rw [if_neg hc]
    exact if_neg hc

theorem pushReadReceipts_nodup (db : Store) (conversationId u : ObjectId) (now : Date)
    (m : Message) (hm : m ∈ (pushReadReceipts db conversationId u now).messages)
    (hnd : ∀ x ∈ db.messages, (x.readBy.map (fun r => r.user)).Nodup) :
    (m.readBy.map (fun r => r.user)).Nodup := by
  unfold pushReadReceipts at hm
  simp only [List.mem_map] at hm
  obtain ⟨x, hx, rfl⟩ := hm
  split
  · rename_i hc
    simp only [Bool.and_eq_true, Bool.not_eq_true', List.any_eq_false] at hc
    simp only [List.map_append, List.map_cons, List.map_nil]
    rw [List.nodup_append]
    refine ⟨hnd x hx, by simp, ?_⟩
    intro a ha hb
    simp only [List.mem_singleton] at hb
    subst hb
    simp only [List.mem_map] at ha
    obtain ⟨r, hr, hru⟩ := ha
    have := hc.2 r hr
    simp [hru] at this
  · exact hnd x hx

/-! ## Claims C11 and C12 -/

/-- Claim C11: for every schema-valid message whose `readBy` holds at most one
entry per user, and every user `u`: `markAsRead(u)` resolves, and calling it
again any number of times resolves to the same document and the same store.
Afterwards `readBy` contains exactly one entry for `u`, the entries of all
other users are as before, and `readBy` still holds at most one entry per
user.  The listing read of `getMessages` pushes its receipts the same way: a
second push changes nothing and no message gets two entries of one user. -/
theorem C11_markAsRead_idempotent (this : Message) (u : ObjectId) (now : Date)
    (later : List Date) (db : Store) (hv : this.validate = true)
    (hnd : (this.readBy.map (fun r => r.user)).Nodup) :
    (∃ (m1 : Message) (db1 : Store),
      this.markAsRead u now db = .ok (m1, db1) ∧
      MessageOp.applySeq ((now :: later).map (fun s => (s, MessageOp.markAsRead u))) this db
        = .ok (m1, db1) ∧
      (m1.readBy.filter (fun r => r.user == u)).length = 1 ∧
      m1.readBy.filter (fun r => r.user != u) = this.readBy.filter (fun r => r.user != u) ∧
      (m1.readBy.map (fun r => r.user)).Nodup) ∧
    (∀ (conversationId : ObjectId) (t1 t2 : Date),
      pushReadReceipts (pushReadReceipts db conversationId u t1) conversationId u t2
        = pushReadReceipts db conversationId u t1) ∧
    (∀ (conversationId : ObjectId) (t : Date),
      (∀ x ∈ db.messages, (x.readBy.map (fun r => r.user)).Nodup) →
      ∀ m ∈ (pushReadReceipts db conversationId u t).messages,
        (m.readBy.map (fun r => r.user)).Nodup) := by
  refine ⟨?_, fun c t1 t2 => pushReadReceipts_twice db c u t1 t2,
    fun c t hall m hm => pushReadReceipts_nodup db c u t m hm hall⟩
  cases hfind : this.readBy.find? (fun read => read.user == u) with
  | some r =>
      refine ⟨this, db, markAsRead_seen this u now db r hfind,
        applySeq_markAsRead_seen (now :: later) this u db r hfind, ?_, rfl, hnd⟩
      have h1 := filter_user_length_le_one u this.readBy hnd
      have h2 := filter_user_pos_of_find_some u this.readBy r hfind
      omega
  | none =>
      obtain ⟨m1, db1, hcall, -, hread⟩ := messageMarkAsRead_new this u now db hv hfind
      have hnone := filter_user_of_find_none u this.readBy hfind
      have hfind1 : m1.readBy.find? (fun read => read.user == u)
          = some { user := u, readAt := now } := by
        rw [hread, List.find?_append, hfind]
        simp
      refine ⟨m1, db1, hcall, ?_, ?_, ?_, ?_⟩
      · simp only [List.map_cons, MessageOp.applySeq, MessageOp.apply]
        rw [hcall]
        exact applySeq_markAsRead_seen later m1 u db1 _ hfind1
      · rw [hread, List.filter_append, hnone]
        simp
      · rw [hread, List.filter_append]
        simp
      · rw [hread, List.map_append, List.nodup_append]
        refine ⟨hnd, by simp, ?_⟩
        intro a ha hb
        simp only [List.map_cons, List.map_nil, List.mem_singleton] at hb
        subst hb
        simp only [List.mem_map] at ha
        obtain ⟨r, hr, hru⟩ := ha
        have := List.find?_eq_none.mp hfind r hr
        simp [hru] at this

/-- Witness of claim C11 at the message M1 of scenario 1, read by B three
times. -/
theorem C11_markAsRead_idempotent_witness :
    helloMessage.validate = true ∧
    (helloMessage.readBy.map (fun r => r.user)).Nodup ∧
    (∃ (m1 : Message) (db1 : Store),
      helloMessage.markAsRead userB 6 storeM1 = .ok (m1, db1) ∧
      MessageOp.applySeq ((6 :: [7, 8]).map (fun s => (s, MessageOp.markAsRead userB)))
        helloMessage storeM1 = .ok (m1, db1) ∧
      (m1.readBy.filter (fun r => r.user == userB)).length = 1 ∧
      m1.readBy.filter (fun r => r.user != userB)
        = helloMessage.readBy.filter (fun r => r.user != userB) ∧
      (m1.readBy.map (fun r => r.user)).Nodup) :=
  ⟨by decide, by decide,
    (C11_markAsRead_idempotent helloMessage userB 6 [7, 8] storeM1 (by decide) (by decide)).1⟩

/-- Claim C12: over every sequence of calls on a message document (`save`,
`markAsRead`, `addReaction`, `removeReaction`, `editContent`, `softDelete`,
`flag`, each resolved or rejected) the status is either what it was or has
gone from `delivered` to `read`; so its position on the path sent, delivered,
read never decreases, a delivered message never returns to `sent` and a read
message stays `read`. -/
theorem C12_status_never_moves_back (ops : List (Date × MessageOp)) (this : Message)
    (db : Store) :
    ((MessageOp.runSeq ops (this, db)).1.status = this.status ∨
      (this.status = "delivered" ∧ (MessageOp.runSeq ops (this, db)).1.status = "read")) ∧
    statusRank this.status ≤ statusRank (MessageOp.runSeq ops (this, db)).1.status ∧
    (this.status = "delivered" → (MessageOp.runSeq ops (this, db)).1.status ≠ "sent") ∧
    (this.status = "read" → (MessageOp.runSeq ops (this, db)).1.status = "read") := by
  have h := runSeq_status ops (this, db)
  refine ⟨h, ?_, ?_, ?_⟩
  · rcases h with h | ⟨h1, h2⟩
    · rw [h]
    · rw [h1, h2]; decide
  · intro hd
    rcases h with h | ⟨_, h2⟩
    · rw [h]; simp only [hd]; decide
    · rw [h2]; decide
  · intro hr
    rcases h with h | ⟨h1, _⟩
    · rw [h]; exact hr
    · simp only at h1
      rw [hr] at h1
      exact absurd h1 (by decide)

/-! ## Lemmas: schema validity of a changed document -/

/-- The validators of the Message schema read the sender, the type, the
content, the attachments, the status, the reactions, the payment data and the
flag reason of the document, and nothing else. -/
theorem validate_congr (m1 m2 : Message) (hs : m1.sender = m2.sender) (ht : m1.type = m2.type)
    (hc : m1.content = m2.content) (ha : m1.attachments = m2.attachments)
    (hst : m1.status = m2.status) (hr : m1.reactions = m2.reactions)
    (hp : m1.paymentData = m2.paymentData) (hf : m1.flags.flagReason = m2.flags.flagReason) :
    m1.validate = m2.validate := by
  unfold Message.validate
  rw [hs, ht, hc, ha, hst, hr, hp, hf]

theorem validate_parts (m : Message) (hv : m.validate = true) :
    m.content ≠ "" ∧ jsLength m.content ≤ 1000 ∧ m.status ∈ messageStatusEnum ∧
    (∀ r ∈ m.reactions, r.emoji ∈ reactionEmojiEnum) := by
  unfold Message.validate at hv
  simp only [Bool.and_eq_true] at hv
  obtain ⟨⟨⟨⟨⟨⟨⟨⟨_, _⟩, h3⟩, h4⟩, _⟩, h6⟩, h7⟩, _⟩, _⟩ := hv
  refine ⟨by simpa using h3, by simpa using h4, by simpa using h6, ?_⟩
  intro r hr
  have := List.all_eq_true.mp h7 r hr
  simpa using this

/-- Replacing the content by a non-empty text of at most 1000 code units keeps
a document valid. -/
theorem validate_content (m : Message) (c : String) (e : Edited) (f : Flags)
    (hv : m.validate = true) (hne : c ≠ "") (hlen : jsLength c ≤ 1000)
    (hf : f.flagReason = m.flags.flagReason) :
    ({ m with content := c, edited := e, flags := f } : Message).validate = true := by
  unfold Message.validate at hv ⊢
  simp only [Bool.and_eq_true] at hv ⊢
  obtain ⟨⟨⟨⟨⟨⟨⟨⟨h1, h2⟩, _⟩, _⟩, h5⟩, h6⟩, h7⟩, h8⟩, h9⟩ := hv
  refine ⟨⟨⟨⟨⟨⟨⟨⟨h1, h2⟩, by simpa using hne⟩, by simpa using hlen⟩, h5⟩, h6⟩, h7⟩, h8⟩, ?_⟩
  rw [hf]
  exact h9

/-- Replacing the status by one of the schema enum keeps a document valid. -/
theorem validate_status (m : Message) (st : String) (hv : m.validate = true)
    (hst : st ∈ messageStatusEnum) :
    ({ m with status := st } : Message).validate = true := by
  unfold Message.validate at hv ⊢
  simp only [Bool.and_eq_true] at hv ⊢
  obtain ⟨⟨⟨⟨⟨⟨⟨⟨h1, h2⟩, h3⟩, h4⟩, h5⟩, _⟩, h7⟩, h8⟩, h9⟩ := hv
  exact ⟨⟨⟨⟨⟨⟨⟨⟨h1, h2⟩, h3⟩, h4⟩, h5⟩, by simpa using hst⟩, h7⟩, h8⟩, h9⟩

/-- The document a save writes is valid when the saved document is. -/
theorem validate_toStore (m : Message) (now : Date) (hv : m.validate = true) :
    (m.toStore false now).validate = true := by
  rw [toStore_false_eq]
  apply validate_status m _ hv
  rw [toStore_status]
  split
  · decide
  · exact (validate_parts m hv).2.2.1

/-- A valid document that is saved again resolves to itself, up to the status
upgrade of `pre('save')`. -/
theorem save_existing_resolves (m : Message) (now : Date) (db : Store) (hv : m.validate = true) :
    ∃ db1, m.save false now db = .ok (m.toStore false now, db1) ∧
      db1.messages = db.messages.map (fun x => if x._id == m._id then m.toStore false now else x) := by
  refine ⟨_, save_existing_ok m now db hv, ?_⟩
  rw [postSave_messages]
  have : (m.toStore false now)._id = m._id := (toStore_fields m false now).1
  simp only [this]

/-! ## Lemmas: editing -/

/-- One `editContent` call on a valid document with an admissible new content. -/
theorem editContent_ok (this : Message) (c : String) (now : Date) (db : Store)
    (hv : this.validate = true) (hne : jsTrim c ≠ "") (hlen : jsLength (jsTrim c) ≤ 1000) :
    ∃ (m1 : Message) (db1 : Store), this.editContent c now db = .ok (m1, db1) ∧
      m1.validate = true ∧
      m1.content = jsTrim c ∧
      m1.edited =
        { isEdited := true,
          editedAt := some now,
          originalContent :=
            if this.edited.isEdited then this.edited.originalContent else some this.content,
          editHistory := this.edited.editHistory ++ [{ content := this.content, editedAt := now }] } ∧
      m1._id = this._id ∧ m1.sender = this.sender ∧ m1.conversation = this.conversation ∧
      db1.messages = db.messages.map (fun x => if x._id == this._id then m1 else x) := by
  have hval := validate_content this (jsTrim c)
    { isEdited := true,
      editedAt := some now,
      originalContent :=
        if !this.edited.isEdited then some this.content else this.edited.originalContent,
      editHistory := this.edited.editHistory ++ [{ content := this.content, editedAt := now }] }
    this.flags hv hne hlen rfl
  obtain ⟨db1, hsave, hmsgs⟩ := save_existing_resolves _ now db hval
  refine ⟨_, db1, hsave, validate_toStore _ now hval, ?_, ?_, ?_, ?_, ?_, hmsgs⟩
  · rw [toStore_false_eq]
  · rw [toStore_false_eq]
    cases this.edited.isEdited <;> rfl
  · rw [toStore_false_eq]
  · rw [toStore_false_eq]
  · rw [toStore_false_eq]

/-- A sequence of edits with admissible contents on a valid document: every
call resolves, the content is the last one and the history grows by the
replaced contents in order. -/
theorem editSeq_ok (edits : List (Date × String)) (this : Message) (db : Store)
    (hv : this.validate = true)
    (hok : ∀ e ∈ edits, jsTrim e.2 = e.2 ∧ e.2 ≠ "" ∧ jsLength e.2 ≤ 1000) :
    ∃ (m : Message) (db1 : Store),
      MessageOp.applySeq (edits.map (fun e => (e.1, MessageOp.editContent e.2))) this db
        = .ok (m, db1) ∧
      m.validate = true ∧
      m.content = (edits.map (fun e => e.2)).getLastD this.content ∧
      m.edited.editHistory.map (fun h => h.content)
        = this.edited.editHistory.map (fun h => h.content)
          ++ (this.content :: edits.map (fun e => e.2)).dropLast ∧
      m.edited.isEdited = (this.edited.isEdited || !edits.isEmpty) ∧
      m.edited.originalContent =
        (if this.edited.isEdited then this.edited.originalContent
         else if edits.isEmpty then this.edited.originalContent else some this.content) := by
  induction edits generalizing this db with
  | nil =>
      refine ⟨this, db, rfl, hv, rfl, by simp, by simp, ?_⟩
      split <;> rfl
  | cons e rest ih =>
      obtain ⟨htrim, hne, hlen⟩ := hok e (List.mem_cons_self _ _)
      obtain ⟨m1, db1, hcall, hv1, hc1, he1, -, -, -, -⟩ :=
        editContent_ok this e.2 e.1 db hv (by rw [htrim]; exact hne) (by rw [htrim]; exact hlen)
      obtain ⟨m, db2, hseq, hvm, hcm, hhm, him, hom⟩ :=
        ih m1 db1 hv1 (fun x hx => hok x (List.mem_cons_of_mem _ hx))
      rw [htrim] at hc1
      refine ⟨m, db2, ?_, hvm, ?_, ?_, ?_, ?_⟩
      · simp only [List.map_cons, MessageOp.applySeq, MessageOp.apply]
        rw [hcall]
        exact hseq
      · rw [hcm, hc1, List.map_cons, List.getLastD_cons]
      · rw [hhm, he1, hc1]
        simp
      · rw [him, he1]
        simp
      · rw [hom, he1]
        simp only [if_true, List.isEmpty_cons, Bool.false_eq_true, if_false]

/-! ## Lemmas: the stored document follows the saved one -/

theorem find_replace (l : List Message) (id : ObjectId) (m1 : Message) (h1 : m1._id = id)
    (hsome : (l.find? (fun m => m._id == id)).isSome) :
    (l.map (fun x => if x._id == id then m1 else x)).find? (fun x => x._id == id) = some m1 := by
  induction l with
  | nil => simp at hsome
  | cons x xs ih =>
      rw [List.map_cons, List.find?_cons]
      cases hx : (x._id == id) with
      | true =>
          have h2 : (m1._id == id) = true := by simp [h1]
          simp only [if_true, h2]
      | false =>
          rw [List.find?_cons, hx] at hsome
          simp only [Bool.false_eq_true, if_false, hx]
          exact ih hsome

theorem findMessage_replace (db : Store) (id : ObjectId) (m1 : Message) (h1 : m1._id = id)
    (msgs : List Message)
    (hm : msgs = db.messages.map (fun x => if x._id == id then m1 else x))
    (hsome : (db.findMessage id).isSome) :
    msgs.find? (fun x => x._id == id) = some m1 := by
  subst hm
  exact find_replace db.messages id m1 h1 hsome

theorem save_stored (this : Message) (now : Date) (db : Store) (m1 : Message) (db1 : Store)
    (h : this.save false now db = .ok (m1, db1)) :
    m1._id = this._id ∧
      db1.messages = db.messages.map (fun x => if x._id == this._id then m1 else x) := by
  obtain ⟨hv, hm⟩ := save_resolves this false now db m1 db1 h
  obtain ⟨db2, h2, hmsgs⟩ := save_existing_resolves this now db hv
  rw [h] at h2
  simp only [Except.ok.injEq, Prod.mk.injEq] at h2
  obtain ⟨h2a, h2b⟩ := h2
  subst h2b
  rw [hm]
  exact ⟨(toStore_fields this false now).1, hmsgs⟩

/-- A resolved call keeps the `_id`, and when the document was the stored one
the stored document afterwards is the one the call resolves to. -/
theorem apply_stored (op : MessageOp) (now : Date) (this : Message) (db : Store) (m1 : Message)
    (db1 : Store) (h : op.apply now this db = .ok (m1, db1))
    (hfresh : db.findMessage this._id = some this) :
    m1._id = this._id ∧ db1.findMessage this._id = some m1 := by
  have key : ∀ (m : Message), m.save false now db = .ok (m1, db1) → m._id = this._id →
      m1._id = this._id ∧ db1.findMessage this._id = some m1 := by
    intro m hs hid
    obtain ⟨h1, h2⟩ := save_stored m now db m1 db1 hs
    refine ⟨h1.trans hid, ?_⟩
    rw [hid] at h2
    exact findMessage_replace db this._id m1 (h1.trans hid) db1.messages h2
      (by rw [hfresh]; rfl)
  cases op with
  | save => exact key this h rfl
  | markAsRead userId =>
      simp only [MessageOp.apply, Message.markAsRead] at h
      split at h
      · exact key _ h (by split <;> rfl)
      · simp only [Except.ok.injEq, Prod.mk.injEq] at h
        obtain ⟨rfl, rfl⟩ := h
        exact ⟨rfl, hfresh⟩
  | addReaction userId emoji =>
      simp only [MessageOp.apply, Message.addReaction] at h
      exact key _ h rfl
  | removeReaction userId =>
      simp only [MessageOp.apply, Message.removeReaction] at h
      exact key _ h rfl
  | editContent newContent =>
      simp only [MessageOp.apply, Message.editContent] at h
      exact key _ h rfl
  | softDelete deletedBy =>
      simp only [MessageOp.apply, Message.softDelete] at h
      exact key _ h rfl
  | flag flaggedBy reason =>
      simp only [MessageOp.apply, Message.flag] at h
      exact key _ h rfl

theorem applySeq_stored (ops : List (Date × MessageOp)) (this : Message) (db : Store)
    (m : Message) (db1 : Store) (h : MessageOp.applySeq ops this db = .ok (m, db1))
    (hfresh : db.findMessage this._id = some this) :
    m._id = this._id ∧ db1.findMessage this._id = some m := by
  induction ops generalizing this db with
  | nil =>
      simp only [MessageOp.applySeq, Except.ok.injEq, Prod.mk.injEq] at h
      obtain ⟨rfl, rfl⟩ := h
      exact ⟨rfl, hfresh⟩
  | cons op rest ih =>
      obtain ⟨now, o⟩ := op
      simp only [MessageOp.applySeq] at h
      cases hcall : o.apply now this db with
      | error e => rw [hcall] at h; simp at h
      | ok r =>
          obtain ⟨m1, db2⟩ := r
          rw [hcall] at h
          simp only at h
          obtain ⟨hid, hst⟩ := apply_stored o now this db m1 db2 hcall hfresh
          rw [← hid] at hst
          obtain ⟨h1, h2⟩ := ih m1 db2 h hst
          exact ⟨h1.trans hid, by rw [← hid]; exact h2⟩

/-! ## Claims C13 and C14 -/

/-- Claim C13: for every schema-valid message with content `c0` that has not
been edited yet, and every sequence of `k ≥ 1` edits whose new contents are
trimmed, non-empty and at most 1000 code units long: every `editContent` call
resolves, and afterwards the content is the last new content, `edited.isEdited`
is true, `edited.originalContent` is `c0` and `edited.editHistory` has exactly
`k` entries whose contents are `c0` followed by all new contents but the last,
in that order; when the document was the stored one, the stored document is
the resulting one. -/
theorem C13_edit_history (this : Message) (db : Store) (edits : List (Date × String))
    (hv : this.validate = true) (hnew : this.edited = {}) (hk : edits ≠ [])
    (hok : ∀ e ∈ edits, jsTrim e.2 = e.2 ∧ e.2 ≠ "" ∧ jsLength e.2 ≤ 1000) :
    ∃ (m : Message) (db1 : Store),
      MessageOp.applySeq (edits.map (fun e => (e.1, MessageOp.editContent e.2))) this db
        = .ok (m, db1) ∧
      (edits.map (fun e => e.2)).getLast? = some m.content ∧
      m.edited.isEdited = true ∧
      m.edited.originalContent = some this.content ∧
      m.edited.editHistory.map (fun h => h.content)
        = this.content :: (edits.map (fun e => e.2)).dropLast ∧
      m.edited.editHistory.length = edits.length ∧
      (db.findMessage this._id = some this → db1.findMessage this._id = some m) := by
  obtain ⟨m, db1, hseq, -, hc, hh, hi, ho⟩ := editSeq_ok edits this db hv hok
  have hne : edits.map (fun e => e.2) ≠ [] := by simpa using hk
  have hemp : edits.isEmpty = false := by
    cases edits with
    | nil => exact absurd rfl hk
    | cons _ _ => rfl
  have hhist : m.edited.editHistory.map (fun h => h.content)
      = this.content :: (edits.map (fun e => e.2)).dropLast := by
    rw [hh, hnew, List.dropLast_cons_of_ne_nil hne]
    rfl
  refine ⟨m, db1, hseq, ?_, ?_, ?_, hhist, ?_, fun hf => (applySeq_stored _ this db m db1 hseq hf).2⟩
  · rw [hc, List.getLastD_eq_getLast?]
    cases hl : (edits.map (fun e => e.2)).getLast? with
    | none => exact absurd (List.getLast?_eq_none_iff.mp hl) hne
    | some x => rfl
  · rw [hi, hemp]; simp
  · rw [ho, hnew, hemp]; rfl
  · have := congrArg List.length hhist
    simp only [List.length_map, List.length_cons, List.length_dropLast] at this
    have hpos : 0 < edits.length := List.length_pos.mpr hk
    omega

/-- Witness of claim C13: the message M1 of scenario 1 edited to "Hi" and then
to "Hi B". -/
theorem C13_edit_history_witness :
    helloMessage.validate = true ∧ helloMessage.edited = {} ∧
    (∃ (m : Message) (db1 : Store),
      MessageOp.applySeq
          (([(8, "Hi"), (9, "Hi B")] : List (Date × String)).map
            (fun e => (e.1, MessageOp.editContent e.2))) helloMessage storeM1
        = .ok (m, db1) ∧
      (([(8, "Hi"), (9, "Hi B")] : List (Date × String)).map (fun e => e.2)).getLast?
        = some m.content ∧
      m.edited.isEdited = true ∧
      m.edited.originalContent = some helloMessage.content ∧
      m.edited.editHistory.map (fun h => h.content)
        = helloMessage.content ::
          (([(8, "Hi"), (9, "Hi B")] : List (Date × String)).map (fun e => e.2)).dropLast ∧
      m.edited.editHistory.length = ([(8, "Hi"), (9, "Hi B")] : List (Date × String)).length ∧
      (storeM1.findMessage helloMessage._id = some helloMessage →
        db1.findMessage helloMessage._id = some m)) :=
  ⟨by decide, by decide,
    C13_edit_history helloMessage storeM1 [(8, "Hi"), (9, "Hi B")] (by decide) (by decide)
      (by decide) (by decide)⟩

/-- Claim C14, counterexample: the message M1 of scenario 1 was sent by A; an
edit of it requested by B is not rejected: it resolves, and the content of the
document and of the stored message becomes "Hi", with the old content pushed
onto the edit history. -/
theorem C14_edit_by_other_user_is_accepted :
    helloMessage.sender = some userA ∧ userB ≠ userA ∧
    (helloMessage.editRequestedBy userB "Hi" 8 storeM1).toOption.map
        (fun r => (r.1.content, r.1.edited, (r.2.findMessage helloMessage._id).map
          (fun s => s.content)))
      = some ("Hi",
          { isEdited := true, editedAt := some 8, originalContent := some "Hello",
            editHistory := [{ content := "Hello", editedAt := 8 }] },
          some "Hi") := by
  decide

/-- Claim C14, amended: an edit of a schema-valid message to a content that is
non-empty after trimming and at most 1000 code units long resolves for every
requesting user, the original sender or not: the content becomes the trimmed
new content, the old content is appended to the edit history, the sender is
unchanged, and the outcome is the same whoever the requester is. -/
theorem C14_edit_ignores_requester (this : Message) (requester : ObjectId) (c : String)
    (now : Date) (db : Store) (hv : this.validate = true) (hne : jsTrim c ≠ "")
    (hlen : jsLength (jsTrim c) ≤ 1000) :
    (∃ (m1 : Message) (db1 : Store), this.editRequestedBy requester c now db = .ok (m1, db1) ∧
      m1.content = jsTrim c ∧ m1.edited.isEdited = true ∧
      m1.edited.editHistory
        = this.edited.editHistory ++ [{ content := this.content, editedAt := now }] ∧
      m1.sender = this.sender ∧
      (db.findMessage this._id = some this → db1.findMessage this._id = some m1)) ∧
    (∀ other : ObjectId,
      this.editRequestedBy other c now db = this.editRequestedBy requester c now db) := by
  obtain ⟨m1, db1, h, -, hc, he, hid, hs, -, hm⟩ := editContent_ok this c now db hv hne hlen
  refine ⟨⟨m1, db1, h, hc, ?_, ?_, hs, ?_⟩, fun _ => rfl⟩
  · rw [he]
  · rw [he]
  · intro hf
    rw [← hid]
    exact findMessage_replace db m1._id m1 rfl db1.messages (by rw [hid]; exact hm)
      (by rw [hid, hf]; rfl)

/-- Witness of claim C14 (amended): B asks for the edit of A's message M1. -/
theorem C14_edit_ignores_requester_witness :
    helloMessage.validate = true ∧ jsTrim "Hi" ≠ "" ∧ jsLength (jsTrim "Hi") ≤ 1000 ∧
    ((∃ (m1 : Message) (db1 : Store),
      helloMessage.editRequestedBy userB "Hi" 8 storeM1 = .ok (m1, db1) ∧
      m1.content = jsTrim "Hi" ∧ m1.edited.isEdited = true ∧
      m1.edited.editHistory
        = helloMessage.edited.editHistory ++ [{ content := helloMessage.content, editedAt := 8 }] ∧
      m1.sender = helloMessage.sender ∧
      (storeM1.findMessage helloMessage._id = some helloMessage →
        db1.findMessage helloMessage._id = some m1)) ∧
    (∀ other : ObjectId,
      helloMessage.editRequestedBy other "Hi" 8 storeM1
        = helloMessage.editRequestedBy userB "Hi" 8 storeM1)) :=
  ⟨by decide, by decide, by decide,
    C14_edit_ignores_requester helloMessage userB "Hi" 8 storeM1 (by decide) (by decide)
      (by decide)⟩

/-! ## Lemmas: the save inside a message method -/

/-- The save of the changed copy `m0` of a document: it resolves when `m0` is
schema-valid, to `m0` with the status `pre('save')` gives it, and the stored
document of that `_id` becomes the resulting one. -/
theorem save_changed_ok (m0 : Message) (now : Date) (db : Store) (hv : m0.validate = true) :
    ∃ (db1 : Store),
      m0.save false now db = .ok
        ({ m0 with
            status := if m0.readBy ≠ [] ∧ m0.status = "delivered" then "read" else m0.status },
          db1) ∧
      db1.messages = db.messages.map (fun x => if x._id == m0._id then
        { m0 with
          status := if m0.readBy ≠ [] ∧ m0.status = "delivered" then "read" else m0.status }
        else x) ∧
      ((db.findMessage m0._id).isSome → db1.findMessage m0._id = some
        { m0 with
          status := if m0.readBy ≠ [] ∧ m0.status = "delivered" then "read" else m0.status }) := by
  obtain ⟨db1, hs, hm⟩ := save_existing_resolves m0 now db hv
  have heq : m0.toStore false now = { m0 with
      status := if m0.readBy ≠ [] ∧ m0.status = "delivered" then "read" else m0.status } := by
    rw [toStore_false_eq m0 now, toStore_status]
  rw [heq] at hs hm
  exact ⟨db1, hs, hm, fun hsome =>
    findMessage_replace db m0._id ({ m0 with
      status := if m0.readBy ≠ [] ∧ m0.status = "delivered" then "read" else m0.status })
      rfl db1.messages hm hsome⟩

/-! ## Claim C15 -/

/-- Claim C15, counterexample: the message M1 in status `delivered` with B's
read receipt is schema-valid; `softDelete(A)` does not leave its status
unchanged: the document it resolves to and the stored message have status
`read`. -/
theorem C15_softDelete_changes_status :
    deliveredMessage.validate = true ∧ deliveredMessage.status = "delivered" ∧
    (deliveredMessage.softDelete userA 9 storeDelivered).toOption.map
        (fun r => (r.1.status, r.1.flags.isDeleted,
          (r.2.findMessage deliveredMessage._id).map (fun s => s.status)))
      = some ("read", true, some "read") := by
  decide

/-- Claim C15, amended: for every schema-valid message and user `by`,
`softDelete(by)` resolves; it sets `flags.isDeleted` to true, `flags.deletedAt`
to the time of the call, `flags.deletedBy` to `by` and the content to the fixed
placeholder; the status becomes `read` when the message was `delivered` and had
a read receipt and is unchanged otherwise; every other field (conversation,
sender, type, attachments, readBy, reactions, the edited facet, paymentData,
the flagging fields) is unchanged; no conversation is changed, and when the
document was the stored one the stored document is the resulting one. -/
theorem C15_softDelete_frame (this : Message) (deletedBy : ObjectId) (now : Date) (db : Store)
    (hv : this.validate = true) :
    ∃ (m1 : Message) (db1 : Store), this.softDelete deletedBy now db = .ok (m1, db1) ∧
      m1 = { this with
        flags := { this.flags with
          isDeleted := true, deletedAt := some now, deletedBy := some deletedBy },
        content := deletedPlaceholder,
        status := if this.readBy ≠ [] ∧ this.status = "delivered" then "read" else this.status } ∧
      m1.flags.isDeleted = true ∧ m1.flags.deletedBy = some deletedBy ∧
      m1.content = "This message has been deleted" ∧
      m1.conversation = this.conversation ∧ m1.sender = this.sender ∧ m1.type = this.type ∧
      m1.attachments = this.attachments ∧ m1.readBy = this.readBy ∧
      m1.reactions = this.reactions ∧ m1.edited = this.edited ∧
      m1.paymentData = this.paymentData ∧
      (¬ (this.readBy ≠ [] ∧ this.status = "delivered") → m1.status = this.status) ∧
      db1.conversations = db.conversations ∧
      (db.findMessage this._id = some this → db1.findMessage this._id = some m1) := by
  have hv1 : ({ this with
      content := deletedPlaceholder, edited := this.edited,
      flags := { this.flags with
        isDeleted := true, deletedAt := some now, deletedBy := some deletedBy } }
      : Message).validate = true :=
    validate_content this deletedPlaceholder this.edited _ hv (by decide) (by decide) rfl
  obtain ⟨db1, hs, -, hfind⟩ := save_changed_ok _ now db hv1
  have hcall : this.softDelete deletedBy now db = .ok (_, db1) := hs
  have hconv := softDelete_conversations this deletedBy now db
  rw [hcall] at hconv
  refine ⟨_, db1, hcall, rfl, rfl, rfl, rfl, rfl, rfl, rfl, rfl, rfl, rfl, rfl, rfl, ?_, hconv, ?_⟩
  · intro hno
    exact if_neg hno
  · intro hf
    exact hfind (by rw [show ({ this with
      content := deletedPlaceholder, edited := this.edited,
      flags := { this.flags with
        isDeleted := true, deletedAt := some now, deletedBy := some deletedBy } }
      : Message)._id = this._id from rfl, hf]; rfl)

/-- Witness of claim C15 (amended): `softDelete(A)` on the message M1. -/
theorem C15_softDelete_frame_witness :
    helloMessage.validate = true ∧
    (∃ (m1 : Message) (db1 : Store), helloMessage.softDelete userA 9 storeM1 = .ok (m1, db1) ∧
      m1 = { helloMessage with
        flags := { helloMessage.flags with
          isDeleted := true, deletedAt := some 9, deletedBy := some userA },
        content := deletedPlaceholder,
        status := if helloMessage.readBy ≠ [] ∧ helloMessage.status = "delivered" then "read"
          else helloMessage.status } ∧
      m1.flags.isDeleted = true ∧ m1.flags.deletedBy = some userA ∧
      m1.content = "This message has been deleted" ∧
      m1.conversation = helloMessage.conversation ∧ m1.sender = helloMessage.sender ∧
      m1.type = helloMessage.type ∧
      m1.attachments = helloMessage.attachments ∧ m1.readBy = helloMessage.readBy ∧
      m1.reactions = helloMessage.reactions ∧ m1.edited = helloMessage.edited ∧
      m1.paymentData = helloMessage.paymentData ∧
      (¬ (helloMessage.readBy ≠ [] ∧ helloMessage.status = "delivered") →
        m1.status = helloMessage.status) ∧
      db1.conversations = storeM1.conversations ∧
      (storeM1.findMessage helloMessage._id = some helloMessage →
        db1.findMessage helloMessage._id = some m1)) :=
  ⟨by decide, C15_softDelete_frame helloMessage userA 9 storeM1 (by decide)⟩

/-! ## Claim C16 -/

theorem mem_findByConversation (db : Store) (conversationId : ObjectId) (limit skip : Nat)
    (descending : Bool) (m : Message)
    (h : m ∈ findByConversation db conversationId limit skip descending) :
    m ∈ db.messages ∧ m.conversation = conversationId ∧ m.flags.isDeleted = false := by
  unfold findByConversation at h
  have h1 := List.mem_of_mem_drop (List.mem_of_mem_take h)
  have h2 : m ∈ db.messages.filter
      (fun m => m.conversation == conversationId && !m.flags.isDeleted) := by
    cases descending
    · simp only [Bool.false_eq_true, if_false] at h1
      exact (List.perm_insertionSort _ _).subset h1
    · simp only [if_true] at h1
      exact (List.perm_insertionSort _ _).subset h1
  rw [List.mem_filter] at h2
  obtain ⟨hm, hc⟩ := h2
  simp only [Bool.and_eq_true, beq_iff_eq, Bool.not_eq_true'] at hc
  exact ⟨hm, hc.1, hc.2⟩

theorem findByConversation_descending_sorted (db : Store) (conversationId : ObjectId)
    (limit skip : Nat) :
    (findByConversation db conversationId limit skip true).Pairwise
      (fun a b => b.createdAt ≤ a.createdAt) := by
  unfold findByConversation
  simp only [if_true]
  haveI : IsTotal Message (fun a b => b.createdAt ≤ a.createdAt) :=
    ⟨fun a b => Nat.le_total b.createdAt a.createdAt⟩
  haveI : IsTrans Message (fun a b => b.createdAt ≤ a.createdAt) :=
    ⟨fun a b c hab hbc => Nat.le_trans hbc hab⟩
  have hs : List.Pairwise (fun a b : Message => b.createdAt ≤ a.createdAt)
      ((db.messages.filter
        (fun m => m.conversation == conversationId && !m.flags.isDeleted)).insertionSort
        (fun a b => b.createdAt ≤ a.createdAt)) :=
    List.sorted_insertionSort _ _
  exact (hs.sublist (List.drop_sublist _ _)).sublist (List.take_sublist _ _)

theorem findByConversation_whole (db : Store) (conversationId : ObjectId) (limit : Nat)
    (descending : Bool) (hl : limit ≠ 0)
    (hlen : (db.messages.filter
      (fun m => m.conversation == conversationId && !m.flags.isDeleted)).length ≤ limit) :
    List.Perm (findByConversation db conversationId limit 0 descending)
      (db.messages.filter (fun m => m.conversation == conversationId && !m.flags.isDeleted)) := by
  unfold findByConversation
  have hl2 : (limit == 0) = false := by simpa using hl
  simp only [hl2, Bool.false_eq_true, if_false, List.drop_zero]
  cases descending
  · simp only [Bool.false_eq_true, if_false]
    rw [List.take_of_length_le (by rw [List.length_insertionSort]; exact hlen)]
    exact List.perm_insertionSort _ _
  · simp only [if_true]
    rw [List.take_of_length_le (by rw [List.length_insertionSort]; exact hlen)]
    exact List.perm_insertionSort _ _

/-- Claim C16, counterexample: conversation C1 holds the messages M1 ("Hello",
sent by A at 5) and B's reply (at 7); the listing read by B returns both, in
that order.  Once M1 has been soft-deleted by A, the listing returns the reply
only: M1 is removed from the list, not shown with the placeholder, and the total
count is 1. -/
theorem C16_soft_deleted_message_is_not_listed :
    (getMessages 9 1 userB 1 50 storeM2).messages.map (fun m => (m._id, m.content))
      = [(100, "Hello"), (101, "Hi there")] ∧
    ((storeAfter storeM2 (helloMessage.softDelete userA 8 storeM2)).findMessage 100).map
        (fun m => (m.content, m.flags.isDeleted))
      = some ("This message has been deleted", true) ∧
    (getMessages 9 1 userB 1 50
        (storeAfter storeM2 (helloMessage.softDelete userA 8 storeM2))).messages.map
        (fun m => (m._id, m.content))
      = [(101, "Hi there")] ∧
    (getMessages 9 1 userB 1 50
        (storeAfter storeM2 (helloMessage.softDelete userA 8 storeM2))).total = 1 := by
  decide

/-- Claim C16, amended: the list returned by the list-messages operation holds
only stored messages of the conversation that are not soft-deleted, in
ascending order of `createdAt`; for page 1 and a limit that covers them it is a
rearrangement of exactly the messages of the conversation that are not
soft-deleted, and the total reported is their number; after `softDelete` of a
schema-valid message no listed message has its `_id`: soft-deleting a message
removes it from the list. -/
theorem C16_listing_omits_soft_deleted (db : Store) (now : Date) (conversationId userId : ObjectId)
    (page : Int) (limit : Nat) (this : Message) (deletedBy : ObjectId) (t : Date)
    (hv : this.validate = true) :
    (∀ m ∈ (getMessages now conversationId userId page limit db).messages,
      m ∈ db.messages ∧ m.conversation = conversationId ∧ m.flags.isDeleted = false) ∧
    (getMessages now conversationId userId page limit db).messages.Pairwise
      (fun a b => a.createdAt ≤ b.createdAt) ∧
    ((getMessages now conversationId userId page limit db).status = 200 → page = 1 →
      limit ≠ 0 →
      (db.messages.filter
        (fun m => m.conversation == conversationId && !m.flags.isDeleted)).length ≤ limit →
      List.Perm (getMessages now conversationId userId page limit db).messages
        (db.messages.filter (fun m => m.conversation == conversationId && !m.flags.isDeleted))) ∧
    ((getMessages now conversationId userId page limit db).status = 200 →
      (getMessages now conversationId userId page limit db).total =
        (db.messages.filter
          (fun m => m.conversation == conversationId && !m.flags.isDeleted)).length) ∧
    (∀ m ∈ (getMessages now conversationId userId page limit
        (storeAfter db (this.softDelete deletedBy t db))).messages, m._id ≠ this._id) := by
  have hmem : ∀ (db0 : Store), ∀ m ∈ (getMessages now conversationId userId page limit db0).messages,
      m ∈ db0.messages ∧ m.conversation = conversationId ∧ m.flags.isDeleted = false := by
    intro db0 m hm
    unfold getMessages at hm
    split at hm
    · simp at hm
    · split at hm
      · simp at hm
      · simp only [List.mem_reverse] at hm
        exact mem_findByConversation db0 conversationId _ _ _ m hm
  refine ⟨hmem db, ?_, ?_, ?_, ?_⟩
  · unfold getMessages
    split
    · exact List.Pairwise.nil
    · split
      · exact List.Pairwise.nil
      · simp only
        rw [List.pairwise_reverse]
        exact findByConversation_descending_sorted db conversationId _ _
  · intro hst hp hl hlen
    subst hp
    have hskip : ¬ ((1 : Int) - 1) * (limit : Int) < 0 := by simp
    unfold getMessages at hst ⊢
    cases hc : db.findOne conversationId userId with
    | none =>
        rw [hc] at hst
        simp at hst
    | some c =>
        simp only [if_neg hskip]
        rw [show (((1 : Int) - 1) * (limit : Int)).toNat = 0 by simp]
        exact (List.reverse_perm _).trans
          (findByConversation_whole db conversationId limit true hl hlen)
  · intro hst
    unfold getMessages at hst ⊢
    cases hc : db.findOne conversationId userId with
    | none =>
        rw [hc] at hst
        simp at hst
    | some c =>
        rw [hc] at hst
        simp only at hst ⊢
        by_cases hskip : (page - 1) * (limit : Int) < 0
        · rw [if_pos hskip] at hst
          simp at hst
        · simp only [if_neg hskip, resetReadStatus, updateConversation_messages,
            pushReadReceipts]
          rw [List.filter_map, List.length_map]
          congr 1
          apply List.filter_congr
          intro x _
          simp only [Function.comp]
          split <;> rfl
  · intro m hm heq
    obtain ⟨hin, -, hdel⟩ := hmem _ m hm
    have hv1 : ({ this with
        content := deletedPlaceholder, edited := this.edited,
        flags := { this.flags with
          isDeleted := true, deletedAt := some t, deletedBy := some deletedBy } }
        : Message).validate = true :=
      validate_content this deletedPlaceholder this.edited _ hv (by decide) (by decide) rfl
    obtain ⟨db1, hs, hmsgs, -⟩ := save_changed_ok _ t db hv1
    have hcall : this.softDelete deletedBy t db = .ok (_, db1) := hs
    rw [hcall] at hin
    simp only [storeAfter] at hin
    rw [hmsgs, List.mem_map] at hin
    obtain ⟨y, -, hy⟩ := hin
    by_cases hyid : y._id = this._id
    · simp only [hyid, beq_self_eq_true, if_true] at hy
      rw [← hy] at hdel
      simp at hdel
    · have hne : (y._id == this._id) = false := by simpa using hyid
      simp only [hne, Bool.false_eq_true, if_false] at hy
      rw [← hy] at heq
      exact hyid heq

/-- Witness of claim C16 (amended): the listing read by B of C1 holding M1 and
the reply, with M1 soft-deleted by A. -/
theorem C16_listing_omits_soft_deleted_witness :
    helloMessage.validate = true ∧
    ((∀ m ∈ (getMessages 9 1 userB 1 50 storeM2).messages,
      m ∈ storeM2.messages ∧ m.conversation = 1 ∧ m.flags.isDeleted = false) ∧
    (getMessages 9 1 userB 1 50 storeM2).messages.Pairwise
      (fun a b => a.createdAt ≤ b.createdAt) ∧
    ((getMessages 9 1 userB 1 50 storeM2).status = 200 → (1 : Int) = 1 →
      50 ≠ 0 →
      (storeM2.messages.filter
        (fun m => m.conversation == 1 && !m.flags.isDeleted)).length ≤ 50 →
      List.Perm (getMessages 9 1 userB 1 50 storeM2).messages
        (storeM2.messages.filter (fun m => m.conversation == 1 && !m.flags.isDeleted))) ∧
    ((getMessages 9 1 userB 1 50 storeM2).status = 200 →
      (getMessages 9 1 userB 1 50 storeM2).total =
        (storeM2.messages.filter
          (fun m => m.conversation == 1 && !m.flags.isDeleted)).length) ∧
    (∀ m ∈ (getMessages 9 1 userB 1 50
        (storeAfter storeM2 (helloMessage.softDelete userA 8 storeM2))).messages,
      m._id ≠ helloMessage._id)) :=
  ⟨by decide, C16_listing_omits_soft_deleted storeM2 9 1 userB 1 50 helloMessage userA 8
    (by decide)⟩
/-! ## Lemmas: reactions -/

/-- The document a method save resolves to is valid when the saved copy is. -/
theorem save_changed_valid (m0 : Message) (hv : m0.validate = true) :
    ({ m0 with
      status := if m0.readBy ≠ [] ∧ m0.status = "delivered" then "read" else m0.status }
      : Message).validate = true := by
  have heq : m0.toStore false 0 = { m0 with
      status := if m0.readBy ≠ [] ∧ m0.status = "delivered" then "read" else m0.status } := by
    rw [toStore_false_eq m0 0, toStore_status]
  rw [← heq]
  exact validate_toStore m0 0 hv

/-- Replacing the reactions by reactions whose emoji are in the schema enum
keeps a document valid. -/
theorem validate_reactions (m : Message) (rs : List Reaction) (hv : m.validate = true)
    (hrs : ∀ r ∈ rs, r.emoji ∈ reactionEmojiEnum) :
    ({ m with reactions := rs } : Message).validate = true := by
  unfold Message.validate at hv ⊢
  simp only [Bool.and_eq_true] at hv ⊢
  obtain ⟨⟨⟨⟨⟨⟨⟨⟨h1, h2⟩, h3⟩, h4⟩, h5⟩, h6⟩, _⟩, h8⟩, h9⟩ := hv
  refine ⟨⟨⟨⟨⟨⟨⟨⟨h1, h2⟩, h3⟩, h4⟩, h5⟩, h6⟩, ?_⟩, h8⟩, h9⟩
  rw [List.all_eq_true]
  intro r hr
  simpa using hrs r hr

theorem reactions_filter_self (l : List Reaction) (r : Reaction) :
    (l.filter (fun x => x.user != r.user) ++ [r]).filter (fun x => x.user == r.user) = [r] := by
  rw [List.filter_append, List.filter_filter]
  have h1 : l.filter (fun a => (a.user == r.user) && (a.user != r.user)) = [] := by
    rw [List.filter_eq_nil_iff]
    intro a _
    by_cases h : a.user = r.user <;> simp [h]
  rw [h1]
  simp

theorem reactions_filter_rest (l : List Reaction) (r : Reaction) :
    (l.filter (fun x => x.user != r.user) ++ [r]).filter (fun x => x.user != r.user)
      = l.filter (fun x => x.user != r.user) := by
  rw [List.filter_append, List.filter_filter]
  simp

theorem reactions_filter_other (l : List Reaction) (r : Reaction) (w : ObjectId)
    (hw : w ≠ r.user) :
    (l.filter (fun x => x.user != r.user) ++ [r]).filter (fun x => x.user == w)
      = l.filter (fun x => x.user == w) := by
  rw [List.filter_append, List.filter_filter]
  have h1 : [r].filter (fun x => x.user == w) = [] := by
    rw [List.filter_eq_nil_iff]
    intro a ha
    rw [List.mem_singleton] at ha
    subst ha
    simpa using fun h => hw h.symm
  rw [h1, List.append_nil]
  apply List.filter_congr
  intro a _
  by_cases h : a.user = w
  · subst h; simp [hw]
  · simp [h]

theorem reactions_remove_nodup (l : List Reaction) (u : ObjectId)
    (hnd : (l.map (fun r => r.user)).Nodup) :
    ((l.filter (fun x => x.user != u)).map (fun r => r.user)).Nodup :=
  hnd.sublist ((List.filter_sublist l).map _)

theorem reactions_add_nodup (l : List Reaction) (r : Reaction)
    (hnd : (l.map (fun r => r.user)).Nodup) :
    ((l.filter (fun x => x.user != r.user) ++ [r]).map (fun r => r.user)).Nodup := by
  rw [List.map_append, List.nodup_append]
  refine ⟨reactions_remove_nodup l r.user hnd, by simp, ?_⟩
  intro a ha hb
  simp only [List.map_cons, List.map_nil, List.mem_singleton] at hb
  subst hb
  rw [List.mem_map] at ha
  obtain ⟨x, hx, hxu⟩ := ha
  rw [List.mem_filter] at hx
  simp [hxu] at hx

theorem addReaction_ok (this : Message) (u : ObjectId) (e : String) (now : Date) (db : Store)
    (hv : this.validate = true) (he : e ∈ reactionEmojiEnum) :
    ∃ (m1 : Message) (db1 : Store), this.addReaction u e now db = .ok (m1, db1) ∧
      m1.validate = true ∧
      m1.reactions = this.reactions.filter (fun x => x.user != u) ++
        [{ user := u, emoji := e, reactedAt := now }] ∧
      m1._id = this._id ∧
      (db.findMessage this._id = some this → db1.findMessage this._id = some m1) := by
  have hv1 : ({ this with
      reactions := this.reactions.filter (fun x => x.user != u) ++
        [{ user := u, emoji := e, reactedAt := now }] } : Message).validate = true := by
    apply validate_reactions this _ hv
    intro r hr
    rw [List.mem_append, List.mem_singleton] at hr
    rcases hr with hr | hr
    · exact (validate_parts this hv).2.2.2 r (List.mem_filter.mp hr).1
    · rw [hr]; exact he
  obtain ⟨db1, hs, -, hfind⟩ := save_changed_ok _ now db hv1
  refine ⟨_, db1, hs, save_changed_valid _ hv1, rfl, rfl, ?_⟩
  intro hf
  exact hfind (by
    rw [show ({ this with
      reactions := this.reactions.filter (fun x => x.user != u) ++
        [{ user := u, emoji := e, reactedAt := now }] } : Message)._id = this._id from rfl, hf]
    rfl)

theorem removeReaction_ok (this : Message) (u : ObjectId) (now : Date) (db : Store)
    (hv : this.validate = true) :
    ∃ (m1 : Message) (db1 : Store), this.removeReaction u now db = .ok (m1, db1) ∧
      m1.validate = true ∧
      m1.reactions = this.reactions.filter (fun x => x.user != u) ∧
      m1._id = this._id ∧
      (db.findMessage this._id = some this → db1.findMessage this._id = some m1) := by
  have hv1 : ({ this with
      reactions := this.reactions.filter (fun x => x.user != u) } : Message).validate = true := by
    apply validate_reactions this _ hv
    intro r hr
    exact (validate_parts this hv).2.2.2 r (List.mem_filter.mp hr).1
  obtain ⟨db1, hs, -, hfind⟩ := save_changed_ok _ now db hv1
  refine ⟨_, db1, hs, save_changed_valid _ hv1, rfl, rfl, ?_⟩
  intro hf
  exact hfind (by
    rw [show ({ this with
      reactions := this.reactions.filter (fun x => x.user != u) } : Message)._id = this._id
      from rfl, hf]
    rfl)

/-- A sequence of `addReaction` calls with emoji of the schema enum resolves;
afterwards every user who reacted has exactly one reaction, the last one, and
the reactions of the other users are the ones the message had. -/
theorem reactSeq_ok (ops : List (Date × ObjectId × String)) (this : Message) (db : Store)
    (hv : this.validate = true) (hops : ∀ o ∈ ops, o.2.2 ∈ reactionEmojiEnum) :
    ∃ (m : Message) (db1 : Store),
      MessageOp.applySeq (ops.map (fun o => (o.1, MessageOp.addReaction o.2.1 o.2.2))) this db
        = .ok (m, db1) ∧
      m.validate = true ∧
      (∀ w : ObjectId, m.reactions.filter (fun x => x.user == w) =
        match (ops.filter (fun o => o.2.1 == w)).getLast? with
        | some o => [{ user := w, emoji := o.2.2, reactedAt := o.1 }]
        | none => this.reactions.filter (fun x => x.user == w)) ∧
      ((this.reactions.map (fun r => r.user)).Nodup → (m.reactions.map (fun r => r.user)).Nodup) := by
  induction ops generalizing this db with
  | nil =>
      exact ⟨this, db, rfl, hv, fun w => rfl, fun h => h⟩
  | cons op rest ih =>
      obtain ⟨t, v, f⟩ := op
      obtain ⟨m1, db1, hcall, hv1, hr1, -, -⟩ :=
        addReaction_ok this v f t db hv (hops (t, v, f) (List.mem_cons_self _ _))
      obtain ⟨m, db2, hseq, hvm, hfilter, hnd⟩ :=
        ih m1 db1 hv1 (fun o ho => hops o (List.mem_cons_of_mem _ ho))
      refine ⟨m, db2, ?_, hvm, ?_, ?_⟩
      · simp only [List.map_cons, MessageOp.applySeq, MessageOp.apply, hcall]
        exact hseq
      · intro w
        rw [hfilter w, List.filter_cons]
        by_cases hw : v = w
        · subst hw
          simp only [beq_self_eq_true, if_true]
          cases hrest : rest.filter (fun o => o.2.1 == v) with
          | nil =>
              simp only [List.getLast?_nil, List.getLast?_singleton]
              rw [hr1]
              exact reactions_filter_self this.reactions { user := v, emoji := f, reactedAt := t }
          | cons o os =>
              rw [List.getLast?_cons_cons]
              cases hg : (o :: os).getLast? with
              | none => exact absurd (List.getLast?_eq_none_iff.mp hg) (List.cons_ne_nil _ _)
              | some x => rfl
        · have hne : (v == w) = false := by simpa using hw
          simp only [hne, Bool.false_eq_true, if_false]
          cases hl : (rest.filter (fun o => o.2.1 == w)).getLast? with
          | some o => rfl
          | none =>
              simp only
              rw [hr1]
              exact reactions_filter_other this.reactions
                { user := v, emoji := f, reactedAt := t } w (fun h => hw h.symm)
      · intro h
        apply hnd
        rw [hr1]
        exact reactions_add_nodup this.reactions { user := v, emoji := f, reactedAt := t } h

/-! ## Claim C17 -/

/-- Claim C17: for every schema-valid message, user `u` and emoji `e` of the
schema enum, `addReaction(u, e)` resolves and afterwards the message has exactly
one reaction by `u`, with emoji `e`, while the reactions of every other user are
unchanged; `removeReaction(v)` resolves and removes the reactions of `v` only;
both keep the users of the reactions free of duplicates (at most one reaction
per user).  After any sequence of `addReaction` calls every user who reacted has
exactly one reaction, holding the emoji of their last call; in particular, when
two users `u` and `v` react in either order, the final state has exactly one
reaction of `u` with emoji `e` and exactly one of `v` with emoji `f`. -/
theorem C17_one_reaction_per_user (this : Message) (db : Store) (u : ObjectId) (e : String)
    (now : Date) (v : ObjectId) (f : String) (t : Date) (ops : List (Date × ObjectId × String))
    (hv : this.validate = true) (he : e ∈ reactionEmojiEnum) (hf : f ∈ reactionEmojiEnum)
    (huv : u ≠ v) (hops : ∀ o ∈ ops, o.2.2 ∈ reactionEmojiEnum) :
    (∃ (m1 : Message) (db1 : Store), this.addReaction u e now db = .ok (m1, db1) ∧
      m1.reactions.filter (fun x => x.user == u) = [{ user := u, emoji := e, reactedAt := now }] ∧
      m1.reactions.filter (fun x => x.user != u) = this.reactions.filter (fun x => x.user != u) ∧
      ((this.reactions.map (fun r => r.user)).Nodup →
        (m1.reactions.map (fun r => r.user)).Nodup) ∧
      (db.findMessage this._id = some this → db1.findMessage this._id = some m1)) ∧
    (∃ (m2 : Message) (db2 : Store), this.removeReaction v t db = .ok (m2, db2) ∧
      m2.reactions = this.reactions.filter (fun x => x.user != v) ∧
      ((this.reactions.map (fun r => r.user)).Nodup →
        (m2.reactions.map (fun r => r.user)).Nodup) ∧
      (db.findMessage this._id = some this → db2.findMessage this._id = some m2)) ∧
    (∃ (m : Message) (db1 : Store),
      MessageOp.applySeq (ops.map (fun o => (o.1, MessageOp.addReaction o.2.1 o.2.2))) this db
        = .ok (m, db1) ∧
      (∀ w : ObjectId, m.reactions.filter (fun x => x.user == w) =
        match (ops.filter (fun o => o.2.1 == w)).getLast? with
        | some o => [{ user := w, emoji := o.2.2, reactedAt := o.1 }]
        | none => this.reactions.filter (fun x => x.user == w)) ∧
      ((this.reactions.map (fun r => r.user)).Nodup →
        (m.reactions.map (fun r => r.user)).Nodup)) ∧
    (∃ (m : Message) (db1 : Store),
      MessageOp.applySeq [(now, MessageOp.addReaction u e), (t, MessageOp.addReaction v f)] this db
        = .ok (m, db1) ∧
      m.reactions.filter (fun x => x.user == u) = [{ user := u, emoji := e, reactedAt := now }] ∧
      m.reactions.filter (fun x => x.user == v) = [{ user := v, emoji := f, reactedAt := t }]) ∧
    (∃ (m : Message) (db1 : Store),
      MessageOp.applySeq [(now, MessageOp.addReaction v f), (t, MessageOp.addReaction u e)] this db
        = .ok (m, db1) ∧
      m.reactions.filter (fun x => x.user == u) = [{ user := u, emoji := e, reactedAt := t }] ∧
      m.reactions.filter (fun x => x.user == v) = [{ user := v, emoji := f, reactedAt := now }]) := by
  have hvu : v ≠ u := fun h => huv h.symm
  have huv2 : (u == v) = false := by simpa using huv
  have hvu2 : (v == u) = false := by simpa using hvu
  refine ⟨?_, ?_, ?_, ?_, ?_⟩
  · obtain ⟨m1, db1, hcall, -, hr, -, hst⟩ := addReaction_ok this u e now db hv he
    refine ⟨m1, db1, hcall, ?_, ?_, ?_, hst⟩
    · rw [hr]
      exact reactions_filter_self this.reactions { user := u, emoji := e, reactedAt := now }
    · rw [hr]
      exact reactions_filter_rest this.reactions { user := u, emoji := e, reactedAt := now }
    · intro h
      rw [hr]
      exact reactions_add_nodup this.reactions { user := u, emoji := e, reactedAt := now } h
  · obtain ⟨m2, db2, hcall, -, hr, -, hst⟩ := removeReaction_ok this v t db hv
    refine ⟨m2, db2, hcall, hr, ?_, hst⟩
    intro h
    rw [hr]
    exact reactions_remove_nodup this.reactions v h
  · obtain ⟨m, db1, hseq, -, hfilter, hnd⟩ := reactSeq_ok ops this db hv hops
    exact ⟨m, db1, hseq, hfilter, hnd⟩
  · obtain ⟨m, db1, hseq, -, hfilter, -⟩ := reactSeq_ok [(now, u, e), (t, v, f)] this db hv
      (by
        intro o ho
        simp only [List.mem_cons, List.mem_singleton, List.not_mem_nil, or_false] at ho
        rcases ho with rfl | rfl
        · exact he
        · exact hf)
    refine ⟨m, db1, hseq, ?_, ?_⟩
    · rw [hfilter u]
      simp [List.filter_cons, hvu2]
    · rw [hfilter v]
      simp [List.filter_cons, huv2]
  · obtain ⟨m, db1, hseq, -, hfilter, -⟩ := reactSeq_ok [(now, v, f), (t, u, e)] this db hv
      (by
        intro o ho
        simp only [List.mem_cons, List.mem_singleton, List.not_mem_nil, or_false] at ho
        rcases ho with rfl | rfl
        · exact hf
        · exact he)
    refine ⟨m, db1, hseq, ?_, ?_⟩
    · rw [hfilter u]
      simp [List.filter_cons, hvu2]
    · rw [hfilter v]
      simp [List.filter_cons, huv2]

/-- Witness of claim C17: A and B react to the message M1 with the first two
emoji of the schema enum. -/
theorem C17_one_reaction_per_user_witness :
    helloMessage.validate = true ∧ emojiOne ∈ reactionEmojiEnum ∧
    emojiTwo ∈ reactionEmojiEnum ∧ userA ≠ userB ∧
    (∃ (m1 : Message) (db1 : Store),
      helloMessage.addReaction userA emojiOne 6 storeM1 = .ok (m1, db1) ∧
      m1.reactions.filter (fun x => x.user == userA)
        = [{ user := userA, emoji := emojiOne, reactedAt := 6 }] ∧
      m1.reactions.filter (fun x => x.user != userA)
        = helloMessage.reactions.filter (fun x => x.user != userA) ∧
      ((helloMessage.reactions.map (fun r => r.user)).Nodup →
        (m1.reactions.map (fun r => r.user)).Nodup) ∧
      (storeM1.findMessage helloMessage._id = some helloMessage →
        db1.findMessage helloMessage._id = some m1)) ∧
    (∃ (m : Message) (db1 : Store),
      MessageOp.applySeq
          [(6, MessageOp.addReaction userA emojiOne), (7, MessageOp.addReaction userB emojiTwo)]
          helloMessage storeM1
        = .ok (m, db1) ∧
      m.reactions.filter (fun x => x.user == userA)
        = [{ user := userA, emoji := emojiOne, reactedAt := 6 }] ∧
      m.reactions.filter (fun x => x.user == userB)
        = [{ user := userB, emoji := emojiTwo, reactedAt := 7 }]) ∧
    (∃ (m : Message) (db1 : Store),
      MessageOp.applySeq
          [(6, MessageOp.addReaction userB emojiTwo), (7, MessageOp.addReaction userA emojiOne)]
          helloMessage storeM1
        = .ok (m, db1) ∧
      m.reactions.filter (fun x => x.user == userA)
        = [{ user := userA, emoji := emojiOne, reactedAt := 7 }] ∧
      m.reactions.filter (fun x => x.user == userB)
        = [{ user := userB, emoji := emojiTwo, reactedAt := 6 }]) :=
  have h := C17_one_reaction_per_user helloMessage storeM1 userA emojiOne 6 userB emojiTwo 7
    [(6, userA, emojiOne), (7, userB, emojiTwo), (8, userA, emojiTwo)]
    (by decide) (by decide) (by decide) (by decide) (by decide)
  ⟨by decide, by decide, by decide, by decide, h.1, h.2.2.2.1, h.2.2.2.2⟩
/-! ## Lemmas: flagging -/

/-- Replacing the flags by flags whose reason is in the schema enum keeps a
document valid. -/
theorem validate_flags (m : Message) (f : Flags) (r : String) (hv : m.validate = true)
    (hf : f.flagReason = some r) (hr : r ∈ flagReasonEnum) :
    ({ m with flags := f } : Message).validate = true := by
  unfold Message.validate at hv ⊢
  simp only [Bool.and_eq_true] at hv ⊢
  obtain ⟨⟨⟨⟨⟨⟨⟨⟨h1, h2⟩, h3⟩, h4⟩, h5⟩, h6⟩, h7⟩, h8⟩, _⟩ := hv
  refine ⟨⟨⟨⟨⟨⟨⟨⟨h1, h2⟩, h3⟩, h4⟩, h5⟩, h6⟩, h7⟩, h8⟩, ?_⟩
  rw [hf]
  simpa using hr

theorem flag_ok (this : Message) (flaggedBy : ObjectId) (reason : String) (now : Date)
    (db : Store) (hv : this.validate = true) (hr : reason ∈ flagReasonEnum) :
    ∃ (m1 : Message) (db1 : Store), this.flag flaggedBy reason now db = .ok (m1, db1) ∧
      m1.validate = true ∧
      m1 = { this with
        flags := { this.flags with
          isFlagged := true, flaggedAt := some now, flaggedBy := some flaggedBy,
          flagReason := some reason },
        status := if this.readBy ≠ [] ∧ this.status = "delivered" then "read" else this.status } ∧
      (db.findMessage this._id = some this → db1.findMessage this._id = some m1) := by
  have hv1 : ({ this with
      flags := { this.flags with
        isFlagged := true, flaggedAt := some now, flaggedBy := some flaggedBy,
        flagReason := some reason } } : Message).validate = true :=
    validate_flags this _ reason hv rfl hr
  obtain ⟨db1, hs, -, hfind⟩ := save_changed_ok _ now db hv1
  refine ⟨_, db1, hs, save_changed_valid _ hv1, rfl, ?_⟩
  intro hf
  exact hfind (by
    rw [show ({ this with
      flags := { this.flags with
        isFlagged := true, flaggedAt := some now, flaggedBy := some flaggedBy,
        flagReason := some reason } } : Message)._id = this._id from rfl, hf]
    rfl)

/-- A sequence of `flag` calls with reasons of the schema enum resolves; the
flagging fields afterwards are those of the last call alone. -/
theorem flagSeq_ok (ops : List (Date × ObjectId × String)) (this : Message) (db : Store)
    (hv : this.validate = true) (hops : ∀ o ∈ ops, o.2.2 ∈ flagReasonEnum) :
    ∃ (m : Message) (db1 : Store),
      MessageOp.applySeq (ops.map (fun o => (o.1, MessageOp.flag o.2.1 o.2.2))) this db
        = .ok (m, db1) ∧
      m.validate = true ∧
      m.flags = (match ops.getLast? with
        | some o => { this.flags with
            isFlagged := true, flaggedAt := some o.1, flaggedBy := some o.2.1,
            flagReason := some o.2.2 }
        | none => this.flags) ∧
      m.content = this.content ∧ m.reactions = this.reactions ∧ m.readBy = this.readBy := by
  induction ops generalizing this db with
  | nil => exact ⟨this, db, rfl, hv, rfl, rfl, rfl, rfl⟩
  | cons op rest ih =>
      obtain ⟨t, v, r⟩ := op
      obtain ⟨m1, db1, hcall, hv1, hm1, -⟩ :=
        flag_ok this v r t db hv (hops (t, v, r) (List.mem_cons_self _ _))
      obtain ⟨m, db2, hseq, hvm, hflags, hc, hre, hrb⟩ :=
        ih m1 db1 hv1 (fun o ho => hops o (List.mem_cons_of_mem _ ho))
      refine ⟨m, db2, ?_, hvm, ?_, ?_, ?_, ?_⟩
      · simp only [List.map_cons, MessageOp.applySeq, MessageOp.apply, hcall]
        exact hseq
      · rw [hflags]
        cases rest with
        | nil => rw [hm1]; rfl
        | cons o os =>
            rw [List.getLast?_cons_cons]
            cases hg : (o :: os).getLast? with
            | none => exact absurd (List.getLast?_eq_none_iff.mp hg) (List.cons_ne_nil _ _)
            | some x => rw [hm1]
      · rw [hc, hm1]
      · rw [hre, hm1]
      · rw [hrb, hm1]

/-- A sequence of calls that all resolve leaves the document and the store it
resolves to. -/
theorem runSeq_of_applySeq (ops : List (Date × MessageOp)) (this : Message) (db : Store)
    (m : Message) (db1 : Store) (h : MessageOp.applySeq ops this db = .ok (m, db1)) :
    MessageOp.runSeq ops (this, db) = (m, db1) := by
  induction ops generalizing this db with
  | nil =>
      simp only [MessageOp.applySeq, Except.ok.injEq] at h
      exact h
  | cons op rest ih =>
      obtain ⟨t, o⟩ := op
      simp only [MessageOp.applySeq] at h
      cases hcall : o.apply t this db with
      | error err => rw [hcall] at h; simp at h
      | ok res =>
          obtain ⟨m1, db2⟩ := res
          rw [hcall] at h
          simp only at h
          simp only [MessageOp.runSeq, List.foldl_cons, MessageOp.run, hcall]
          exact ih m1 db2 h

/-! ## Claim C18 -/

/-- Claim C18, counterexample: five users flag the message M1, one after the
other, with the reasons spam, harassment, other, spam, inappropriate; every call
resolves.  Afterwards the status is still `sent`, not `flagged` (which the
status enum does not even hold), and the flags keep the last flagging user and
the last reason alone: no count of flags and no set of reasons is kept. -/
theorem C18_five_flags_leave_status_sent :
    (MessageOp.applySeq
        [(6, MessageOp.flag 1 "spam"), (7, MessageOp.flag 2 "harassment"),
         (8, MessageOp.flag 3 "other"), (9, MessageOp.flag 4 "spam"),
         (10, MessageOp.flag 5 "inappropriate")] helloMessage storeM1).toOption.map
        (fun r => (r.1.status, r.1.flags, (r.2.findMessage helloMessage._id).map
          (fun s => (s.status, s.flags))))
      = some ("sent",
          { isFlagged := true, flaggedAt := some 10, flaggedBy := some 5,
            flagReason := some "inappropriate" },
          some ("sent",
            { isFlagged := true, flaggedAt := some 10, flaggedBy := some 5,
              flagReason := some "inappropriate" })) ∧
    "flagged" ∉ messageStatusEnum := by
  decide

/-- Claim C18, amended: for every schema-valid message and every sequence of
`flag(user, reason)` calls whose reasons are in the schema enum, every call
resolves; afterwards `flags.isFlagged` is true and `flags.flaggedAt`,
`flags.flaggedBy` and `flags.flagReason` hold the time, the user and the reason
of the last call alone, the deletion flags being unchanged; the status is never
`flagged`, however many calls were made: it is the old status, or `read` when
the old status was `delivered`. -/
theorem C18_flag_keeps_last_flag_only (this : Message) (db : Store)
    (ops : List (Date × ObjectId × String)) (hv : this.validate = true)
    (hops : ∀ o ∈ ops, o.2.2 ∈ flagReasonEnum) :
    ∃ (m : Message) (db1 : Store),
      MessageOp.applySeq (ops.map (fun o => (o.1, MessageOp.flag o.2.1 o.2.2))) this db
        = .ok (m, db1) ∧
      m.flags = (match ops.getLast? with
        | some o => { this.flags with
            isFlagged := true, flaggedAt := some o.1, flaggedBy := some o.2.1,
            flagReason := some o.2.2 }
        | none => this.flags) ∧
      m.status ≠ "flagged" ∧
      (m.status = this.status ∨ (this.status = "delivered" ∧ m.status = "read")) ∧
      (db.findMessage this._id = some this → db1.findMessage this._id = some m) := by
  obtain ⟨m, db1, hseq, hvm, hflags, -, -, -⟩ := flagSeq_ok ops this db hv hops
  refine ⟨m, db1, hseq, hflags, ?_, ?_, fun hf => (applySeq_stored _ this db m db1 hseq hf).2⟩
  · intro hst
    have hmem := (validate_parts m hvm).2.2.1
    rw [hst] at hmem
    exact absurd hmem (by decide)
  · have hrun := runSeq_of_applySeq _ this db m db1 hseq
    have := runSeq_status (ops.map (fun o => (o.1, MessageOp.flag o.2.1 o.2.2))) (this, db)
    rw [hrun] at this
    exact this

/-- Witness of claim C18 (amended): the message M1 flagged by five users. -/
theorem C18_flag_keeps_last_flag_only_witness :
    helloMessage.validate = true ∧
    (∃ (m : Message) (db1 : Store),
      MessageOp.applySeq
          (([(6, 1, "spam"), (7, 2, "harassment"), (8, 3, "other"), (9, 4, "spam"),
             (10, 5, "inappropriate")] : List (Date × ObjectId × String)).map
            (fun o => (o.1, MessageOp.flag o.2.1 o.2.2))) helloMessage storeM1
        = .ok (m, db1) ∧
      m.flags = (match ([(6, 1, "spam"), (7, 2, "harassment"), (8, 3, "other"), (9, 4, "spam"),
             (10, 5, "inappropriate")] : List (Date × ObjectId × String)).getLast? with
        | some o => { helloMessage.flags with
            isFlagged := true, flaggedAt := some o.1, flaggedBy := some o.2.1,
            flagReason := some o.2.2 }
        | none => helloMessage.flags) ∧
      m.status ≠ "flagged" ∧
      (m.status = helloMessage.status ∨ (helloMessage.status = "delivered" ∧ m.status = "read")) ∧
      (storeM1.findMessage helloMessage._id = some helloMessage →
        db1.findMessage helloMessage._id = some m)) :=
  ⟨by decide,
    C18_flag_keeps_last_flag_only helloMessage storeM1
      [(6, 1, "spam"), (7, 2, "harassment"), (8, 3, "other"), (9, 4, "spam"),
        (10, 5, "inappropriate")] (by decide) (by decide)⟩
/-! ## Lemmas: membership changes -/

theorem readStatus_count (rs : List ReadStatus) (ps : List ObjectId) (u : ObjectId)
    (hmap : rs.map (fun r => r.user) = ps) (hnd : ps.Nodup) :
    (rs.filter (fun r => r.user == u)).length = if u ∈ ps then 1 else 0 := by
  have h1 : (rs.filter (fun r => r.user == u)).length = ps.count u := by
    rw [← hmap]
    clear hmap
    induction rs with
    | nil => rfl
    | cons r rest ih =>
        rw [List.filter_cons, List.map_cons, List.count_cons]
        by_cases h : r.user = u
        · simp [h, ih]
        · have h2 : (r.user == u) = false := by simpa using h
          simp [h2, ih]
  rw [h1, List.count_eq_of_nodup hnd]

theorem readStatus_remove (rs : List ReadStatus) (ps : List ObjectId) (u : ObjectId)
    (hmap : rs.map (fun r => r.user) = ps) (hnd : ps.Nodup) :
    (rs.filter (fun r => r.user != u)).map (fun r => r.user) = ps.erase u := by
  rw [hnd.erase_eq_filter, ← hmap, List.filter_map]
  rfl

/-- One membership change on the stored document: it resolves, keeps the
read-status entries in step with the participants, and the stored document is
the resulting one. -/
theorem participantOp_ok (op : ParticipantOp) (now : Date) (c : Conversation) (db : Store)
    (hmap : c.readStatus.map (fun r => r.user) = c.participants) (hnd : c.participants.Nodup)
    (hst : db.findById c._id = some c) :
    ∃ (c1 : Conversation) (db1 : Store), op.apply now c db = .ok (c1, db1) ∧
      c1.readStatus.map (fun r => r.user) = c1.participants ∧ c1.participants.Nodup ∧
      c1._id = c._id ∧ db1.findById c._id = some c1 ∧
      c1.participants = (match op with
        | .add u => if c.participants.contains u then c.participants else c.participants ++ [u]
        | .remove u => c.participants.erase u) := by
  cases op with
  | add u =>
      by_cases hu : u ∈ c.participants
      · have hc : c.participants.contains u = true := by simpa using hu
        refine ⟨c, db, ?_, hmap, hnd, rfl, hst, ?_⟩
        · simp [ParticipantOp.apply, Conversation.addParticipant, hu]
        · simp [hu]
      · have hc : c.participants.contains u = false := by simpa using hu
        have hcall := save_ok ({ c with
            participants := c.participants ++ [u],
            readStatus := c.readStatus ++ [{ user := u, lastReadAt := now, unreadCount := 0 }] }
            : Conversation) [.participants, .readStatus] now db rfl
        have happly : (ParticipantOp.add u).apply now c db = ({ c with
            participants := c.participants ++ [u],
            readStatus := c.readStatus ++ [{ user := u, lastReadAt := now, unreadCount := 0 }] }
            : Conversation).save [.participants, .readStatus] now db := by
          simp only [ParticipantOp.apply, Conversation.addParticipant, hc, Bool.not_false,
            if_true]
        refine ⟨_, _, happly.trans hcall, ?_, ?_, rfl, ?_, ?_⟩
        · simp only [List.map_append, List.map_cons, List.map_nil, hmap]
        · simp only
          rw [List.nodup_append]
          refine ⟨hnd, by simp, ?_⟩
          intro a ha hb
          rw [List.mem_singleton] at hb
          subst hb
          exact hu ha
        · rw [findById_updateConversation _ _ _ _ (by intro x; rfl)]
          simp only [if_true]
          rw [hst]
          rfl
        · simp [hu]
  | remove u =>
      by_cases hu : u ∈ c.participants
      · have hc : c.participants.contains u = true := by simpa using hu
        have hcall := save_ok ({ c with
            participants := c.participants.erase u,
            readStatus := c.readStatus.filter (fun rs => rs.user != u) }
            : Conversation) [.participants, .readStatus] now db rfl
        have happly : (ParticipantOp.remove u).apply now c db = ({ c with
            participants := c.participants.erase u,
            readStatus := c.readStatus.filter (fun rs => rs.user != u) }
            : Conversation).save [.participants, .readStatus] now db := by
          simp only [ParticipantOp.apply, Conversation.removeParticipant, hc, if_true]
        refine ⟨_, _, happly.trans hcall, ?_, ?_, rfl, ?_, rfl⟩
        · exact readStatus_remove c.readStatus c.participants u hmap hnd
        · exact hnd.erase u
        · rw [findById_updateConversation _ _ _ _ (by intro x; rfl)]
          simp only [if_true]
          rw [hst]
          rfl
      · have hc : c.participants.contains u = false := by simpa using hu
        refine ⟨c, db, ?_, hmap, hnd, rfl, hst, ?_⟩
        · simp [ParticipantOp.apply, Conversation.removeParticipant, hu]
        · exact (List.erase_of_not_mem hu).symm

theorem participantSeq_ok (ops : List (Date × ParticipantOp)) (c : Conversation) (db : Store)
    (hmap : c.readStatus.map (fun r => r.user) = c.participants) (hnd : c.participants.Nodup)
    (hst : db.findById c._id = some c) :
    ∃ (c1 : Conversation) (db1 : Store), ParticipantOp.applySeq ops c db = .ok (c1, db1) ∧
      c1.readStatus.map (fun r => r.user) = c1.participants ∧ c1.participants.Nodup ∧
      c1._id = c._id ∧ db1.findById c._id = some c1 ∧
      c1.participants = ops.foldl (fun ps op =>
        match op.2 with
        | .add u => if ps.contains u then ps else ps ++ [u]
        | .remove u => ps.erase u) c.participants := by
  induction ops generalizing c db with
  | nil => exact ⟨c, db, rfl, hmap, hnd, rfl, hst, rfl⟩
  | cons op rest ih =>
      obtain ⟨t, o⟩ := op
      obtain ⟨c1, db1, hcall, hmap1, hnd1, hid1, hst1, hp1⟩ := participantOp_ok o t c db hmap hnd hst
      obtain ⟨c2, db2, hseq, hmap2, hnd2, hid2, hst2, hp2⟩ :=
        ih c1 db1 hmap1 hnd1 (by rw [hid1]; exact hst1)
      refine ⟨c2, db2, ?_, hmap2, hnd2, hid2.trans hid1, by rw [← hid1]; exact hst2, ?_⟩
      · simp only [ParticipantOp.applySeq, hcall]
        exact hseq
      · rw [hp2, hp1, List.foldl_cons]

theorem createConversation_ok (db : Store) (newId : ObjectId) (now : Date)
    (fields : ConversationFields) (c0 : Conversation) (db0 : Store)
    (h : db.createConversation newId now fields = .ok (c0, db0)) :
    fields.validate = true ∧ (∀ c ∈ db.conversations, c._id ≠ newId) ∧
    c0 = Conversation.new newId now fields ∧
    db0 = { db with conversations := db.conversations ++ [Conversation.new newId now fields] } ∧
    db0.findById newId = some c0 := by
  unfold Store.createConversation at h
  cases hv : fields.validate
  · simp [hv] at h
  · cases hany : db.conversations.any (fun c => c._id == newId)
    · simp only [hv, hany, Bool.not_true, Bool.false_eq_true, if_false, Except.ok.injEq,
        Prod.mk.injEq] at h
      obtain ⟨h1, h2⟩ := h
      have hfresh : ∀ c ∈ db.conversations, c._id ≠ newId := by
        intro c hc heq
        have : db.conversations.any (fun c => c._id == newId) = true :=
          List.any_eq_true.mpr ⟨c, hc, by simpa using heq⟩
        rw [hany] at this
        exact Bool.noConfusion this
      refine ⟨rfl, hfresh, h1.symm, h2.symm, ?_⟩
      rw [← h2, ← h1]
      unfold Store.findById
      simp only
      rw [List.find?_append]
      have hnone : db.conversations.find? (fun c => c._id == newId) = none := by
        rw [List.find?_eq_none]
        intro c hc
        simpa using hfresh c hc
      rw [hnone]
      simp [List.find?_cons, Conversation.new]
    · simp [hv, hany] at h

/-! ## Claim C19 -/

/-- Claim C19: for every conversation created (first saved) with distinct
participants and then changed by any sequence of `addParticipant` and
`removeParticipant` calls, every call resolves and afterwards the users of the
read-status entries are exactly the current participants, in the same order and
without duplicates: `readStatus` holds exactly one entry for each current
participant and none for any other user.  The current participants are those
the calls leave (a user is appended unless present, a removed user is erased),
and the stored conversation is the resulting document. -/
theorem C19_readStatus_matches_participants (db : Store) (newId : ObjectId) (now : Date)
    (fields : ConversationFields) (ops : List (Date × ParticipantOp)) (c0 : Conversation)
    (db0 : Store) (hcreate : db.createConversation newId now fields = .ok (c0, db0))
    (hnd : fields.participants.Nodup) :
    ∃ (c : Conversation) (db1 : Store), ParticipantOp.applySeq ops c0 db0 = .ok (c, db1) ∧
      c.readStatus.map (fun r => r.user) = c.participants ∧ c.participants.Nodup ∧
      (∀ u : ObjectId,
        (c.readStatus.filter (fun r => r.user == u)).length = if u ∈ c.participants then 1 else 0) ∧
      c.participants = ops.foldl (fun ps op =>
        match op.2 with
        | .add u => if ps.contains u then ps else ps ++ [u]
        | .remove u => ps.erase u) fields.participants ∧
      db1.findById newId = some c := by
  obtain ⟨-, -, hc0, -, hst0⟩ := createConversation_ok db newId now fields c0 db0 hcreate
  have hid0 : c0._id = newId := by rw [hc0]; rfl
  have hp0 : c0.participants = fields.participants := by rw [hc0]; rfl
  have hmap0 : c0.readStatus.map (fun r => r.user) = c0.participants := by
    rw [hc0]
    simp only [Conversation.new, List.map_map]
    exact List.map_id _
  obtain ⟨c, db1, hseq, hmap, hnd1, -, hst, hp⟩ :=
    participantSeq_ok ops c0 db0 hmap0 (by rw [hp0]; exact hnd) (by rw [hid0]; exact hst0)
  refine ⟨c, db1, hseq, hmap, hnd1, ?_, ?_, ?_⟩
  · intro u
    exact readStatus_count c.readStatus c.participants u hmap hnd1
  · rw [hp, hp0]
  · rw [← hid0]; exact hst

/-- Witness of claim C19: a conversation of A and B; the outsider is added, B
is removed, A is added again (no change) and the outsider is removed. -/
theorem C19_readStatus_matches_participants_witness :
    (({} : Store).createConversation 1 0 { participants := [userA, userB] }
      = .ok (Conversation.new 1 0 { participants := [userA, userB] },
          { conversations := [Conversation.new 1 0 { participants := [userA, userB] }] })) ∧
    [userA, userB].Nodup ∧
    (∃ (c : Conversation) (db1 : Store),
      ParticipantOp.applySeq
          [(1, .add outsider), (2, .remove userB), (3, .add userA), (4, .remove outsider)]
          (Conversation.new 1 0 { participants := [userA, userB] })
          { conversations := [Conversation.new 1 0 { participants := [userA, userB] }] }
        = .ok (c, db1) ∧
      c.readStatus.map (fun r => r.user) = c.participants ∧ c.participants.Nodup ∧
      (∀ u : ObjectId,
        (c.readStatus.filter (fun r => r.user == u)).length = if u ∈ c.participants then 1 else 0) ∧
      c.participants = [userA] ∧
      db1.findById 1 = some c) :=
  ⟨rfl, by decide,
    C19_readStatus_matches_participants {} 1 0 { participants := [userA, userB] }
      [(1, .add outsider), (2, .remove userB), (3, .add userA), (4, .remove outsider)]
      _ _ rfl (by decide)⟩
/-! ## Claim C20 -/

/-- The query of `findBetweenUsers` holds for the conversation `create` makes
for the pair. -/
theorem new_matches_query (newId : ObjectId) (now : Date) (a b : ObjectId)
    (options : CreateOptions) :
    ((Conversation.new newId now (options.fields [a, b])).participants.contains a &&
      (Conversation.new newId now (options.fields [a, b])).participants.contains b &&
      (Conversation.new newId now (options.fields [a, b])).status == "active" &&
      (match options.orderId with
       | none => true
       | some o => (Conversation.new newId now (options.fields [a, b])).order == some o)) = true := by
  have h1 : ([a, b] : List ObjectId).contains a = true := by simp
  have h2 : ([a, b] : List ObjectId).contains b = true := by simp
  cases ho : options.orderId with
  | none =>
      simp only [Conversation.new, CreateOptions.fields, h1, h2, Bool.and_self, Bool.and_true]
      decide
  | some o =>
      simp only [Conversation.new, CreateOptions.fields, h1, h2, ho, Bool.and_self, Bool.and_true,
        beq_self_eq_true]

/-- Claim C20: for every pair of participants `[a, b]`, every options object
that passes the schema validators (an optional `orderId` alone always does) and
every store, with a generated `_id` that is not in use: `createOrGet` resolves
to a conversation `c`, a second call with identical arguments on the resulting
store resolves to the same conversation and changes nothing, so that the two
calls create at most one conversation; `c` is stored, is active, contains both
participants and, when an `orderId` is given, has that order. -/
theorem C20_createOrGet_idempotent (db : Store) (newId newId2 : ObjectId) (now now2 : Date)
    (a b : ObjectId) (options : CreateOptions)
    (hvalid : (options.fields [a, b]).validate = true)
    (hfresh : ∀ c ∈ db.conversations, c._id ≠ newId) :
    ∃ (c : Conversation) (db1 : Store),
      db.createOrGet newId now [a, b] options = .ok (c, db1) ∧
      db1.createOrGet newId2 now2 [a, b] options = .ok (c, db1) ∧
      (db1 = db ∨ db1.conversations = db.conversations ++ [c]) ∧
      db1.conversations.length ≤ db.conversations.length + 1 ∧
      db1.messages = db.messages ∧
      c ∈ db1.conversations ∧
      c.status = "active" ∧ a ∈ c.participants ∧ b ∈ c.participants ∧
      (∀ o : ObjectId, options.orderId = some o → c.order = some o) := by
  have hq : ∀ (d : Store), d.findBetweenUsers ([a, b] : List ObjectId)[0]? ([a, b] : List ObjectId)[1]?
      options.orderId = d.conversations.find? (fun c =>
        c.participants.contains a && c.participants.contains b && c.status == "active" &&
        (match options.orderId with
         | none => true
         | some o => c.order == some o)) := fun d => rfl
  cases hfind : db.conversations.find? (fun c =>
        c.participants.contains a && c.participants.contains b && c.status == "active" &&
        (match options.orderId with
         | none => true
         | some o => c.order == some o)) with
  | some c =>
      have hcall : ∀ (n : ObjectId) (t : Date), db.createOrGet n t [a, b] options = .ok (c, db) := by
        intro n t
        unfold Store.createOrGet
        rw [hq db, hfind]
      have hp := List.find?_some hfind
      simp only [Bool.and_eq_true, beq_iff_eq] at hp
      obtain ⟨⟨⟨ha, hb⟩, hs⟩, ho⟩ := hp
      refine ⟨c, db, hcall newId now, hcall newId2 now2, Or.inl rfl, Nat.le_succ _, rfl,
        List.mem_of_find?_eq_some hfind, hs, by simpa using ha, by simpa using hb, ?_⟩
      intro o hoo
      rw [hoo] at ho
      simpa using ho
  | none =>
      have hany : db.conversations.any (fun c => c._id == newId) = false := by
        rw [List.any_eq_false]
        intro c hc
        simpa using hfresh c hc
      have hcall : db.createOrGet newId now [a, b] options
          = .ok (Conversation.new newId now (options.fields [a, b]),
              { db with conversations :=
                db.conversations ++ [Conversation.new newId now (options.fields [a, b])] }) := by
        unfold Store.createOrGet
        rw [hq db, hfind]
        simp only [Store.createConversation, hvalid, hany, Bool.not_true, Bool.false_eq_true,
          if_false]
      have hcall2 : ({ db with conversations :=
            db.conversations ++ [Conversation.new newId now (options.fields [a, b])] }
            : Store).createOrGet newId2 now2 [a, b] options
          = .ok (Conversation.new newId now (options.fields [a, b]),
              { db with conversations :=
                db.conversations ++ [Conversation.new newId now (options.fields [a, b])] }) := by
        unfold Store.createOrGet
        rw [hq]
        simp only
        rw [List.find?_append, hfind, List.find?_cons, new_matches_query newId now a b options]
        rfl
      refine ⟨_, _, hcall, hcall2, Or.inr rfl, ?_, rfl, ?_, rfl, ?_, ?_, ?_⟩
      · simp
      · simp
      · simp [Conversation.new, CreateOptions.fields]
      · simp [Conversation.new, CreateOptions.fields]
      · intro o ho
        simp only [Conversation.new, CreateOptions.fields]
        exact ho

/-- Witness of claim C20: the pair A, B with order 7 on the empty store. -/
theorem C20_createOrGet_idempotent_witness :
    (({ orderId := some 7 } : CreateOptions).fields [userA, userB]).validate = true ∧
    (∀ c ∈ ({} : Store).conversations, c._id ≠ 1) ∧
    (∃ (c : Conversation) (db1 : Store),
      ({} : Store).createOrGet 1 0 [userA, userB] { orderId := some 7 } = .ok (c, db1) ∧
      db1.createOrGet 2 5 [userA, userB] { orderId := some 7 } = .ok (c, db1) ∧
      (db1 = {} ∨ db1.conversations = ({} : Store).conversations ++ [c]) ∧
      db1.conversations.length ≤ ({} : Store).conversations.length + 1 ∧
      db1.messages = ({} : Store).messages ∧
      c ∈ db1.conversations ∧
      c.status = "active" ∧ userA ∈ c.participants ∧ userB ∈ c.participants ∧
      (∀ o : ObjectId, ({ orderId := some 7 } : CreateOptions).orderId = some o →
        c.order = some o)) :=
  ⟨by decide, by decide,
    C20_createOrGet_idempotent {} 1 2 0 5 userA userB { orderId := some 7 } (by decide)
      (by decide)⟩

/-! ## Lemmas: the payment facet -/

/-- A resolved call leaves the payment facet of the document as it was. -/
theorem apply_paymentData (op : MessageOp) (now : Date) (this : Message) (db : Store)
    (m1 : Message) (db1 : Store) (h : op.apply now this db = .ok (m1, db1)) :
    m1.paymentData = this.paymentData := by
  have key : ∀ (m : Message), m.save false now db = .ok (m1, db1) →
      m.paymentData = this.paymentData → m1.paymentData = this.paymentData := by
    intro m hs hm
    obtain ⟨-, rfl⟩ := save_resolves m false now db m1 db1 hs
    exact ((toStore_fields m false now).2.2.2.2.2.2.2).trans hm
  cases op with
  | save => exact key this h rfl
  | markAsRead userId =>
      simp only [MessageOp.apply, Message.markAsRead] at h
      split at h
      · exact key _ h (by split <;> rfl)
      · simp only [Except.ok.injEq, Prod.mk.injEq] at h
        rw [← h.1]
  | addReaction userId emoji =>
      simp only [MessageOp.apply, Message.addReaction] at h
      exact key _ h rfl
  | removeReaction userId =>
      simp only [MessageOp.apply, Message.removeReaction] at h
      exact key _ h rfl
  | editContent newContent =>
      simp only [MessageOp.apply, Message.editContent] at h
      exact key _ h rfl
  | softDelete deletedBy =>
      simp only [MessageOp.apply, Message.softDelete] at h
      exact key _ h rfl
  | flag flaggedBy reason =>
      simp only [MessageOp.apply, Message.flag] at h
      exact key _ h rfl

theorem run_paymentData (op : MessageOp) (now : Date) (state : Message × Store) :
    (op.run now state).1.paymentData = state.1.paymentData := by
  unfold MessageOp.run
  cases h : op.apply now state.1 state.2 with
  | error e => rfl
  | ok r =>
      obtain ⟨m1, db1⟩ := r
      exact apply_paymentData op now state.1 state.2 m1 db1 h

theorem runSeq_paymentData (ops : List (Date × MessageOp)) (state : Message × Store) :
    (MessageOp.runSeq ops state).1.paymentData = state.1.paymentData := by
  induction ops generalizing state with
  | nil => rfl
  | cons op ops ih =>
      have h2 := ih (op.2.run op.1 state)
      simp only [MessageOp.runSeq, List.foldl_cons] at h2 ⊢
      exact h2.trans (run_paymentData op.2 op.1 state)

/-- A text whose first character is not white space is not trimmed to the
empty string. -/
theorem jsTrim_ne_empty (s : String) (c : Char) (cs : List Char) (hs : s.data = c :: cs)
    (hc : isJsWhitespace c = false) : jsTrim s ≠ "" := by
  intro h
  have h1 : trimChars s.data = [] := by
    have := congrArg String.data h
    simpa [jsTrim] using this
  have e : trimChars s.data = (s.data.dropWhile isJsWhitespace).rdropWhile isJsWhitespace := rfl
  rw [e, hs, List.dropWhile_cons_of_neg (by simp [hc]), List.rdropWhile_eq_nil_iff] at h1
  have := h1 c (List.mem_cons_self _ _)
  rw [hc] at this
  exact Bool.noConfusion this

/-- The message document `sendPaymentRequest` builds. -/
theorem sendPaymentRequest_some (env : Env) (req : PaymentRequest) (db : Store)
    (c : Conversation) (hfind : db.findOne req.conversationId req.userId = some c) :
    ∃ message : Message,
      sendPaymentRequest env req db =
        persistAndNotify env c message "Failed to send payment request" [] db ∧
      message._id = env.newId ∧ message.conversation = req.conversationId ∧
      message.sender = some req.userId ∧ message.type = "payment_request" ∧
      message.content = jsTrim ("Payment request for $" ++ req.amountText ++ " " ++
        jsToUpperCase (req.currency.getD "usd")) ∧
      message.paymentData = some
        { amount := req.amount,
          currency := req.currency.getD "usd",
          description := req.description.map jsTrim,
          status := some "pending" } ∧
      message.attachments = [] ∧ message.status = "sent" ∧ message.reactions = [] ∧
      message.flags = {} := by
  refine ⟨(
    { _id := env.newId,
      conversation := req.conversationId,
      sender := some req.userId,
      type := "payment_request",
      content :=
        jsTrim ("Payment request for $" ++ req.amountText ++ " " ++
          jsToUpperCase (req.currency.getD "usd")),
      paymentData := some
        { amount := req.amount,
          currency := req.currency.getD "usd",
          description := req.description.map jsTrim,
          status := some "pending" } } : Message),
    ?_, rfl, rfl, rfl, rfl, rfl, rfl, rfl, rfl, rfl, rfl⟩
  unfold sendPaymentRequest
  rw [hfind]

/-- A send of a message whose type the conversation snapshot does not admit
stores the message or nothing. -/
theorem persistAndNotify_badType_messages (env : Env) (conversation : Conversation)
    (message : Message) (failure : String) (uploaded : List String) (db : Store)
    (ht : message.type ∉ lastMessageTypeEnum) :
    (message.validate = false ∧
      (persistAndNotify env conversation message failure uploaded db).db = db) ∨
    (message.validate = true ∧
      (persistAndNotify env conversation message failure uploaded db).db
        = { db with messages := db.messages ++ [message.toStore true env.now] }) := by
  cases hv : message.validate with
  | false =>
      left
      rw [persistAndNotify_invalid _ _ _ _ _ _ hv]
      exact ⟨rfl, rfl⟩
  | true =>
      right
      rw [persistAndNotify_badType _ _ _ _ _ _ hv ht]
      exact ⟨rfl, rfl⟩

/-- What `sendPaymentRequest` adds to the stored messages: nothing, or one
message of type `payment_request` whose payment status is `pending`. -/
theorem sendPaymentRequest_messages (env : Env) (req : PaymentRequest) (db : Store) :
    (sendPaymentRequest env req db).db.messages = db.messages ∨
    ∃ m : Message, (sendPaymentRequest env req db).db.messages = db.messages ++ [m] ∧
      m._id = env.newId ∧ m.conversation = req.conversationId ∧ m.type = "payment_request" ∧
      m.paymentData.bind (fun p => p.status) = some "pending" := by
  cases hfind : db.findOne req.conversationId req.userId with
  | none =>
      left
      unfold sendPaymentRequest
      rw [hfind]
  | some c =>
      obtain ⟨message, hsend, hid, hconv, -, htype, -, hpay, -⟩ :=
        sendPaymentRequest_some env req db c hfind
      rw [hsend]
      have ht : message.type ∉ lastMessageTypeEnum := by rw [htype]; decide
      rcases persistAndNotify_badType_messages env c message "Failed to send payment request" []
        db ht with ⟨-, h⟩ | ⟨-, h⟩
      · left
        rw [h]
      · right
        rw [h]
        refine ⟨_, rfl, ?_, ?_, ?_, ?_⟩
        · exact ((toStore_fields _ true env.now).1).trans hid
        · exact ((toStore_fields _ true env.now).2.1).trans hconv
        · exact ((toStore_fields _ true env.now).2.2.2.1).trans htype
        · rw [(toStore_fields _ true env.now).2.2.2.2.2.2.2, hpay]
          rfl

/-- The payment-request document is schema-valid when the amount is a number
and the printed content has at most 1000 code units. -/
theorem paymentMessage_valid (message : Message) (u : ObjectId) (p : PaymentData) (a : Int)
    (hs : message.sender = some u) (ht : message.type = "payment_request")
    (hne : message.content ≠ "") (hlen : jsLength message.content ≤ 1000)
    (hatt : message.attachments = []) (hst : message.status = "sent")
    (hre : message.reactions = []) (hpay : message.paymentData = some p)
    (hamount : p.amount = some a) (hps : p.status = some "pending")
    (hfl : message.flags = {}) : message.validate = true := by
  unfold Message.validate
  rw [hs, ht, hatt, hst, hre, hpay, hfl]
  simp only [hamount, hps]
  have h1 : (message.content != "") = true := by simpa using hne
  have h2 : decide (jsLength message.content ≤ 1000) = true := by simpa using hlen
  rw [h1, h2]
  rfl

/-! ## Claim C21 -/

/-- Claim C21: whatever `sendPaymentRequest` adds to the stored messages is one
message of type `payment_request` with `paymentData.status` equal to `pending`,
and it does add one when the sender is a participant, the amount is a number
and the printed content has at most 1000 code units.  No sequence of message
operations (save, markAsRead, addReaction, removeReaction, editContent,
softDelete, flag) changes `paymentData` of any message: the status of the
created message stays `pending` and never becomes `succeeded`, in the document
and in the stored message. -/
theorem C21_payment_status_stays_pending (env : Env) (req : PaymentRequest) (db : Store)
    (ops : List (Date × MessageOp)) (c : Conversation) (a : Int)
    (hfind : db.findOne req.conversationId req.userId = some c) (hamount : req.amount = some a)
    (hlen : jsLength (jsTrim ("Payment request for $" ++ req.amountText ++ " " ++
      jsToUpperCase (req.currency.getD "usd"))) ≤ 1000) :
    (∃ m : Message, (sendPaymentRequest env req db).db.messages = db.messages ++ [m] ∧
      m._id = env.newId ∧ m.type = "payment_request" ∧
      m.paymentData.bind (fun p => p.status) = some "pending" ∧
      (∀ d : Store,
        (MessageOp.runSeq ops (m, d)).1.paymentData.bind (fun p => p.status) = some "pending" ∧
        (MessageOp.runSeq ops (m, d)).1.paymentData.bind (fun p => p.status)
          ≠ some "succeeded") ∧
      (∀ (d d1 : Store) (m1 : Message), MessageOp.applySeq ops m d = .ok (m1, d1) →
        d.findMessage m._id = some m →
        (d1.findMessage m._id).bind (fun s => s.paymentData.bind (fun p => p.status))
          = some "pending")) ∧
    (∀ (env2 : Env) (req2 : PaymentRequest) (db2 : Store),
      ∀ x ∈ (sendPaymentRequest env2 req2 db2).db.messages,
        x ∈ db2.messages ∨
          (x.type = "payment_request" ∧
            x.paymentData.bind (fun p => p.status) = some "pending")) ∧
    (∀ (this : Message) (d : Store),
      (MessageOp.runSeq ops (this, d)).1.paymentData = this.paymentData) := by
  refine ⟨?_, ?_, fun this d => runSeq_paymentData ops (this, d)⟩
  · obtain ⟨message, hsend, hid, -, hs, htype, hcontent, hpay, hatt, hst, hre, hfl⟩ :=
      sendPaymentRequest_some env req db c hfind
    have hdata : ∀ (x y : String), ("Payment request for $" ++ x ++ " " ++ y).data
        = ('P') :: ("ayment request for $".data ++ x.data ++ " ".data ++ y.data) := by
      intro x y
      simp only [String.data_append]
      rfl
    have hne : message.content ≠ "" := by
      rw [hcontent]
      exact jsTrim_ne_empty
        ("Payment request for $" ++ req.amountText ++ " " ++
          jsToUpperCase (req.currency.getD "usd"))
        ('P') ("ayment request for $".data ++ req.amountText.data ++ " ".data ++
          (jsToUpperCase (req.currency.getD "usd")).data)
        (hdata _ _) (by decide)
    have hv : message.validate = true :=
      paymentMessage_valid message req.userId _ a hs htype hne (by rw [hcontent]; exact hlen)
        hatt hst hre hpay hamount rfl hfl
    have ht : message.type ∉ lastMessageTypeEnum := by rw [htype]; decide
    have hstat : (message.toStore true env.now).paymentData.bind (fun p => p.status)
        = some "pending" := by
      rw [(toStore_fields _ true env.now).2.2.2.2.2.2.2, hpay]
      rfl
    refine ⟨message.toStore true env.now, ?_, ?_, ?_, hstat, ?_, ?_⟩
    · rw [hsend, persistAndNotify_badType _ _ _ _ _ _ hv ht]
    · exact ((toStore_fields _ true env.now).1).trans hid
    · exact ((toStore_fields _ true env.now).2.2.2.1).trans htype
    · intro d
      have := runSeq_paymentData ops (message.toStore true env.now, d)
      simp only at this
      rw [this, hstat]
      exact ⟨rfl, by decide⟩
    · intro d d1 m1 hseq hstored
      obtain ⟨-, hst1⟩ := applySeq_stored ops _ d m1 d1 hseq hstored
      have hrun := runSeq_of_applySeq ops _ d m1 d1 hseq
      have := runSeq_paymentData ops (message.toStore true env.now, d)
      rw [hrun] at this
      simp only at this
      rw [hst1]
      simp only [Option.bind]
      rw [this]
      exact hstat
  · intro env2 req2 db2 x hx
    rcases sendPaymentRequest_messages env2 req2 db2 with h | ⟨m, h, -, -, htype, hp⟩
    · left
      rw [h] at hx
      exact hx
    · rw [h, List.mem_append, List.mem_singleton] at hx
      rcases hx with hx | hx
      · exact Or.inl hx
      · right
        rw [hx]
        exact ⟨htype, hp⟩

/-- Witness of claim C21: scenario 4, the payment request of 25.00 for "Logo
design", then read by B, reacted to, edited, flagged and soft-deleted. -/
theorem C21_payment_status_stays_pending_witness :
    storeC1.findOne logoPaymentRequest.conversationId logoPaymentRequest.userId
      = some conversationC1 ∧
    logoPaymentRequest.amount = some 2500 ∧
    (∃ m : Message,
      (sendPaymentRequest (envAt 5) logoPaymentRequest storeC1).db.messages
        = storeC1.messages ++ [m] ∧
      m._id = (envAt 5).newId ∧ m.type = "payment_request" ∧
      m.paymentData.bind (fun p => p.status) = some "pending" ∧
      (∀ d : Store,
        (MessageOp.runSeq
          [(6, .markAsRead userB), (7, .addReaction userB emojiOne), (8, .editContent "Pay me"),
           (9, .flag userB "spam"), (10, .softDelete userA)] (m, d)).1.paymentData.bind
            (fun p => p.status) = some "pending" ∧
        (MessageOp.runSeq
          [(6, .markAsRead userB), (7, .addReaction userB emojiOne), (8, .editContent "Pay me"),
           (9, .flag userB "spam"), (10, .softDelete userA)] (m, d)).1.paymentData.bind
            (fun p => p.status) ≠ some "succeeded")) :=
  have h := C21_payment_status_stays_pending (envAt 5) logoPaymentRequest storeC1
    [(6, .markAsRead userB), (7, .addReaction userB emojiOne), (8, .editContent "Pay me"),
     (9, .flag userB "spam"), (10, .softDelete userA)] conversationC1 2500 (by decide) rfl
    (by decide)
  ⟨by decide, rfl,
    h.1.elim (fun m hm => ⟨m, hm.1, hm.2.1, hm.2.2.1, hm.2.2.2.1, hm.2.2.2.2.1⟩)⟩

/-! ## Claim C22 -/

/-- Claim C22, counterexample: A sends into C1 an image of 50 MB and one byte.
The request fails, but with status 400 and the message of the error handler,
not with 413, in development and in production alike. -/
theorem C22_oversize_upload_is_400 :
    oversizeImage.size > fileSizeLimit ∧
    (postFiles true (envAt 5) (some oversizeImage) fileRequestA storeC1).response.status = 400 ∧
    (postFiles false (envAt 5) (some oversizeImage) fileRequestA storeC1).response.status = 400 ∧
    (postVoice false (envAt 5) (some oversizeImage) fileRequestA storeC1).response
      = { status := 400, success := false,
          message := some "File too large. Maximum size is 5MB." } ∧
    (postFiles false (envAt 5) (some oversizeImage) fileRequestA storeC1).response.status
      ≠ 413 := by
  decide

/-- Claim C22, amended: a file or voice send whose file part has more bytes than
the size cap of 50 MB fails before the handler is called: the answer is 400
when the mime type is on the allow-list (500 when it is not, the type being
refused first), no storage upload is made, no real-time event is emitted and
the store is unchanged, so no message is created and `totalMessages` of every
conversation is what it was. -/
theorem C22_oversize_upload_changes_nothing (development : Bool) (env : Env)
    (file : UploadedFile) (req : FileRequest) (db : Store)
    (hsize : file.size > fileSizeLimit) :
    (∀ route ∈ [postFiles, postVoice],
      (route development env (some file) req db).response.status
        = (if allowedTypes.contains file.mimetype then 400 else 500) ∧
      (route development env (some file) req db).response.success = false ∧
      (route development env (some file) req db).response.data = none ∧
      (route development env (some file) req db).uploaded = [] ∧
      (route development env (some file) req db).emitted = [] ∧
      (route development env (some file) req db).db = db ∧
      (∀ id : ObjectId,
        (route development env (some file) req db).db.totalMessages id = db.totalMessages id)) ∧
    (allowedTypes.contains file.mimetype = true →
      upload.single (some file) = .error
        { name := "MulterError", message := "File too large", code := some "LIMIT_FILE_SIZE" }) := by
  have hmw : upload.single (some file) =
      (if allowedTypes.contains file.mimetype then
        .error { name := "MulterError", message := "File too large",
                 code := some "LIMIT_FILE_SIZE" }
      else .error { message := "File type not supported" }) := by
    unfold upload.single
    cases h : allowedTypes.contains file.mimetype
    · simp only [h, Bool.not_false, if_true]
      rfl
    · simp only [h, Bool.not_true, Bool.false_eq_true, if_false, if_pos hsize]
      rfl
  refine ⟨?_, ?_⟩
  · intro route hroute
    simp only [List.mem_cons, List.mem_singleton, List.not_mem_nil, or_false] at hroute
    rcases hroute with rfl | rfl
    · unfold postFiles
      rw [hmw]
      cases h : allowedTypes.contains file.mimetype <;> cases development <;>
        simp <;> decide
    · unfold postVoice
      rw [hmw]
      cases h : allowedTypes.contains file.mimetype <;> cases development <;>
        simp <;> decide
  · intro h
    rw [hmw, h]
    rfl

/-- Witness of claim C22 (amended): the oversize image of A. -/
theorem C22_oversize_upload_changes_nothing_witness :
    oversizeImage.size > fileSizeLimit ∧
    (∀ route ∈ [postFiles, postVoice],
      (route false (envAt 5) (some oversizeImage) fileRequestA storeC1).response.status
        = (if allowedTypes.contains oversizeImage.mimetype then 400 else 500) ∧
      (route false (envAt 5) (some oversizeImage) fileRequestA storeC1).response.success = false ∧
      (route false (envAt 5) (some oversizeImage) fileRequestA storeC1).response.data = none ∧
      (route false (envAt 5) (some oversizeImage) fileRequestA storeC1).uploaded = [] ∧
      (route false (envAt 5) (some oversizeImage) fileRequestA storeC1).emitted = [] ∧
      (route false (envAt 5) (some oversizeImage) fileRequestA storeC1).db = storeC1 ∧
      (∀ id : ObjectId,
        (route false (envAt 5) (some oversizeImage) fileRequestA storeC1).db.totalMessages id
          = storeC1.totalMessages id)) :=
  ⟨by decide,
    (C22_oversize_upload_changes_nothing false (envAt 5) oversizeImage fileRequestA storeC1
      (by decide)).1⟩

/-! ## Claim C23 -/

set_option maxRecDepth 100000 in
/-- Claim C23, the failing input: A, a participant of C1, sends a text file of
3 bytes with a caption of 1001 characters.  The file passes the upload
middleware and the two checks of the handler, the upload to storage is made
(folder `messages/files`), and only then `save()` rejects the message for its
content: the answer is 500, no message is persisted, the conversation is
unchanged and nothing is emitted, but the storage object has been uploaded. -/
theorem C23_long_caption_uploads_then_fails :
    jsLength longCaption = 1001 ∧
    upload.single (some notesFile) = .ok (some notesFile) ∧
    (postFiles false (envAt 5) (some notesFile) longCaptionRequest storeC1).response.status
      = 500 ∧
    (postFiles false (envAt 5) (some notesFile) longCaptionRequest storeC1).uploaded
      = ["messages/files"] ∧
    (postFiles false (envAt 5) (some notesFile) longCaptionRequest storeC1).db = storeC1 ∧
    (postFiles false (envAt 5) (some notesFile) longCaptionRequest storeC1).emitted = [] := by
  refine ⟨by decide, rfl, ?_, ?_, ?_, ?_⟩ <;> decide

/-- What the common tail of the send handlers adds to the stored messages:
nothing, or the document written by the save. -/
theorem persistAndNotify_messages (env : Env) (conversation : Conversation) (message : Message)
    (failure : String) (uploaded : List String) (db : Store) :
    (persistAndNotify env conversation message failure uploaded db).db.messages = db.messages ∨
    (persistAndNotify env conversation message failure uploaded db).db.messages
      = db.messages ++ [message.toStore true env.now] := by
  cases hv : message.validate with
  | false =>
      left
      rw [persistAndNotify_invalid _ _ _ _ _ _ hv]
  | true =>
      right
      unfold persistAndNotify
      rw [save_new_ok message env.now db hv]
      simp only
      by_cases ht : (message.toStore true env.now).type ∈ lastMessageTypeEnum
      · rw [updateLastMessage_ok _ _ _ _ ht]
        simp only [updateConversation_messages, postSave_messages]
      · rw [updateLastMessage_error _ _ _ _ ht]
        simp only [postSave_messages]

/-- The parts of claim C23 that hold, for both upload handlers: a request
without a file or from a user who is not a participant is answered before any
upload, a failed upload leaves the store unchanged and emits nothing, and a
persisted message carries one attachment whose url is the one the upload
returned. -/
theorem upload_sends_all_or_nothing (env : Env) (req : FileRequest) (db : Store) :
    ∀ handler ∈ [sendFileMessage, sendVoiceMessage],
      (req.file = none → (handler env req db).uploaded = [] ∧ (handler env req db).db = db ∧
        (handler env req db).emitted = [] ∧ (handler env req db).response.status = 400) ∧
      (db.findOne req.conversationId req.userId = none →
        (handler env req db).uploaded = [] ∧ (handler env req db).db = db ∧
        (handler env req db).emitted = []) ∧
      (req.upload = none → (handler env req db).uploaded = [] ∧ (handler env req db).db = db ∧
        (handler env req db).emitted = [] ∧ (handler env req db).response.status ≠ 201) ∧
      ((handler env req db).db.messages = db.messages ∨
        ∃ (m : Message) (r : UploadResult), req.upload = some r ∧
          (handler env req db).db.messages = db.messages ++ [m] ∧
          m.attachments.map (fun a => a.url) = [r.secure_url]) := by
  intro handler hh
  simp only [List.mem_cons, List.mem_singleton, List.not_mem_nil, or_false] at hh
  have hatt : ∀ (m : Message), (m.toStore true env.now).attachments = m.attachments := by
    intro m
    unfold Message.toStore Message.preSave
    simp only [if_true]
    split <;> rfl
  rcases hh with rfl | rfl
  · refine ⟨?_, ?_, ?_, ?_⟩
    · intro hf
      simp [sendFileMessage, hf]
    · intro hc
      unfold sendFileMessage
      cases req.file with
      | none => simp
      | some file => simp [hc]
    · intro hu
      unfold sendFileMessage
      cases req.file with
      | none => simp
      | some file =>
          cases db.findOne req.conversationId req.userId with
          | none => simp [conversationNotFound]
          | some c => simp [hu]
    · unfold sendFileMessage
      cases req.file with
      | none => exact Or.inl rfl
      | some file =>
          cases db.findOne req.conversationId req.userId with
          | none => exact Or.inl rfl
          | some c =>
              cases hu : req.upload with
              | none => exact Or.inl rfl
              | some r =>
                  simp only
                  rcases persistAndNotify_messages env c _ "Failed to send file message"
                    [uploadFolder file.mimetype] db with h | h
                  · exact Or.inl h
                  · refine Or.inr ⟨_, r, rfl, h, ?_⟩
                    rw [hatt]
                    rfl
  · refine ⟨?_, ?_, ?_, ?_⟩
    · intro hf
      simp [sendVoiceMessage, hf]
    · intro hc
      unfold sendVoiceMessage
      cases req.file with
      | none => simp
      | some file => simp [hc]
    · intro hu
      unfold sendVoiceMessage
      cases req.file with
      | none => simp
      | some file =>
          cases db.findOne req.conversationId req.userId with
          | none => simp [conversationNotFound]
          | some c => simp [hu]
    · unfold sendVoiceMessage
      cases req.file with
      | none => exact Or.inl rfl
      | some file =>
          cases db.findOne req.conversationId req.userId with
          | none => exact Or.inl rfl
          | some c =>
              cases hu : req.upload with
              | none => exact Or.inl rfl
              | some r =>
                  simp only
                  rcases persistAndNotify_messages env c _ "Failed to send voice message"
                    ["messages/voice"] db with h | h
                  · exact Or.inl h
                  · refine Or.inr ⟨_, r, rfl, h, ?_⟩
                    rw [hatt]
                    rfl

/-! ## Lemmas: what the send handlers emit -/

/-- The document written by the save of a new valid message is valid. -/
theorem validate_toStore_new (m : Message) (now : Date) (hv : m.validate = true) :
    (m.toStore true now).validate = true := by
  have hfield : m.toStore true now =
      { m with sentAt := now, createdAt := now, status := (m.toStore true now).status } := by
    unfold Message.toStore Message.preSave
    simp only [if_true]
    split <;> rfl
  have hcongr := validate_congr (m.toStore true now)
    ({ m with status := (m.toStore true now).status } : Message)
    (by rw [hfield]) (by rw [hfield]) (by rw [hfield]) (by rw [hfield]) (by rw [hfield])
    (by rw [hfield]) (by rw [hfield]) (by rw [hfield])
  rw [hcongr]
  apply validate_status m _ hv
  rw [toStore_status]
  split
  · decide
  · exact (validate_parts m hv).2.2.1

/-- The common tail emits only after the save and the conversation update have
succeeded, and what it emits is the stored document. -/
theorem persistAndNotify_emitted (env : Env) (conversation : Conversation) (message : Message)
    (failure : String) (uploaded : List String) (db : Store) (e : Emit)
    (he : e ∈ (persistAndNotify env conversation message failure uploaded db).emitted) :
    e = { room := "conversation_" ++ toString message.conversation, event := "new_message",
          message := message.toStore true env.now } ∧
    message.validate = true ∧
    (persistAndNotify env conversation message failure uploaded db).response.status = 201 ∧
    (persistAndNotify env conversation message failure uploaded db).response.data
      = some (message.toStore true env.now) ∧
    (persistAndNotify env conversation message failure uploaded db).db.messages
      = db.messages ++ [message.toStore true env.now] := by
  cases hv : message.validate with
  | false =>
      rw [persistAndNotify_invalid _ _ _ _ _ _ hv] at he
      simp at he
  | true =>
      by_cases ht : message.type ∈ lastMessageTypeEnum
      · have ht1 : (message.toStore true env.now).type ∈ lastMessageTypeEnum := by
          rw [(toStore_fields message true env.now).2.2.2.1]; exact ht
        have hout : ∃ db2 : Store,
            persistAndNotify env conversation message failure uploaded db =
              { response :=
                  { status := 201, success := true, data := some (message.toStore true env.now) },
                db := db2,
                emitted := emitNewMessage env (message.toStore true env.now).conversation
                  (message.toStore true env.now),
                uploaded := uploaded } ∧
            db2.messages = db.messages ++ [message.toStore true env.now] := by
          unfold persistAndNotify
          rw [save_new_ok message env.now db hv]
          simp only
          rw [updateLastMessage_ok _ _ _ _ ht1]
          exact ⟨_, rfl, by simp only [updateConversation_messages, postSave_messages]⟩
        obtain ⟨db2, hout, hmsgs⟩ := hout
        rw [hout] at he ⊢
        simp only at he ⊢
        unfold emitNewMessage at he
        split at he
        · rw [List.mem_singleton] at he
          rw [(toStore_fields message true env.now).2.1] at he
          exact ⟨he, trivial, trivial, trivial, hmsgs⟩
        · simp at he
      · rw [persistAndNotify_badType _ _ _ _ _ _ hv ht] at he
        simp at he

/-- Every event a send handler emits is `new_message` to the room of the
addressed conversation, carrying the message the store has just persisted for
that conversation; the request is answered 201 with that message. -/
theorem send_emitted (env : Env) (req : SendRequest) (db : Store) (e : Emit)
    (he : e ∈ (send env req db).emitted) :
    e.event = "new_message" ∧ e.room = "conversation_" ++ toString req.conversationId ∧
    e.message.conversation = req.conversationId ∧
    e.message ∈ (send env req db).db.messages ∧
    (send env req db).db.messages = db.messages ++ [e.message] ∧
    e.message.validate = true ∧
    (send env req db).response.status = 201 ∧
    (send env req db).response.data = some e.message := by
  have key : ∀ (c : Conversation) (message : Message) (failure : String)
      (uploaded : List String),
      message.conversation = req.conversationId →
      e ∈ (persistAndNotify env c message failure uploaded db).emitted →
      e.event = "new_message" ∧ e.room = "conversation_" ++ toString req.conversationId ∧
      e.message.conversation = req.conversationId ∧
      e.message ∈ (persistAndNotify env c message failure uploaded db).db.messages ∧
      (persistAndNotify env c message failure uploaded db).db.messages
        = db.messages ++ [e.message] ∧
      e.message.validate = true ∧
      (persistAndNotify env c message failure uploaded db).response.status = 201 ∧
      (persistAndNotify env c message failure uploaded db).response.data = some e.message := by
    intro c message failure uploaded hconv hmem
    obtain ⟨h1, hv, h2, h3, h4⟩ := persistAndNotify_emitted env c message failure uploaded db e hmem
    have hm : e.message = message.toStore true env.now := by rw [h1]
    refine ⟨by rw [h1], by rw [h1, hconv], ?_, ?_, ?_, ?_, h2, ?_⟩
    · rw [hm, (toStore_fields message true env.now).2.1, hconv]
    · rw [h4, hm]; simp
    · rw [h4, hm]
    · rw [hm]; exact validate_toStore_new message env.now hv
    · rw [h3, hm]
  cases req with
  | text r =>
      cases hval : validateTextMessage r with
      | false => simp [send, sendTextMessage, hval] at he
      | true =>
          cases hc : db.findOne r.conversationId r.userId with
          | none => simp [send, sendTextMessage, hval, hc] at he
          | some c =>
              simp only [send, sendTextMessage, SendRequest.conversationId, hval, hc,
                Bool.not_true, Bool.false_eq_true, if_false] at he ⊢
              exact key c _ _ _ rfl he
  | file r =>
      cases hf : r.file with
      | none => simp [send, sendFileMessage, hf] at he
      | some file =>
          cases hc : db.findOne r.conversationId r.userId with
          | none => simp [send, sendFileMessage, hf, hc] at he
          | some c =>
              cases hu : r.upload with
              | none => simp [send, sendFileMessage, hf, hc, hu] at he
              | some r1 =>
                  simp only [send, sendFileMessage, SendRequest.conversationId, hf, hc, hu]
                    at he ⊢
                  exact key c _ _ _ rfl he
  | voice r =>
      cases hf : r.file with
      | none => simp [send, sendVoiceMessage, hf] at he
      | some file =>
          cases hc : db.findOne r.conversationId r.userId with
          | none => simp [send, sendVoiceMessage, hf, hc] at he
          | some c =>
              cases hu : r.upload with
              | none => simp [send, sendVoiceMessage, hf, hc, hu] at he
              | some r1 =>
                  simp only [send, sendVoiceMessage, SendRequest.conversationId, hf, hc, hu]
                    at he ⊢
                  exact key c _ _ _ rfl he
  | payment r =>
      cases hc : db.findOne r.conversationId r.userId with
      | none => simp [send, sendPaymentRequest, hc] at he
      | some c =>
          simp only [send, sendPaymentRequest, SendRequest.conversationId, hc] at he ⊢
          exact key c _ _ _ rfl he

/-! ## Lemmas: the `send_message` listener -/

theorem mem_socketTo (g : Gateway) (socketId room : String) (event : ServerEvent)
    (d : Delivery) (hd : d ∈ (g.socketTo socketId room event).delivered) :
    d ∈ g.delivered ∨
      (d.event = event ∧ d.socketId ≠ socketId ∧
        ∃ s ∈ g.sockets, s.id = d.socketId ∧ room ∈ s.rooms) := by
  unfold Gateway.socketTo at hd
  simp only [List.mem_append, List.mem_map, List.mem_filter] at hd
  rcases hd with hd | ⟨s, ⟨hs, hcond⟩, rfl⟩
  · exact Or.inl hd
  · simp only [Bool.and_eq_true, bne_iff_ne, ne_eq, List.contains_eq_any_beq, List.any_eq_true,
      beq_iff_eq] at hcond
    obtain ⟨hne, r, hr, hrr⟩ := hcond
    exact Or.inr ⟨rfl, hne, s, hs, rfl, by rw [hrr]; exact hr⟩

/-- What the `try` block of `send_message` does: it changes neither the
connections nor `activeUsers`; a `new_message` it delivers goes to the other
sockets of the named room and carries the `message` field of the payload as
the client sent it; a `message_notification` goes to the socket registered for
the receiver. -/
theorem sendMessageTry_spec (g : Gateway) (now : Date) (socket : Socket) (data : Payload) :
    (g.sendMessageTry now socket data).1.sockets = g.sockets ∧
    (g.sendMessageTry now socket data).1.activeUsers = g.activeUsers ∧
    ∀ d ∈ (g.sendMessageTry now socket data).1.delivered,
      d ∈ g.delivered ∨
      (∃ (c m : JsValue), data.field "conversationId" = .ok c ∧ data.field "message" = .ok m ∧
        d.event = .new_message c m socket.userId now ∧ d.socketId ≠ socket.id ∧
        ∃ s ∈ g.sockets, s.id = d.socketId ∧ ("conversation_" ++ c.toText) ∈ s.rooms) ∨
      (∃ (c r : JsValue) (m : String) (a : ActiveUser),
        data.field "conversationId" = .ok c ∧ data.field "receiverId" = .ok r ∧
        data.field "message" = .ok (.string m) ∧ g.getActiveUser r = some a ∧
        d.event = .message_notification c socket.userId (jsSubstring m 50) now ∧
        d.socketId ≠ socket.id ∧ ∃ s ∈ g.sockets, s.id = d.socketId ∧ a.socketId ∈ s.rooms) := by
  unfold Gateway.sendMessageTry
  split
  · rename_i c m r hc hm hr
    have hnew : ∀ d ∈ (g.socketTo socket.id ("conversation_" ++ c.toText)
        (.new_message c m socket.userId now)).delivered,
        d ∈ g.delivered ∨
        (∃ (c1 m1 : JsValue), data.field "conversationId" = .ok c1 ∧
          data.field "message" = .ok m1 ∧
          d.event = .new_message c1 m1 socket.userId now ∧ d.socketId ≠ socket.id ∧
          ∃ s ∈ g.sockets, s.id = d.socketId ∧ ("conversation_" ++ c1.toText) ∈ s.rooms) := by
      intro d hd
      rcases mem_socketTo g _ _ _ d hd with h | ⟨h1, h2, h3⟩
      · exact Or.inl h
      · exact Or.inr ⟨c, m, hc, hm, h1, h2, h3⟩
    simp only
    split
    · rename_i a ha
      split
      · rename_i preview hp
        refine ⟨rfl, rfl, ?_⟩
        intro d hd
        rcases mem_socketTo _ _ _ _ d hd with h | ⟨h1, h2, h3⟩
        · rcases hnew d h with h | h
          · exact Or.inl h
          · exact Or.inr (Or.inl h)
        · right; right
          cases m with
          | string text =>
              simp only [JsValue.substring50, Except.ok.injEq] at hp
              rw [← hp] at h1
              exact ⟨c, r, text, a, hc, hr, hm, ha, h1, h2, h3⟩
          | undefined => simp [JsValue.substring50] at hp
          | null => simp [JsValue.substring50] at hp
          | bool b => simp [JsValue.substring50] at hp
          | number n => simp [JsValue.substring50] at hp
          | other t => simp [JsValue.substring50] at hp
      · refine ⟨rfl, rfl, ?_⟩
        intro d hd
        rcases hnew d hd with h | h
        · exact Or.inl h
        · exact Or.inr (Or.inl h)
    · refine ⟨rfl, rfl, ?_⟩
      intro d hd
      rcases hnew d hd with h | h
      · exact Or.inl h
      · exact Or.inr (Or.inl h)
  · exact ⟨rfl, rfl, fun d hd => Or.inl hd⟩
  · exact ⟨rfl, rfl, fun d hd => Or.inl hd⟩
  · exact ⟨rfl, rfl, fun d hd => Or.inl hd⟩

/-! ## Claim C24 -/

/-- Claim C24, counterexample: B has joined the room of C1, and a connected
user who is not a participant of C1 sends the gateway event `send_message` for
C1 with the text "never stored".  B's socket receives `new_message` carrying
that text, although the store holds no message at all: the gateway relays the
client's payload without asking the store. -/
theorem C24_gateway_relays_unstored_message :
    storeC1.messages = [] ∧ outsider ∉ conversationC1.participants ∧
    toString outsider = "30" ∧
    (gatewayWithOutsider.on 5 "socketX" (.send_message (relayPayload "never stored"))).toOption.map
        (fun g => g.delivered.drop gatewayWithOutsider.delivered.length)
      = some
        [{ socketId := "socketB",
           event := .new_message (.string "1") (.string "never stored") "30" 5 },
         { socketId := "socketB",
           event := .message_notification (.string "1") "30" "never stored" 5 }] := by
  decide

/-- Claim C24, amended: every `new_message` event that a send handler of the
HTTP interface emits through `io.emitToConversation` goes to the room of the
addressed conversation, is emitted after the save and the conversation update
have succeeded (the request is answered 201 with the message), and carries the
message the store has just persisted for that conversation.  The gateway
listener `send_message` never fails and never touches the store: every
`new_message` it delivers goes to the other sockets of the room named in the
payload and carries the `message` field of the payload as the client sent it. -/
theorem C24_http_emits_persisted_gateway_relays (env : Env) (req : SendRequest) (db : Store)
    (g : Gateway) (now : Date) (socket : Socket) (data : Payload) :
    (∀ e ∈ (send env req db).emitted,
      e.event = "new_message" ∧ e.room = "conversation_" ++ toString req.conversationId ∧
      e.message.conversation = req.conversationId ∧
      e.message ∈ (send env req db).db.messages ∧
      (send env req db).db.messages = db.messages ++ [e.message] ∧
      e.message.validate = true ∧
      (send env req db).response.status = 201 ∧
      (send env req db).response.data = some e.message) ∧
    (∃ g1 : Gateway, g.listener now socket (.send_message data) = .ok g1 ∧
      g1.sockets = g.sockets ∧ g1.activeUsers = g.activeUsers ∧
      ∀ d ∈ g1.delivered, ∀ (c m : JsValue) (sender : String) (t : Date),
        d.event = .new_message c m sender t → d ∉ g.delivered →
        data.field "conversationId" = .ok c ∧ data.field "message" = .ok m ∧
        sender = socket.userId ∧ t = now ∧ d.socketId ≠ socket.id ∧
        ∃ s ∈ g.sockets, s.id = d.socketId ∧ ("conversation_" ++ c.toText) ∈ s.rooms) := by
  refine ⟨fun e he => send_emitted env req db e he, ?_⟩
  obtain ⟨hs, ha, hd⟩ := sendMessageTry_spec g now socket data
  have hcases : ∀ d ∈ (g.sendMessageTry now socket data).1.delivered,
      ∀ (c m : JsValue) (sender : String) (t : Date),
      d.event = .new_message c m sender t → d ∉ g.delivered →
      data.field "conversationId" = .ok c ∧ data.field "message" = .ok m ∧
      sender = socket.userId ∧ t = now ∧ d.socketId ≠ socket.id ∧
      ∃ s ∈ g.sockets, s.id = d.socketId ∧ ("conversation_" ++ c.toText) ∈ s.rooms := by
    intro d hmem c m sender t hev hnot
    rcases hd d hmem with h | ⟨c1, m1, hc1, hm1, hev1, hne, hroom⟩ |
      ⟨c1, r1, m1, a1, -, -, -, -, hev1, -, -⟩
    · exact absurd h hnot
    · rw [hev1] at hev
      simp only [ServerEvent.new_message.injEq] at hev
      obtain ⟨rfl, rfl, rfl, rfl⟩ := hev
      exact ⟨hc1, hm1, rfl, rfl, hne, hroom⟩
    · rw [hev1] at hev
      exact ServerEvent.noConfusion hev
  have hl : g.listener now socket (.send_message data) =
      (match g.sendMessageTry now socket data with
       | (g1, none) => .ok g1
       | (g1, some _) => .ok (g1.socketEmit socket.id (.error "Failed to send message"))) := rfl
  rw [hl]
  cases hres : g.sendMessageTry now socket data with
  | mk g1 err =>
      rw [hres] at hs ha hcases
      cases err with
      | none => exact ⟨g1, rfl, hs, ha, hcases⟩
      | some e =>
          refine ⟨_, rfl, hs, ha, ?_⟩
          intro d hmem c m sender t hev hnot
          simp only [Gateway.socketEmit, List.mem_append, List.mem_singleton] at hmem
          rcases hmem with hmem | hmem
          · exact hcases d hmem c m sender t hev hnot
          · rw [hmem] at hev
            exact ServerEvent.noConfusion hev

/-! ## Claim C25 -/

/-- Claim C25, the code at the failing input.  A and B are connected and B has
joined the room of C1.  A sends `send_message` for C1 with receiver B: B's
socket receives `new_message` through the room and `message_notification` as
well, although B is subscribed to the room.  With B not connected, nobody
receives a notification. -/
theorem C25_notification_reaches_room_member :
    (gatewayAB.socket "socketB").map (fun s => s.rooms.contains "conversation_1") = some true ∧
    gatewayAB.isUserOnline "20" = true ∧
    (gatewayAB.on 5 "socketA" (.send_message (relayPayload "Hello"))).toOption.map
        (fun g => g.delivered.drop gatewayAB.delivered.length)
      = some
        [{ socketId := "socketB", event := .new_message (.string "1") (.string "Hello") "10" 5 },
         { socketId := "socketB",
           event := .message_notification (.string "1") "10" "Hello" 5 }] ∧
    ((({} : Gateway).handleConnection 1 "socketA" "10").on 5 "socketA"
        (.send_message (relayPayload "Hello"))).toOption.map (fun g => g.delivered)
      = some [] := by
  decide

/-- The rule the `send_message` listener follows for `message_notification`:
when the payload is an object whose `message` is a string, the notification is
delivered exactly to the sockets other than the sender's that are in the room
named by the socket id registered for the receiver in `activeUsers`; whether
the receiver has joined the conversation room plays no part. -/
theorem notification_rule (g : Gateway) (now : Date) (socket : Socket)
    (fields : List (String × JsValue)) (text : String)
    (hm : fields.lookup "message" = some (.string text)) :
    (g.sendMessageTry now socket (.object fields)).2 = none ∧
    (g.sendMessageTry now socket (.object fields)).1.delivered =
      g.delivered ++
      ((g.sockets.filter (fun s => s.id != socket.id &&
          s.rooms.contains
            ("conversation_" ++ ((fields.lookup "conversationId").getD .undefined).toText))).map
        (fun s => { socketId := s.id,
                    event := .new_message ((fields.lookup "conversationId").getD .undefined)
                      (.string text) socket.userId now })) ++
      (match g.getActiveUser ((fields.lookup "receiverId").getD .undefined) with
       | some a =>
           (g.sockets.filter (fun s => s.id != socket.id && s.rooms.contains a.socketId)).map
             (fun s => { socketId := s.id,
                         event := .message_notification
                           ((fields.lookup "conversationId").getD .undefined) socket.userId
                           (jsSubstring text 50) now })
       | none => []) := by
  unfold Gateway.sendMessageTry
  simp only [Payload.field, hm, Option.getD_some]
  cases hr : g.getActiveUser ((fields.lookup "receiverId").getD .undefined) with
  | none =>
      have hr1 : (g.socketTo socket.id
          ("conversation_" ++ ((fields.lookup "conversationId").getD .undefined).toText)
          (.new_message ((fields.lookup "conversationId").getD .undefined) (.string text)
            socket.userId now)).getActiveUser ((fields.lookup "receiverId").getD .undefined)
          = none := hr
      rw [hr1]
      simp [Gateway.socketTo]
  | some a =>
      have hr1 : (g.socketTo socket.id
          ("conversation_" ++ ((fields.lookup "conversationId").getD .undefined).toText)
          (.new_message ((fields.lookup "conversationId").getD .undefined) (.string text)
            socket.userId now)).getActiveUser ((fields.lookup "receiverId").getD .undefined)
          = some a := hr
      rw [hr1]
      simp [Gateway.socketTo, JsValue.substring50]

/-! ## Claim C26 -/

/-- Claim C26, the code at the failing input.  A connected client sends
`typing_start` without a payload (or `typing_stop` with `null`): the
destructuring throws a `TypeError` that nothing catches, so the event leaves
the listener as an uncaught exception.  The same payload on `send_message` is
caught: the sender gets an `error` event and the gateway is otherwise as it
was. -/
theorem C26_typing_without_payload_throws :
    (gatewayAB.on 5 "socketA" (.typing_start (.value .undefined))).toOption = none ∧
    (gatewayAB.on 5 "socketA" (.typing_stop (.value .null))).toOption = none ∧
    (gatewayAB.steps [(5, .client "socketA" (.typing_start (.value .undefined))),
                      (6, .client "socketB" (.typing_stop (.object [])))]).toOption = none ∧
    (gatewayAB.on 5 "socketA" (.send_message (.value .undefined))).toOption
      = some { gatewayAB with
          delivered := gatewayAB.delivered ++
            [{ socketId := "socketA", event := .error "Failed to send message" }] } := by
  decide

/-- The listeners of `join_conversation`, `leave_conversation`, `send_message`,
`join_order_room` and `leave_order_room` never throw, whatever the payload, and
leave `activeUsers` and the open connections in place; the listeners of
`typing_start` and `typing_stop` throw exactly when the payload is `undefined`
or `null`. -/
theorem listeners_on_any_payload (g : Gateway) (now : Date) (socket : Socket) (data : Payload) :
    (∀ event ∈ [ClientEvent.join_conversation data, .leave_conversation data,
        .send_message data, .join_order_room data, .leave_order_room data],
      ∃ g1 : Gateway, g.listener now socket event = .ok g1 ∧
        g1.activeUsers = g.activeUsers ∧
        g1.sockets.map (fun s => (s.id, s.userId)) = g.sockets.map (fun s => (s.id, s.userId))) ∧
    (∀ event ∈ [ClientEvent.typing_start data, .typing_stop data],
      ((g.listener now socket event).toOption = none ↔
        (data = .value .undefined ∨ data = .value .null)) ∧
      ∀ g1 : Gateway, g.listener now socket event = .ok g1 →
        g1.activeUsers = g.activeUsers ∧ g1.sockets = g.sockets) := by
  have hjoin : ∀ room : String,
      (g.join socket.id room).sockets.map (fun s => (s.id, s.userId))
        = g.sockets.map (fun s => (s.id, s.userId)) := by
    intro room
    simp only [Gateway.join, List.map_map]
    apply List.map_congr_left
    intro s _
    simp only [Function.comp]
    split <;> rfl
  have hleave : ∀ room : String,
      (g.leave socket.id room).sockets.map (fun s => (s.id, s.userId))
        = g.sockets.map (fun s => (s.id, s.userId)) := by
    intro room
    simp only [Gateway.leave, List.map_map]
    apply List.map_congr_left
    intro s _
    simp only [Function.comp]
    split <;> rfl
  refine ⟨?_, ?_⟩
  · intro event hev
    simp only [List.mem_cons, List.mem_singleton, List.not_mem_nil, or_false] at hev
    rcases hev with rfl | rfl | rfl | rfl | rfl
    · exact ⟨_, rfl, rfl, hjoin _⟩
    · exact ⟨_, rfl, rfl, hleave _⟩
    · obtain ⟨hs, ha, -⟩ := sendMessageTry_spec g now socket data
      have hl : g.listener now socket (.send_message data) =
          (match g.sendMessageTry now socket data with
           | (g1, none) => .ok g1
           | (g1, some _) =>
               .ok (g1.socketEmit socket.id (.error "Failed to send message"))) := rfl
      rw [hl]
      cases hres : g.sendMessageTry now socket data with
      | mk g1 err =>
          rw [hres] at hs ha
          cases err with
          | none => exact ⟨g1, rfl, ha, by rw [hs]⟩
          | some e => exact ⟨_, rfl, ha, by rw [← hs]; rfl⟩
    · exact ⟨_, rfl, rfl, hjoin _⟩
    · exact ⟨_, rfl, rfl, hleave _⟩
  · intro event hev
    simp only [List.mem_cons, List.mem_singleton, List.not_mem_nil, or_false] at hev
    rcases hev with rfl | rfl
    · cases data with
      | value v =>
          cases v <;> simp [Gateway.listener, Payload.field, Except.toOption, Gateway.socketTo]
      | object fields =>
          simp [Gateway.listener, Payload.field, Except.toOption, Gateway.socketTo]
    · cases data with
      | value v =>
          cases v <;> simp [Gateway.listener, Payload.field, Except.toOption, Gateway.socketTo]
      | object fields =>
          simp [Gateway.listener, Payload.field, Except.toOption, Gateway.socketTo]

/-! ## Claim C27 -/

/-- The test `s.startsWith(p)` holds exactly when `s` is `p` followed by some
text. -/
theorem jsStartsWith_iff (s p : String) :
    jsStartsWith s p = true ↔ ∃ rest : String, s = p ++ rest := by
  unfold jsStartsWith
  rw [List.isPrefixOf_iff_prefix]
  constructor
  · rintro ⟨t, ht⟩
    exact ⟨String.mk t, String.ext (by rw [String.data_append, ← ht])⟩
  · rintro ⟨rest, rfl⟩
    exact ⟨rest.data, by rw [String.data_append]⟩

/-- The test `s.includes(p)` holds exactly when `p` occurs somewhere in `s`. -/
theorem jsIncludes_iff (s p : String) :
    jsIncludes s p = true ↔ ∃ front back : String, s = front ++ p ++ back := by
  unfold jsIncludes
  rw [List.any_eq_true]
  constructor
  · rintro ⟨t, ht, hp⟩
    rw [List.mem_tails] at ht
    rw [List.isPrefixOf_iff_prefix] at hp
    obtain ⟨a, ha⟩ := ht
    obtain ⟨b, hb⟩ := hp
    refine ⟨String.mk a, String.mk b, String.ext ?_⟩
    rw [String.data_append, String.data_append, ← ha, ← hb, List.append_assoc]
  · rintro ⟨a, b, rfl⟩
    refine ⟨p.data ++ b.data, ?_, ?_⟩
    · rw [List.mem_tails]
      exact ⟨a.data, by rw [String.data_append, String.data_append, List.append_assoc]⟩
    · rw [List.isPrefixOf_iff_prefix]
      exact ⟨b.data, rfl⟩

/-- Claim C27: `getAttachmentType` returns a value for every mime-type string,
one of image, video, audio, pdf, zip, document, other, all of which are in the
schema enum of `attachmentType`; it classifies by first match: a type that
starts with `image/` gives image, else one that starts with `video/` gives
video, else one that starts with `audio/` gives audio, else `application/pdf`
gives pdf, else a type containing `zip` gives zip, else one containing
`document` or `word` gives document, and anything else gives other.  On the
allow-list of the message upload the results are image (four types), video
(three), audio (four), pdf, document for both Word types, zip for both zip
types and other for `text/plain` and `text/csv`. -/
theorem C27_getAttachmentType_classifies (mimeType : String) :
    getAttachmentType mimeType ∈ ["image", "video", "audio", "pdf", "zip", "document", "other"] ∧
    getAttachmentType mimeType ∈ attachmentTypeEnum ∧
    ((∃ rest : String, mimeType = "image/" ++ rest) → getAttachmentType mimeType = "image") ∧
    ((¬ ∃ rest : String, mimeType = "image/" ++ rest) →
      ((∃ rest : String, mimeType = "video/" ++ rest) → getAttachmentType mimeType = "video") ∧
      ((¬ ∃ rest : String, mimeType = "video/" ++ rest) →
        ((∃ rest : String, mimeType = "audio/" ++ rest) →
          getAttachmentType mimeType = "audio") ∧
        ((¬ ∃ rest : String, mimeType = "audio/" ++ rest) →
          (mimeType = "application/pdf" → getAttachmentType mimeType = "pdf") ∧
          (mimeType ≠ "application/pdf" →
            ((∃ front back : String, mimeType = front ++ "zip" ++ back) →
              getAttachmentType mimeType = "zip") ∧
            ((¬ ∃ front back : String, mimeType = front ++ "zip" ++ back) →
              (((∃ front back : String, mimeType = front ++ "document" ++ back) ∨
                (∃ front back : String, mimeType = front ++ "word" ++ back)) →
                getAttachmentType mimeType = "document") ∧
              ((¬ ∃ front back : String, mimeType = front ++ "document" ++ back) →
                (¬ ∃ front back : String, mimeType = front ++ "word" ++ back) →
                getAttachmentType mimeType = "other")))))) ∧
    allowedTypes.map getAttachmentType =
      ["image", "image", "image", "image", "video", "video", "video",
       "audio", "audio", "audio", "audio", "pdf", "document", "document",
       "zip", "zip", "other", "other"] ∧
    (∀ t ∈ allowedTypes, getAttachmentType t ∈ attachmentTypeEnum) := by
  have hvalues : getAttachmentType mimeType
      ∈ ["image", "video", "audio", "pdf", "zip", "document", "other"] := by
    unfold getAttachmentType
    repeat' split
    all_goals decide
  refine ⟨hvalues, ?_, ?_, ?_, by decide, by decide⟩
  · have hsub : ∀ x ∈ ["image", "video", "audio", "pdf", "zip", "document", "other"],
        x ∈ attachmentTypeEnum := by decide
    exact hsub _ hvalues
  · intro h
    have hb := (jsStartsWith_iff mimeType "image/").mpr h
    simp [getAttachmentType, hb]
  · intro h1
    have hb1 : jsStartsWith mimeType "image/" = false := by
      rw [← Bool.not_eq_true, jsStartsWith_iff]; exact h1
    refine ⟨?_, ?_⟩
    · intro h
      have hb := (jsStartsWith_iff mimeType "video/").mpr h
      simp [getAttachmentType, hb1, hb]
    · intro h2
      have hb2 : jsStartsWith mimeType "video/" = false := by
        rw [← Bool.not_eq_true, jsStartsWith_iff]; exact h2
      refine ⟨?_, ?_⟩
      · intro h
        have hb := (jsStartsWith_iff mimeType "audio/").mpr h
        simp [getAttachmentType, hb1, hb2, hb]
      · intro h3
        have hb3 : jsStartsWith mimeType "audio/" = false := by
          rw [← Bool.not_eq_true, jsStartsWith_iff]; exact h3
        refine ⟨?_, ?_⟩
        · intro h
          rw [h]
          decide
        · intro h4
          refine ⟨?_, ?_⟩
          · intro h
            have hb := (jsIncludes_iff mimeType "zip").mpr h
            simp [getAttachmentType, hb1, hb2, hb3, h4, hb]
          · intro h5
            have hb5 : jsIncludes mimeType "zip" = false := by
              rw [← Bool.not_eq_true, jsIncludes_iff]; exact h5
            refine ⟨?_, ?_⟩
            · intro h
              have hb : (jsIncludes mimeType "document" || jsIncludes mimeType "word") = true := by
                rw [Bool.or_eq_true, jsIncludes_iff, jsIncludes_iff]; exact h
              simp only [getAttachmentType, hb1, hb2, hb3, hb5, hb, Bool.false_eq_true, if_false,
                if_true, beq_iff_eq, h4]
            · intro h6 h7
              have hb6 : jsIncludes mimeType "document" = false := by
                rw [← Bool.not_eq_true, jsIncludes_iff]; exact h6
              have hb7 : jsIncludes mimeType "word" = false := by
                rw [← Bool.not_eq_true, jsIncludes_iff]; exact h7
              simp [getAttachmentType, hb1, hb2, hb3, h4, hb5, hb6, hb7]

/-! ## Claim C28 -/

/-- Claim C28, the code at the failing input.  After A's text "Hello" has been
accepted into C1 (one message, B has one unread), each of `editContent`,
`markAsRead`, `addReaction`, `removeReaction` and `flag` on that message runs
`post('save')` again: `metadata.totalMessages` becomes 2 and B's `unreadCount`
becomes 2 although the conversation still holds one message, and after the
edit the `lastMessage` snapshot is rewritten. -/
theorem C28_later_saves_rerun_updateLastMessage :
    storeAfterHello.messages.length = 1 ∧
    storeAfterHello.totalMessages 1 = some 1 ∧
    storeAfterHello.unreadCount 1 userB = some 1 ∧
    [MessagingOp.editContent 100 "Hi", .messageMarkAsRead 100 userB,
      .addReaction 100 userB emojiOne, .removeReaction 100 userB,
      .flag 100 userB "spam"].map
        (fun op => ((op.run 6 storeAfterHello).messages.length,
          (op.run 6 storeAfterHello).totalMessages 1,
          (op.run 6 storeAfterHello).unreadCount 1 userB))
      = [(1, some 2, some 2), (1, some 2, some 2), (1, some 2, some 2), (1, some 2, some 2),
         (1, some 2, some 2)] ∧
    (storeAfterHello.findById 1).map (fun c => (c.lastMessage.content, c.metadata.lastActivity))
      = some (some "Hello", 5) ∧
    (((MessagingOp.editContent 100 "Hi").run 6 storeAfterHello).findById 1).map
        (fun c => (c.lastMessage.content, c.metadata.lastActivity))
      = some (some "Hi", 6) := by
  decide

/-! ## Claim C29 -/

/-- Claim C29, the code at the failing input.  Six of the ten values of the
Message `type` enum are not in the enum of `lastMessage.messageType`.  The
voice message that the voice send stores is schema-valid, and
`updateLastMessage` with it is rejected; the same holds for every message whose
type is one of the six. -/
theorem C29_updateLastMessage_rejects_voice :
    messageTypeEnum.filter (fun t => !lastMessageTypeEnum.contains t)
      = ["order_update", "voice", "video", "email", "payment_request", "payment_receipt"] ∧
    (send (envAt 5) (.voice voiceRequest) storeC1).db.messages = [voiceMessage] ∧
    voiceMessage.validate = true ∧
    (conversationC1.updateLastMessage voiceMessage 6
      { conversations := [conversationC1], messages := [voiceMessage] }).toOption = none ∧
    (∀ (m : Message) (c : Conversation) (now : Date) (db : Store),
      m.type ∉ lastMessageTypeEnum → c.updateLastMessage m now db = .error "ValidationError") := by
  refine ⟨by decide, by decide, by decide, by decide, ?_⟩
  intro m c now db h
  simp [Conversation.updateLastMessage, Conversation.save, Conversation.validatePath, h]

/-! ## Claim C30 -/

/-- Claim C30, the code at the failing input.  User A opens two connections
and closes the first one: the second connection is still open, but
`isUserOnline` answers false for A, because `disconnect` deletes the user's
entry of `activeUsers` whichever of the user's sockets closes. -/
theorem C30_second_connection_left_offline :
    (({} : Gateway).steps
        [(1, .connect "socketA1" "10"), (2, .connect "socketA2" "10")]).toOption.map
        (fun g => (g.isUserOnline "10", g.sockets.map (fun s => (s.id, s.userId))))
      = some (true, [("socketA1", "10"), ("socketA2", "10")]) ∧
    gatewayTwoTabs.toOption.map
        (fun g => (g.isUserOnline "10", g.sockets.map (fun s => (s.id, s.userId)), g.activeUsers))
      = some (false, [("socketA2", "10")], []) := by
  decide

/-! ## Lemmas: presence when every user has one connection -/

theorem isUserOnline_setActiveUser (g : Gateway) (key : String) (value : ActiveUser)
    (u : String) :
    (g.setActiveUser key value).isUserOnline u = true ↔ (g.isUserOnline u = true ∨ u = key) := by
  unfold Gateway.setActiveUser Gateway.isUserOnline
  simp only
  by_cases hk : g.activeUsers.any (fun e => e.1 == key) = true
  · rw [if_pos hk]
    simp only [List.any_eq_true, List.mem_map, beq_iff_eq] at hk ⊢
    constructor
    · rintro ⟨e1, ⟨e, he, rfl⟩, hu⟩
      by_cases hek : e.1 = key
      · rw [if_pos hek] at hu
        exact Or.inr hu.symm
      · rw [if_neg hek] at hu
        exact Or.inl ⟨e, he, hu⟩
    · rintro (⟨e, he, hu⟩ | rfl)
      · refine ⟨_, ⟨e, he, rfl⟩, ?_⟩
        by_cases hek : e.1 = key
        · rw [if_pos hek]; exact hek.symm.trans hu
        · rw [if_neg hek]; exact hu
      · obtain ⟨e, he, hek⟩ := hk
        exact ⟨_, ⟨e, he, rfl⟩, by rw [if_pos hek]⟩
  · rw [if_neg hk]
    simp only [List.any_append, Bool.or_eq_true, List.any_eq_true, beq_iff_eq, List.mem_singleton]
    constructor
    · rintro (h | ⟨e, rfl, hu⟩)
      · exact Or.inl h
      · exact Or.inr hu.symm
    · rintro (h | rfl)
      · exact Or.inl h
      · exact Or.inr ⟨_, rfl, rfl⟩

theorem isUserOnline_deleteActiveUser (g : Gateway) (key : String) (u : String) :
    (g.deleteActiveUser key).isUserOnline u = true ↔ (g.isUserOnline u = true ∧ u ≠ key) := by
  unfold Gateway.deleteActiveUser Gateway.isUserOnline
  simp only [List.any_eq_true, List.mem_filter, beq_iff_eq, bne_iff_ne, ne_eq]
  constructor
  · rintro ⟨e, ⟨he, hne⟩, hu⟩
    exact ⟨⟨e, he, hu⟩, by rw [← hu]; exact hne⟩
  · rintro ⟨⟨e, he, hu⟩, hne⟩
    exact ⟨e, ⟨he, by rw [hu]; exact hne⟩, hu⟩

/-- Members of a list on which a function has no duplicate values are equal
when their values are. -/
theorem eq_of_nodup_map {α β : Type} (f : α → β) (l : List α) (hnd : (l.map f).Nodup)
    (a b : α) (ha : a ∈ l) (hb : b ∈ l) (hab : f a = f b) : a = b := by
  induction l with
  | nil => cases ha
  | cons x xs ih =>
      rw [List.map_cons, List.nodup_cons] at hnd
      rcases List.mem_cons.mp ha with rfl | ha1
      · rcases List.mem_cons.mp hb with rfl | hb1
        · rfl
        · exact absurd (List.mem_map.mpr ⟨b, hb1, hab.symm⟩) hnd.1
      · rcases List.mem_cons.mp hb with rfl | hb1
        · exact absurd (List.mem_map.mpr ⟨a, ha1, hab⟩) hnd.1
        · exact ih hnd.2 ha1 hb1

/-- Where claim C30 holds.  Call a gateway regular when its open connections
have distinct socket ids, no user has two open connections, and
`isUserOnline(u)` is true exactly when a connection of `u` is open.  The empty
gateway is regular, and a step leaves a regular gateway regular when it is a
client event that the listener survives, or the connection of a new socket for
a user who has no open connection. -/
theorem presence_with_single_connections (g : Gateway) (now : Date) (step : GatewayStep)
    (g1 : Gateway)
    (hids : (g.sockets.map (fun s => s.id)).Nodup)
    (husers : (g.sockets.map (fun s => s.userId)).Nodup)
    (honline : ∀ u : String, g.isUserOnline u = true ↔ ∃ s ∈ g.sockets, s.userId = u)
    (hnew : ∀ (socketId userId : String), step = .connect socketId userId →
      ∀ s ∈ g.sockets, s.id ≠ socketId ∧ s.userId ≠ userId)
    (hstep : g.step now step = .ok g1) :
    (g1.sockets.map (fun s => s.id)).Nodup ∧
    (g1.sockets.map (fun s => s.userId)).Nodup ∧
    (∀ u : String, g1.isUserOnline u = true ↔ ∃ s ∈ g1.sockets, s.userId = u) := by
  have hjoin : ∀ (x : Gateway) (sid room : String),
      (x.join sid room).sockets.map (fun s => (s.id, s.userId))
        = x.sockets.map (fun s => (s.id, s.userId)) := by
    intro x sid room
    simp only [Gateway.join, List.map_map]
    apply List.map_congr_left
    intro s _
    simp only [Function.comp]
    split <;> rfl
  have hleave : ∀ (x : Gateway) (sid room : String),
      (x.leave sid room).sockets.map (fun s => (s.id, s.userId))
        = x.sockets.map (fun s => (s.id, s.userId)) := by
    intro x sid room
    simp only [Gateway.leave, List.map_map]
    apply List.map_congr_left
    intro s _
    simp only [Function.comp]
    split <;> rfl
  -- a gateway with the same registry and the same connections is regular too
  have hsame : ∀ (x : Gateway), x.activeUsers = g.activeUsers →
      x.sockets.map (fun s => (s.id, s.userId)) = g.sockets.map (fun s => (s.id, s.userId)) →
      (x.sockets.map (fun s => s.id)).Nodup ∧
      (x.sockets.map (fun s => s.userId)).Nodup ∧
      (∀ u : String, x.isUserOnline u = true ↔ ∃ s ∈ x.sockets, s.userId = u) := by
    intro x ha hs
    have h1 : x.sockets.map (fun s => s.id) = g.sockets.map (fun s => s.id) := by
      have := congrArg (List.map Prod.fst) hs
      simpa [List.map_map, Function.comp] using this
    have h2 : x.sockets.map (fun s => s.userId) = g.sockets.map (fun s => s.userId) := by
      have := congrArg (List.map Prod.snd) hs
      simpa [List.map_map, Function.comp] using this
    refine ⟨h1 ▸ hids, h2 ▸ husers, ?_⟩
    intro u
    have hon : x.isUserOnline u = g.isUserOnline u := by
      unfold Gateway.isUserOnline; rw [ha]
    rw [hon, honline u]
    have hmem : ∀ (y z : Gateway),
        y.sockets.map (fun s => s.userId) = z.sockets.map (fun s => s.userId) →
        (∃ s ∈ y.sockets, s.userId = u) → ∃ s ∈ z.sockets, s.userId = u := by
      intro y z hyz ⟨s, hs1, hs2⟩
      have : u ∈ y.sockets.map (fun s => s.userId) := List.mem_map.mpr ⟨s, hs1, hs2⟩
      rw [hyz] at this
      exact List.mem_map.mp this
    exact ⟨hmem g x h2.symm, hmem x g h2⟩
  cases step with
  | connect socketId userId =>
      have hfresh := hnew socketId userId rfl
      simp only [Gateway.step, Except.ok.injEq] at hstep
      subst hstep
      have hsock : (g.handleConnection now socketId userId).sockets.map
          (fun s => (s.id, s.userId))
          = g.sockets.map (fun s => (s.id, s.userId)) ++ [(socketId, userId)] := by
        simp only [Gateway.handleConnection, Gateway.broadcast]
        rw [hjoin]
        simp [Gateway.setActiveUser]
      have h1 : (g.handleConnection now socketId userId).sockets.map (fun s => s.id)
          = g.sockets.map (fun s => s.id) ++ [socketId] := by
        have := congrArg (List.map Prod.fst) hsock
        simpa [List.map_map, Function.comp] using this
      have h2 : (g.handleConnection now socketId userId).sockets.map (fun s => s.userId)
          = g.sockets.map (fun s => s.userId) ++ [userId] := by
        have := congrArg (List.map Prod.snd) hsock
        simpa [List.map_map, Function.comp] using this
      have hon : ∀ u, (g.handleConnection now socketId userId).isUserOnline u
          = (g.setActiveUser userId { socketId := socketId, lastSeen := now }).isUserOnline u :=
        fun u => rfl
      refine ⟨?_, ?_, ?_⟩
      · rw [h1, List.nodup_append]
        refine ⟨hids, by simp, ?_⟩
        intro a ha hb
        rw [List.mem_singleton] at hb
        subst hb
        obtain ⟨s, hs, hsa⟩ := List.mem_map.mp ha
        exact (hfresh s hs).1 hsa
      · rw [h2, List.nodup_append]
        refine ⟨husers, by simp, ?_⟩
        intro a ha hb
        rw [List.mem_singleton] at hb
        subst hb
        obtain ⟨s, hs, hsa⟩ := List.mem_map.mp ha
        exact (hfresh s hs).2 hsa
      · intro u
        rw [hon, isUserOnline_setActiveUser, honline u]
        have hmem : (∃ s ∈ (g.handleConnection now socketId userId).sockets, s.userId = u) ↔
            u ∈ g.sockets.map (fun s => s.userId) ++ [userId] := by
          rw [← h2, List.mem_map]
        rw [hmem, List.mem_append, List.mem_singleton, List.mem_map]
  | client socketId event =>
      simp only [Gateway.step, Gateway.on] at hstep
      cases hsock : g.socket socketId with
      | none =>
          rw [hsock] at hstep
          simp only [Except.ok.injEq] at hstep
          subst hstep
          exact ⟨hids, husers, honline⟩
      | some socket =>
          rw [hsock] at hstep
          simp only at hstep
          have hmem : socket ∈ g.sockets := List.mem_of_find?_eq_some hsock
          cases event with
          | join_conversation p =>
              simp only [Gateway.listener, Except.ok.injEq] at hstep
              subst hstep
              exact hsame _ rfl (hjoin _ _ _)
          | leave_conversation p =>
              simp only [Gateway.listener, Except.ok.injEq] at hstep
              subst hstep
              exact hsame _ rfl (hleave _ _ _)
          | join_order_room p =>
              simp only [Gateway.listener, Except.ok.injEq] at hstep
              subst hstep
              exact hsame _ rfl (hjoin _ _ _)
          | leave_order_room p =>
              simp only [Gateway.listener, Except.ok.injEq] at hstep
              subst hstep
              exact hsame _ rfl (hleave _ _ _)
          | send_message data =>
              obtain ⟨hs, ha, -⟩ := sendMessageTry_spec g now socket data
              have hl : g.listener now socket (.send_message data) =
                  (match g.sendMessageTry now socket data with
                   | (x, none) => .ok x
                   | (x, some _) =>
                       .ok (x.socketEmit socket.id (.error "Failed to send message"))) := rfl
              rw [hl] at hstep
              cases hres : g.sendMessageTry now socket data with
              | mk x err =>
                  rw [hres] at hs ha hstep
                  cases err with
                  | none =>
                      simp only [Except.ok.injEq] at hstep
                      subst hstep
                      exact hsame _ ha (by rw [hs])
                  | some e =>
                      simp only [Except.ok.injEq] at hstep
                      subst hstep
                      exact hsame _ ha (by rw [← hs]; rfl)
          | typing_start data =>
              have h := (listeners_on_any_payload g now socket data).2 (.typing_start data)
                (by simp) |>.2 g1 hstep
              exact hsame _ h.1 (by rw [h.2])
          | typing_stop data =>
              have h := (listeners_on_any_payload g now socket data).2 (.typing_stop data)
                (by simp) |>.2 g1 hstep
              exact hsame _ h.1 (by rw [h.2])
          | disconnect =>
              simp only [Gateway.listener, Except.ok.injEq] at hstep
              subst hstep
              simp only [Gateway.broadcast, Gateway.deleteActiveUser]
              refine ⟨?_, ?_, ?_⟩
              · exact hids.sublist ((List.filter_sublist _).map _)
              · exact husers.sublist ((List.filter_sublist _).map _)
              · intro u
                have hon := isUserOnline_deleteActiveUser g socket.userId u
                show (g.deleteActiveUser socket.userId).isUserOnline u = true ↔
                  ∃ s ∈ g.sockets.filter (fun s => s.id != socket.id), s.userId = u
                rw [hon, honline u]
                simp only [List.mem_filter, bne_iff_ne, ne_eq]
                constructor
                · rintro ⟨⟨s, hs, hsu⟩, hne⟩
                  refine ⟨s, ⟨hs, ?_⟩, hsu⟩
                  intro hid
                  have := eq_of_nodup_map (fun s => s.id) g.sockets hids s socket hs hmem hid
                  rw [this] at hsu
                  exact hne hsu.symm
                · rintro ⟨s, ⟨hs, hid⟩, hsu⟩
                  refine ⟨⟨s, hs, hsu⟩, ?_⟩
                  intro hu
                  have := eq_of_nodup_map (fun s => s.userId) g.sockets husers s socket hs hmem
                    (hsu.trans hu)
                  rw [this] at hid
                  exact hid rfl

end FreelanceHub
